import Mathlib

/-!
# CC3000 host driver (`nuttx/drivers/wireless/cc3000/wlan.c`)

A shallow embedding of the command encoders, the command/event rendezvous and
the smart-config credential pipeline of `wlan.c`.

Conventions of the embedding

* `unsigned long` and `long` are 32 bits wide (STM32F4).  Unsigned values are
  `Nat`, reduced with `u32`/`u16` wherever the C code can wrap or truncate;
  `long` results are `Int`.
* A byte buffer is a `List Nat` holding `uint8_t` values.  A pointer is an
  object together with an offset into it (`Ptr`); `NULL` is `none`.  Every
  load through a pointer is bounds checked against the object and the
  embedding stops with a `Fault` where the C program would read outside it.
* The argument area of the command buffer
  (`tSLInformation.pucTxCommandBuffer + HEADERS_SIZE_CMD`) is the list of
  bytes written through the `args` cursor, in order.  The session is taken to
  be running: `wlan_start` has installed the transmit buffer.  The encoders
  do not look at the size of that buffer; `storedInTxBuffer` checks an
  encoding against it.
* Calls that leave `wlan.c` (`hci_command_send`, `SimpleLinkWaitEvent`,
  `aes_read_key`, `nvmem_read`, `aes_decrypt`, `SpiOpen`, `WriteWlanPin`,
  callback dispatch) are recorded in `World.trace`, in program order.
-/

namespace CC3000

/-! ## Preprocessor definitions (wlan.c lines 58-92) -/

def SMART_CONFIG_PROFILE_SIZE : Nat := 67
def SL_SET_SCAN_PARAMS_INTERVAL_LIST_SIZE : Nat := 16
def SL_SIMPLE_CONFIG_PREFIX_LENGTH : Nat := 3
def ETH_ALEN : Nat := 6
def MAXIMAL_SSID_LENGTH : Nat := 32

def WLAN_SEC_UNSEC : Nat := 0
def WLAN_SEC_WEP : Nat := 1
def WLAN_SEC_WPA : Nat := 2
def WLAN_SEC_WPA2 : Nat := 3

def WLAN_SL_INIT_START_PARAMS_LEN : Nat := 1
def WLAN_SET_CONNECTION_POLICY_PARAMS_LEN : Nat := 12
def WLAN_DEL_PROFILE_PARAMS_LEN : Nat := 4
def WLAN_SET_MASK_PARAMS_LEN : Nat := 4
def WLAN_SET_SCAN_PARAMS_LEN : Nat := 100
def WLAN_GET_SCAN_RESULTS_PARAMS_LEN : Nat := 4
def WLAN_ADD_PROFILE_NOSEC_PARAM_LEN : Nat := 24
def WLAN_ADD_PROFILE_WEP_PARAM_LEN : Nat := 36
def WLAN_ADD_PROFILE_WPA_PARAM_LEN : Nat := 44
def WLAN_CONNECT_PARAM_LEN : Nat := 29
def WLAN_SMART_CONFIG_START_PARAMS_LEN : Nat := 4

/-- Size of an AES-128 key, `AES128_KEY_SIZE` of security.h. -/
def AES128_KEY_SIZE : Nat := 16

/-- File identifier of the shared-memory file holding the smart-config blob
(wlan.c line 1203: "Read the received data from fileID #13"). -/
def NVMEM_SHARED_MEM_FILEID : Nat := 13

/-! ## Machine integers -/

/-- Value of an expression of type `unsigned long` (32 bits). -/
def u32 (n : Nat) : Nat := n % 4294967296

/-- Value stored into a `uint16_t`. -/
def u16 (n : Nat) : Nat := n % 65536

/-! ## Pointers and faults -/

/-- Reasons for which the C program leaves defined behaviour. -/
inductive Fault where
  /-- A load through `NULL`. -/
  | nullPointer
  /-- A load or store at `index` of an object of `size` bytes, `size ≤ index`. -/
  | outOfBounds (index size : Nat)
  deriving DecidableEq, Repr

/-- A `uint8_t *`: the object pointed into and the offset of the pointer in it. -/
structure Ptr where
  obj : List Nat
  off : Nat
  deriving DecidableEq, Repr

/-- Pointer arithmetic `p + n`. -/
def Ptr.add (p : Ptr) (n : Nat) : Ptr := { p with off := p.off + n }

/-- Pointer arithmetic on a possibly null pointer (`&p[n]`). -/
def ptrAdd (p : Option Ptr) (n : Nat) : Option Ptr := p.map (fun q => q.add n)

/-- The load `p[i]`, bounds checked. -/
def Ptr.load (p : Ptr) (i : Nat) : Except Fault Nat :=
  match p.obj[p.off + i]? with
  | some b => .ok b
  | none => .error (.outOfBounds (p.off + i) p.obj.length)

/-! ## Stream macros (cc3000_common.h) -/

/-- Modelled from the spec: the macro `UINT32_TO_STREAM` of cc3000_common.h
(not part of wlan.c).  It stores a 32-bit value at the cursor, little-endian
("fixed-layout little-endian byte buffers"), and returns the cursor advanced
by four bytes. -/
def UINT32_TO_STREAM (p : List Nat) (v : Nat) : List Nat :=
  p ++ [v % 256, v / 256 % 256, v / 65536 % 256, v / 16777216 % 256]

/-- Modelled from the spec: the macro `UINT16_TO_STREAM` of cc3000_common.h:
a 16-bit value, little-endian, cursor advanced by two bytes. -/
def UINT16_TO_STREAM (p : List Nat) (v : Nat) : List Nat :=
  p ++ [v % 256, v / 256 % 256]

/-- Modelled from the spec: the macro `UINT8_TO_STREAM` of cc3000_common.h:
one byte, cursor advanced by one. -/
def UINT8_TO_STREAM (p : List Nat) (v : Nat) : List Nat :=
  p ++ [v % 256]

/-- Modelled from the spec: the macro `ARRAY_TO_STREAM(p, a, l)` of
cc3000_common.h: copies the `l` bytes `a[0] .. a[l-1]` to the cursor, which
advances by `l`.  Nothing is loaded when `l = 0`; otherwise the loads are
bounds checked and the first load outside the source object is the fault. -/
def ARRAY_TO_STREAM (p : List Nat) (a : Option Ptr) (l : Nat) : Except Fault (List Nat) :=
  if l = 0 then .ok p
  else
    match a with
    | none => .error .nullPointer
    | some q =>
      if q.off + l ≤ q.obj.length then .ok (p ++ (q.obj.drop q.off).take l)
      else .error (.outOfBounds (max q.off q.obj.length) q.obj.length)

/-! ## Session state and the world outside wlan.c -/

/-- Command opcodes used by wlan.c (their numeric values live in hci.h); any
other event code, such as an unsolicited notification, is `other`. -/
inductive Opcode where
  | HCI_CMND_SIMPLE_LINK_START
  | HCI_CMND_READ_BUFFER_SIZE
  | HCI_CMND_WLAN_CONNECT
  | HCI_CMND_WLAN_DISCONNECT
  | HCI_CMND_WLAN_IOCTL_SET_CONNECTION_POLICY
  | HCI_CMND_WLAN_IOCTL_ADD_PROFILE
  | HCI_CMND_WLAN_IOCTL_DEL_PROFILE
  | HCI_CMND_WLAN_IOCTL_GET_SCAN_RESULTS
  | HCI_CMND_WLAN_IOCTL_SET_SCANPARAM
  | HCI_CMND_EVENT_MASK
  | HCI_CMND_WLAN_IOCTL_STATUSGET
  | HCI_CMND_WLAN_IOCTL_SIMPLE_CONFIG_START
  | HCI_CMND_WLAN_IOCTL_SIMPLE_CONFIG_STOP
  | HCI_CMND_WLAN_IOCTL_SIMPLE_CONFIG_SET_PREFIX
  | other (code : Nat)
  deriving DecidableEq, Repr

/-- An event frame handed to `SpiReceiveHandler`: the opcode it completes (or
announces) and the status/result it carries. -/
structure HciEvent where
  opcode : Opcode
  status : Int
  deriving DecidableEq, Repr

/-- The fields of `tSLInformation` that wlan.c reads or writes after start-up. -/
structure sSimplLinkInformation where
  /-- Opcode of the command whose completion is awaited; `none` is the C value 0. -/
  usRxEventOpcode : Option Opcode
  usEventOrDataReceived : Nat
  pucReceivedData : Option HciEvent
  InformHostOnTxComplete : Nat
  deriving DecidableEq, Repr

/-- Calls leaving wlan.c, in program order. -/
inductive Action where
  /-- Call `hci_command_send(opcode, ptr, len)`; `args` are the bytes written at
  `ptr + HEADERS_SIZE_CMD` by the caller. -/
  | hci_command_send (opcode : Opcode) (args : List Nat) (len : Nat)
  /-- Call `SimpleLinkWaitEvent(opcode, ..)`. -/
  | SimpleLinkWaitEvent (opcode : Opcode)
  /-- An event that is not the awaited completion, given to the callback hooks. -/
  | unsolicited (e : HciEvent)
  /-- Call `aes_read_key(akey)`. -/
  | aes_read_key
  /-- Call `nvmem_read(fileId, length, offset, profileArray)`. -/
  | nvmem_read (fileId length offset : Nat)
  /-- Call `aes_decrypt(&profileArray[offset], akey)`. -/
  | aes_decrypt (offset : Nat)
  /-- Call `SpiOpen(SpiReceiveHandler)`. -/
  | SpiOpen
  /-- Call of the `WriteWlanPin` callback, with `WLAN_ENABLE` (`true`) or
  `WLAN_DISABLE` (`false`). -/
  | WriteWlanPin (enable : Bool)
  deriving DecidableEq, Repr

/-- Globals of wlan.c together with the device: `rx` lists the event frames the
transport will deliver, in order; `trace` is what the driver has done. -/
structure World where
  tSLInformation : sSimplLinkInformation
  akey : List Nat
  profileArray : List Nat
  rx : List HciEvent
  trace : List Action
  errno : Int
  deriving DecidableEq, Repr

/-- How a driver call ends. -/
inductive Outcome (α : Type) where
  /-- The call returned `value`. -/
  | done (value : α) (w : World)
  /-- The call waits for ever: the awaited event never arrives. -/
  | blocked (w : World)
  /-- The call left defined behaviour. -/
  | fault (f : Fault) (w : World)
  deriving DecidableEq, Repr

/-- Results of the storage and cipher collaborators (nvmem.c, security.c). -/
structure Env where
  /-- Return code of `aes_read_key` and the key it stores into `akey`. -/
  aes_read_key : Int × List Nat
  /-- Return code of `nvmem_read` and the bytes it stores into `profileArray`. -/
  nvmem_read : Int × List Nat
  /-- The block cipher: state block and key to decrypted block. -/
  aes_decrypt : List Nat → List Nat → List Nat

/-- Contents of an `n`-byte array after `data` was stored from its start:
missing bytes are zero, excess bytes are not stored. -/
def fixLen (n : Nat) (data : List Nat) : List Nat :=
  (data ++ List.replicate n 0).take n

/-- The world in which an outcome leaves the driver. -/
def Outcome.world {α : Type} : Outcome α → World
  | .done _ w => w
  | .blocked w => w
  | .fault _ w => w

/-- Sequencing: the rest of the function runs only when the call returned. -/
def Outcome.bind {α β : Type} (o : Outcome α) (f : α → World → Outcome β) : Outcome β :=
  match o with
  | .done a w => f a w
  | .blocked w => .blocked w
  | .fault e w => .fault e w

/-! ## Command/event rendezvous -/

/-- Modelled from the spec: `hci_command_send` of hci.c (not part of wlan.c): it
hands the header and the argument area to the transport send primitive.  The
call is recorded with the bytes the caller wrote and the length it declared. -/
def hci_command_send (usOpcode : Opcode) (args : List Nat) (ucArgsLength : Nat)
    (w : World) : World :=
  { w with trace := w.trace ++ [Action.hci_command_send usOpcode args ucArgsLength] }

/-- Modelled from the spec: `hci_unsolicited_event_handler` of evnt_handler.c
(not part of wlan.c).  "Unsolicited events are dispatched immediately to
registered callback hooks and do not unblock execute; only an event whose
opcode equals awaiting_opcode unblocks it": a received event whose opcode is
not the awaited one is given to the callbacks and consumed; the awaited
completion is left pending for the waiting call. -/
def hci_unsolicited_event_handler (w : World) : World :=
  match w.tSLInformation.pucReceivedData with
  | none => w
  | some e =>
    if w.tSLInformation.usEventOrDataReceived ≠ 0 ∧
        w.tSLInformation.usRxEventOpcode ≠ some e.opcode then
      { w with
        tSLInformation := { w.tSLInformation with usEventOrDataReceived := 0 }
        trace := w.trace ++ [Action.unsolicited e] }
    else w

/-- Embedding of `SpiReceiveHandler` (wlan.c lines 238-244). -/
def SpiReceiveHandler (pvBuffer : HciEvent) (w : World) : World :=
  hci_unsolicited_event_handler
    { w with
      tSLInformation :=
        { w.tSLInformation with
          usEventOrDataReceived := 1
          pucReceivedData := some pvBuffer } }

/-- Modelled from the spec: the wait loop of `SimpleLinkWaitEvent`
(evnt_handler.c, not part of wlan.c): "block the calling thread of control until
an event is observed whose completed-opcode equals the command's opcode.  On
match, decode and return the event payload; clear awaiting_opcode."  The
transport delivers the frames of `rx` one by one through `SpiReceiveHandler`;
with no frame left the call waits for ever. -/
def awaitEvent : List HciEvent → World → Outcome Int
  | [], w => .blocked { w with rx := [] }
  | e :: rest, w =>
    let w1 := SpiReceiveHandler e { w with rx := rest }
    match w1.tSLInformation.pucReceivedData with
    | some r =>
      if w1.tSLInformation.usEventOrDataReceived ≠ 0 ∧
          w1.tSLInformation.usRxEventOpcode = some r.opcode then
        .done r.status
          { w1 with
            tSLInformation :=
              { w1.tSLInformation with
                usRxEventOpcode := none
                usEventOrDataReceived := 0 } }
      else awaitEvent rest w1
    | none => awaitEvent rest w1

/-- Modelled from the spec: `SimpleLinkWaitEvent(usOpcode, pRetParams)` of
evnt_handler.c (not part of wlan.c): records the awaited opcode and waits; the
value returned is what the call stores through `pRetParams`. -/
def SimpleLinkWaitEvent (usOpcode : Opcode) (w : World) : Outcome Int :=
  awaitEvent w.rx
    { w with
      tSLInformation := { w.tSLInformation with usRxEventOpcode := some usOpcode }
      trace := w.trace ++ [Action.SimpleLinkWaitEvent usOpcode] }

/-- Embedding of `wlan_disconnect` (wlan.c lines 507-523).  No argument byte is
written; `ret = EFAIL` is overwritten by the wait. -/
def wlan_disconnect (w : World) : Outcome Int :=
  (SimpleLinkWaitEvent .HCI_CMND_WLAN_DISCONNECT
      (hci_command_send .HCI_CMND_WLAN_DISCONNECT [] 0 w)).bind
    fun ret w => .done ret { w with errno := ret }

/-! ## wlan_add_profile (wlan.c lines 616-738) -/

/-- The local array `bssid_zero` (line 629). -/
def bssid_zero : Ptr := { obj := [0, 0, 0, 0, 0, 0], off := 0 }

/-- The `if (ucBssid) .. else ..` block shared by the three variants. -/
def bssidToStream (args : List Nat) (ucBssid : Option Ptr) : Except Fault (List Nat) :=
  match ucBssid with
  | some b => ARRAY_TO_STREAM args (some b) ETH_ALEN
  | none => ARRAY_TO_STREAM args (some bssid_zero) ETH_ALEN

/-- Lines 624-726 of `wlan_add_profile`: the bytes written through `args` and
the final value of the `uint16_t arg_len`. -/
def wlan_add_profile_args (ulSecType : Nat) (ucSsid : Option Ptr) (ulSsidLen : Nat)
    (ucBssid : Option Ptr) (ulPriority ulPairwiseCipher_Or_TxKeyLen
      ulGroupCipher_TxKeyIndex ulKeyMgmt : Nat)
    (ucPf_OrKey : Option Ptr) (ulPassPhraseLen : Nat) : Except Fault (List Nat × Nat) :=
  let arg_len : Nat := 0
  let args := UINT32_TO_STREAM [] ulSecType
  if ulSecType = WLAN_SEC_UNSEC then do
    let args := UINT32_TO_STREAM args 0x00000014
    let args := UINT32_TO_STREAM args ulSsidLen
    let args := UINT16_TO_STREAM args 0
    let args ← bssidToStream args ucBssid
    let args := UINT32_TO_STREAM args ulPriority
    let args ← ARRAY_TO_STREAM args ucSsid ulSsidLen
    pure (args, u16 (u32 (WLAN_ADD_PROFILE_NOSEC_PARAM_LEN + ulSsidLen)))
  else if ulSecType = WLAN_SEC_WEP then do
    let args := UINT32_TO_STREAM args 0x00000020
    let args := UINT32_TO_STREAM args ulSsidLen
    let args := UINT16_TO_STREAM args 0
    let args ← bssidToStream args ucBssid
    let args := UINT32_TO_STREAM args ulPriority
    let args := UINT32_TO_STREAM args (u32 (0x0000000C + ulSsidLen))
    let args := UINT32_TO_STREAM args ulPairwiseCipher_Or_TxKeyLen
    let args := UINT32_TO_STREAM args ulGroupCipher_TxKeyIndex
    let args ← ARRAY_TO_STREAM args ucSsid ulSsidLen
    let args ← [0, 1, 2, 3].foldlM
      (fun args i =>
        ARRAY_TO_STREAM args (ptrAdd ucPf_OrKey (u32 (i * ulPairwiseCipher_Or_TxKeyLen)))
          ulPairwiseCipher_Or_TxKeyLen)
      args
    pure (args, u16 (u32 (WLAN_ADD_PROFILE_WEP_PARAM_LEN + ulSsidLen +
      ulPairwiseCipher_Or_TxKeyLen * 4)))
  else if ulSecType = WLAN_SEC_WPA ∨ ulSecType = WLAN_SEC_WPA2 then do
    let args := UINT32_TO_STREAM args 0x00000028
    let args := UINT32_TO_STREAM args ulSsidLen
    let args := UINT16_TO_STREAM args 0
    let args ← bssidToStream args ucBssid
    let args := UINT32_TO_STREAM args ulPriority
    let args := UINT32_TO_STREAM args ulPairwiseCipher_Or_TxKeyLen
    let args := UINT32_TO_STREAM args ulGroupCipher_TxKeyIndex
    let args := UINT32_TO_STREAM args ulKeyMgmt
    let args := UINT32_TO_STREAM args (u32 (0x00000008 + ulSsidLen))
    let args := UINT32_TO_STREAM args ulPassPhraseLen
    let args ← ARRAY_TO_STREAM args ucSsid ulSsidLen
    let args ← ARRAY_TO_STREAM args ucPf_OrKey ulPassPhraseLen
    pure (args, u16 (u32 (WLAN_ADD_PROFILE_WPA_PARAM_LEN + ulSsidLen + ulPassPhraseLen)))
  else
    pure (args, arg_len)

/-- Embedding of `wlan_add_profile` (non-tiny driver, wlan.c lines 616-738). -/
def wlan_add_profile (ulSecType : Nat) (ucSsid : Option Ptr) (ulSsidLen : Nat)
    (ucBssid : Option Ptr) (ulPriority ulPairwiseCipher_Or_TxKeyLen
      ulGroupCipher_TxKeyIndex ulKeyMgmt : Nat)
    (ucPf_OrKey : Option Ptr) (ulPassPhraseLen : Nat) (w : World) : Outcome Int :=
  match wlan_add_profile_args ulSecType ucSsid ulSsidLen ucBssid ulPriority
      ulPairwiseCipher_Or_TxKeyLen ulGroupCipher_TxKeyIndex ulKeyMgmt ucPf_OrKey
      ulPassPhraseLen with
  | .error f => .fault f w
  | .ok (args, arg_len) =>
    SimpleLinkWaitEvent .HCI_CMND_WLAN_IOCTL_ADD_PROFILE
      (hci_command_send .HCI_CMND_WLAN_IOCTL_ADD_PROFILE args arg_len w)

/-! ## The other commands of wlan.c -/

/-- The error code `EFAIL` of cc3000_common.h; the function headers of wlan.c
document it: "On success, zero is returned. On error, -1 is returned". -/
def EFAIL : Int := -1

/-- Embedding of `SimpleLink_Init_Start` (wlan.c lines 132-147).  The wait is
given a null result pointer, so nothing is returned. -/
def SimpleLink_Init_Start (usPatchesAvailableAtHost : Nat) (w : World) : Outcome Unit :=
  let args := UINT8_TO_STREAM []
    (if usPatchesAvailableAtHost ≠ 0 then 1 else 0)
  (SimpleLinkWaitEvent .HCI_CMND_SIMPLE_LINK_START
      (hci_command_send .HCI_CMND_SIMPLE_LINK_START args WLAN_SL_INIT_START_PARAMS_LEN w)).bind
    fun _ w => .done () w

/-- A loop `while (tSLInformation.ReadWlanInterruptPin() ..) {}` run on the
successive readings of the interrupt line: the readings left when the loop
ends, `none` when it never ends. -/
def waitWhilePin (p : Nat → Bool) : List Nat → Option (List Nat)
  | [] => none
  | x :: rest => if p x then waitWhilePin p rest else some rest

/-- Lines 304-323 of `wlan_start`: the wait on the interrupt line after the
enable pin was raised, from the first reading `ulSpiIRQState`. -/
def irqHandshake (ulSpiIRQState : Nat) (pins : List Nat) : Option (List Nat) :=
  if ulSpiIRQState ≠ 0 then waitWhilePin (fun v => v != 0) pins
  else (waitWhilePin (fun v => v == 0) pins).bind (waitWhilePin (fun v => v != 0))

/-- Embedding of `wlan_start` (wlan.c lines 273-331).  `pins` are the successive
values returned by the `ReadWlanInterruptPin` callback; the fields of
`tSLInformation` outside the embedding are not represented. -/
def wlan_start (usPatchesAvailableAtHost : Nat) (pins : List Nat) (w : World) :
    Outcome Unit :=
  let w := { w with
    tSLInformation :=
      { w.tSLInformation with
        usRxEventOpcode := none
        usEventOrDataReceived := 0
        pucReceivedData := none }
    trace := w.trace ++ [Action.SpiOpen] }
  match pins with
  | [] => .blocked w
  | ulSpiIRQState :: pins =>
    let w := { w with trace := w.trace ++ [Action.WriteWlanPin true] }
    match irqHandshake ulSpiIRQState pins with
    | none => .blocked w
    | some _ =>
      (SimpleLink_Init_Start usPatchesAvailableAtHost w).bind fun _ w =>
        (SimpleLinkWaitEvent .HCI_CMND_READ_BUFFER_SIZE
            (hci_command_send .HCI_CMND_READ_BUFFER_SIZE [] 0 w)).bind
          fun _ w => .done () w

/-- Lines 405-439 and 443-444 of `wlan_connect` (non-tiny driver): the bytes
written through `args` and the length passed to `hci_command_send`.  `ssid_len`
and `key_len` are `long` values, taken non-negative. -/
def wlan_connect_args (ulSecType : Nat) (ssid : Option Ptr) (ssid_len : Nat)
    (bssid key : Option Ptr) (key_len : Nat) : Except Fault (List Nat × Nat) := do
  let args := UINT32_TO_STREAM [] 0x0000001c
  let args := UINT32_TO_STREAM args ssid_len
  let args := UINT32_TO_STREAM args ulSecType
  let args := UINT32_TO_STREAM args (0x00000010 + ssid_len)
  let args := UINT32_TO_STREAM args key_len
  let args := UINT16_TO_STREAM args 0
  let args ← bssidToStream args bssid
  let args ← ARRAY_TO_STREAM args ssid ssid_len
  let args ← if key_len ≠ 0 ∧ key.isSome then ARRAY_TO_STREAM args key key_len else pure args
  pure (args, WLAN_CONNECT_PARAM_LEN + ssid_len + key_len - 1)

/-- Embedding of `wlan_connect` (non-tiny driver, wlan.c lines 402-452). -/
def wlan_connect (ulSecType : Nat) (ssid : Option Ptr) (ssid_len : Nat)
    (bssid key : Option Ptr) (key_len : Nat) (w : World) : Outcome Int :=
  match wlan_connect_args ulSecType ssid ssid_len bssid key key_len with
  | .error f => .fault f w
  | .ok (args, len) =>
    (SimpleLinkWaitEvent .HCI_CMND_WLAN_CONNECT
        (hci_command_send .HCI_CMND_WLAN_CONNECT args len w)).bind
      fun ret w => .done ret { w with errno := ret }

/-- Embedding of `wlan_ioctl_set_connection_policy` (wlan.c lines 557-585). -/
def wlan_ioctl_set_connection_policy (should_connect_to_open_ap ulShouldUseFastConnect
    ulUseProfiles : Nat) (w : World) : Outcome Int :=
  let args := UINT32_TO_STREAM [] should_connect_to_open_ap
  let args := UINT32_TO_STREAM args ulShouldUseFastConnect
  let args := UINT32_TO_STREAM args ulUseProfiles
  SimpleLinkWaitEvent .HCI_CMND_WLAN_IOCTL_SET_CONNECTION_POLICY
    (hci_command_send .HCI_CMND_WLAN_IOCTL_SET_CONNECTION_POLICY args
      WLAN_SET_CONNECTION_POLICY_PARAMS_LEN w)

/-- Embedding of `wlan_ioctl_del_profile` (wlan.c lines 767-791). -/
def wlan_ioctl_del_profile (ulIndex : Nat) (w : World) : Outcome Int :=
  let args := UINT32_TO_STREAM [] ulIndex
  SimpleLinkWaitEvent .HCI_CMND_WLAN_IOCTL_DEL_PROFILE
    (hci_command_send .HCI_CMND_WLAN_IOCTL_DEL_PROFILE args WLAN_DEL_PROFILE_PARAMS_LEN w)

/-- Embedding of `wlan_ioctl_get_scan_results` (wlan.c lines 827-849).  The wait
stores the scan result table through `ucResults`; the function returns 0. -/
def wlan_ioctl_get_scan_results (ulScanTimeout : Nat) (w : World) : Outcome Int :=
  let args := UINT32_TO_STREAM [] ulScanTimeout
  (SimpleLinkWaitEvent .HCI_CMND_WLAN_IOCTL_GET_SCAN_RESULTS
      (hci_command_send .HCI_CMND_WLAN_IOCTL_GET_SCAN_RESULTS args
        WLAN_GET_SCAN_RESULTS_PARAMS_LEN w)).bind
    fun _ w => .done 0 w

/-- Lines 903-918 of `wlan_ioctl_set_scan_params`: the bytes written through
`args`.  `iRSSIThreshold` is a `long`; `aiIntervalList` points to the bytes of an
array of `unsigned long`, 4 bytes each. -/
def wlan_ioctl_set_scan_params_args (uiEnable uiMinDwellTime uiMaxDwellTime
    uiNumOfProbeRequests uiChannelMask : Nat) (iRSSIThreshold : Int)
    (uiSNRThreshold uiDefaultTxPower : Nat) (aiIntervalList : Option Ptr) :
    Except Fault (List Nat) := do
  let args := UINT32_TO_STREAM [] 36
  let args := UINT32_TO_STREAM args uiEnable
  let args := UINT32_TO_STREAM args uiMinDwellTime
  let args := UINT32_TO_STREAM args uiMaxDwellTime
  let args := UINT32_TO_STREAM args uiNumOfProbeRequests
  let args := UINT32_TO_STREAM args uiChannelMask
  let args := UINT32_TO_STREAM args (iRSSIThreshold % 4294967296).toNat
  let args := UINT32_TO_STREAM args uiSNRThreshold
  let args := UINT32_TO_STREAM args uiDefaultTxPower
  ARRAY_TO_STREAM args aiIntervalList (4 * SL_SET_SCAN_PARAMS_INTERVAL_LIST_SIZE)

/-- Embedding of `wlan_ioctl_set_scan_params` (wlan.c lines 890-930). -/
def wlan_ioctl_set_scan_params (uiEnable uiMinDwellTime uiMaxDwellTime
    uiNumOfProbeRequests uiChannelMask : Nat) (iRSSIThreshold : Int)
    (uiSNRThreshold uiDefaultTxPower : Nat) (aiIntervalList : Option Ptr) (w : World) :
    Outcome Int :=
  match wlan_ioctl_set_scan_params_args uiEnable uiMinDwellTime uiMaxDwellTime
      uiNumOfProbeRequests uiChannelMask iRSSIThreshold uiSNRThreshold uiDefaultTxPower
      aiIntervalList with
  | .error f => .fault f w
  | .ok args =>
    SimpleLinkWaitEvent .HCI_CMND_WLAN_IOCTL_SET_SCANPARAM
      (hci_command_send .HCI_CMND_WLAN_IOCTL_SET_SCANPARAM args WLAN_SET_SCAN_PARAMS_LEN w)

/-- Embedding of `wlan_set_event_mask` (wlan.c lines 957-1002).  The event codes
`HCI_EVNT_WLAN_TX_COMPLETE` and `HCI_EVNT_WLAN_UNSOL_BASE` are defined in hci.h
and taken as parameters. -/
def wlan_set_event_mask (HCI_EVNT_WLAN_TX_COMPLETE HCI_EVNT_WLAN_UNSOL_BASE ulMask : Nat)
    (w : World) : Outcome Int :=
  let send (ulMask : Nat) (w : World) : Outcome Int :=
    SimpleLinkWaitEvent .HCI_CMND_EVENT_MASK
      (hci_command_send .HCI_CMND_EVENT_MASK (UINT32_TO_STREAM [] ulMask)
        WLAN_SET_MASK_PARAMS_LEN w)
  if ulMask &&& HCI_EVNT_WLAN_TX_COMPLETE = HCI_EVNT_WLAN_TX_COMPLETE then
    let w := { w with
      tSLInformation := { w.tSLInformation with InformHostOnTxComplete := 0 } }
    if ulMask = HCI_EVNT_WLAN_TX_COMPLETE then .done 0 w
    else
      let ulMask := ulMask &&& u32 (4294967295 - HCI_EVNT_WLAN_TX_COMPLETE)
      let ulMask := ulMask ||| HCI_EVNT_WLAN_UNSOL_BASE
      send ulMask w
  else
    let w := { w with
      tSLInformation := { w.tSLInformation with InformHostOnTxComplete := 1 } }
    send ulMask w

/-- Embedding of `wlan_ioctl_statusget` (wlan.c lines 1020-1036). -/
def wlan_ioctl_statusget (w : World) : Outcome Int :=
  SimpleLinkWaitEvent .HCI_CMND_WLAN_IOCTL_STATUSGET
    (hci_command_send .HCI_CMND_WLAN_IOCTL_STATUSGET [] 0 w)

/-- Embedding of `wlan_smart_config_start` (wlan.c lines 1060-1083). -/
def wlan_smart_config_start (algoEncryptedFlag : Nat) (w : World) : Outcome Int :=
  let args := UINT32_TO_STREAM [] algoEncryptedFlag
  SimpleLinkWaitEvent .HCI_CMND_WLAN_IOCTL_SIMPLE_CONFIG_START
    (hci_command_send .HCI_CMND_WLAN_IOCTL_SIMPLE_CONFIG_START args
      WLAN_SMART_CONFIG_START_PARAMS_LEN w)

/-- Embedding of `wlan_smart_config_stop` (wlan.c lines 1099-1114). -/
def wlan_smart_config_stop (w : World) : Outcome Int :=
  SimpleLinkWaitEvent .HCI_CMND_WLAN_IOCTL_SIMPLE_CONFIG_STOP
    (hci_command_send .HCI_CMND_WLAN_IOCTL_SIMPLE_CONFIG_STOP [] 0 w)

/-- The store `p[i] = v` through a `char *`, bounds checked. -/
def Ptr.store (p : Ptr) (i v : Nat) : Except Fault Ptr :=
  if p.off + i < p.obj.length then .ok { p with obj := p.obj.set (p.off + i) v }
  else .error (.outOfBounds (p.off + i) p.obj.length)

/-- Lines 1152-1154 of `wlan_smart_config_set_prefix`: the three stores of 'T'
(84) through `cNewPrefix`, in order.  The result is the buffer with the stores
that were made and the fault of the first store outside it, if any. -/
def storeTTT (cNewPrefix : Ptr) : Ptr × Option Fault :=
  match cNewPrefix.store 0 84 with
  | .error f => (cNewPrefix, some f)
  | .ok p1 =>
    match p1.store 1 84 with
    | .error f => (p1, some f)
    | .ok p2 =>
      match p2.store 2 84 with
      | .error f => (p2, some f)
      | .ok p3 => (p3, none)

/-- Embedding of `wlan_smart_config_set_prefix` (wlan.c lines 1133-1167).  The
result is the outcome of the call together with the caller's buffer as the call
leaves it. -/
def wlan_smart_config_set_prefix (cNewPrefix : Option Ptr) (w : World) :
    Outcome Int × Option Ptr :=
  match cNewPrefix with
  | none => (.done EFAIL w, none)
  | some p =>
    match storeTTT p with
    | (q, some f) => (.fault f w, some q)
    | (q, none) =>
      match ARRAY_TO_STREAM [] (some q) SL_SIMPLE_CONFIG_PREFIX_LENGTH with
      | .error f => (.fault f w, some q)
      | .ok args =>
        (SimpleLinkWaitEvent .HCI_CMND_WLAN_IOCTL_SIMPLE_CONFIG_SET_PREFIX
          (hci_command_send .HCI_CMND_WLAN_IOCTL_SIMPLE_CONFIG_SET_PREFIX args
            SL_SIMPLE_CONFIG_PREFIX_LENGTH w), some q)

/-! ## wlan_smart_config_process (wlan.c lines 1187-1302)

`ssidPtr` and `decKeyPtr` point into the global `profileArray`; they are kept
as offsets into it and turned into a `Ptr` on the array as it stands when they
are used. -/

/-- The load `profileArray[i]`, bounds checked against the 67-byte array. -/
def profileByte (i : Nat) (w : World) : Outcome Nat :=
  match (Ptr.mk w.profileArray 0).load i with
  | .ok b => .done b w
  | .error f => .fault f w

/-- The array after the 16-byte block at `offset` was decrypted in place. -/
def decryptAt (cipher : List Nat → List Nat → List Nat) (key arr : List Nat)
    (offset : Nat) : List Nat :=
  arr.take offset ++ fixLen 16 (cipher ((arr.drop offset).take 16) key) ++
    arr.drop (offset + 16)

/-- The call `aes_decrypt(&profileArray[offset], akey)`: decrypts the 16-byte
block at `offset` in place (security.c); a block that does not lie inside the
array is a fault. -/
def aes_decrypt (env : Env) (offset : Nat) (w : World) : Outcome Unit :=
  let w := { w with trace := w.trace ++ [Action.aes_decrypt offset] }
  if offset + 16 ≤ w.profileArray.length then
    .done () { w with profileArray := decryptAt env.aes_decrypt w.akey w.profileArray offset }
  else
    .fault (.outOfBounds (max offset w.profileArray.length) w.profileArray.length) w

/-- Lines 1236-1252: the key length and the final `decKeyPtr`, from the key
region that starts at `decKeyPtr`. -/
def keyDisambiguation (decKeyPtr : Nat) (w : World) : Outcome (Nat × Nat) :=
  (profileByte (decKeyPtr + 31) w).bind fun last w =>
    if last ≠ 0 then
      (profileByte decKeyPtr w).bind fun first w =>
        if first = 31 then .done (31, decKeyPtr + 1) w
        else .done (32, decKeyPtr) w
    else
      (profileByte decKeyPtr w).bind fun first w => .done (first, decKeyPtr + 1) w

/-- Lines 1224-1252: pointer set-up, block decryption and key disambiguation.
The result is `(ssidPtr, ssidLen, keyLen, decKeyPtr)`. -/
def smartConfigDecrypt (env : Env) (w : World) : Outcome (Nat × Nat × Nat × Nat) :=
  let ssidPtr := 1
  (profileByte 0 w).bind fun ssidLen w =>
  (profileByte 0 w).bind fun b0 w =>
  let decKeyPtr := b0 + 3
  (aes_decrypt env decKeyPtr w).bind fun _ w =>
  (profileByte 0 w).bind fun b0 w =>
  (profileByte (b0 + 1) w).bind fun claimed w =>
  (if claimed > 16 then aes_decrypt env (decKeyPtr + 16) w else .done () w).bind fun _ w =>
  (keyDisambiguation decKeyPtr w).bind fun r w =>
  .done (ssidPtr, ssidLen, r.1, r.2) w

/-- Lines 1256-1301: the `switch` on the security type and the final return. -/
def smartConfigAddProfile (returnValue : Int) (ssidPtr ssidLen keyLen decKeyPtr : Nat)
    (w : World) : Outcome Int :=
  (profileByte 0 w).bind fun b0 w =>
  (profileByte (b0 + 2) w).bind fun sel w =>
  if sel = WLAN_SEC_UNSEC then
    (profileByte 0 w).bind fun b0 w =>
    (profileByte (b0 + 2) w).bind fun secType w =>
    wlan_add_profile secType (some (Ptr.mk w.profileArray ssidPtr)) ssidLen none 1
      0 0 0 none 0 w
  else if sel = WLAN_SEC_WEP then
    (profileByte 0 w).bind fun b0 w =>
    (profileByte (b0 + 2) w).bind fun secType w =>
    wlan_add_profile secType (some (Ptr.mk w.profileArray ssidPtr)) ssidLen none 1
      keyLen 0 0 (some (Ptr.mk w.profileArray decKeyPtr)) 0 w
  else if sel = WLAN_SEC_WPA ∨ sel = WLAN_SEC_WPA2 then
    wlan_add_profile WLAN_SEC_WPA2 (some (Ptr.mk w.profileArray ssidPtr)) ssidLen none 1
      0x18 0x1e 2 (some (Ptr.mk w.profileArray decKeyPtr)) keyLen w
  else
    .done returnValue w

/-- Embedding of `wlan_smart_config_process` (wlan.c lines 1187-1302). -/
def wlan_smart_config_process (env : Env) (w : World) : Outcome Int :=
  -- returnValue = aes_read_key(akey);
  let w := { w with
    akey := fixLen AES128_KEY_SIZE env.aes_read_key.2
    trace := w.trace ++ [Action.aes_read_key] }
  let returnValue := env.aes_read_key.1
  if returnValue ≠ 0 then .done returnValue w
  else
    -- returnValue = nvmem_read(NVMEM_SHARED_MEM_FILEID, SMART_CONFIG_PROFILE_SIZE, 0, profileArray);
    let w := { w with
      profileArray := fixLen SMART_CONFIG_PROFILE_SIZE env.nvmem_read.2
      trace := w.trace ++
        [Action.nvmem_read NVMEM_SHARED_MEM_FILEID SMART_CONFIG_PROFILE_SIZE 0] }
    let returnValue := env.nvmem_read.1
    if returnValue ≠ 0 then .done returnValue w
    else
      (smartConfigDecrypt env w).bind fun r w =>
        smartConfigAddProfile returnValue r.1 r.2.1 r.2.2.1 r.2.2.2 w

/-! ## Auxiliary definitions for the statements -/

/-- Little-endian bytes of a 32-bit word, as `UINT32_TO_STREAM` stores them. -/
def le32 (v : Nat) : List Nat :=
  [v % 256, v / 256 % 256, v / 65536 % 256, v / 16777216 % 256]

/-- The `l` bytes a pointer designates, which `ARRAY_TO_STREAM` copies. -/
def bytesAt (a : Option Ptr) (l : Nat) : List Nat :=
  match a with
  | none => []
  | some q => (q.obj.drop q.off).take l

/-- The `l` bytes at `a` can be loaded: there is nothing to load, or the
pointer is not null and the bytes lie inside its object. -/
def Readable (a : Option Ptr) (l : Nat) : Prop :=
  l = 0 ∨
    match a with
    | none => False
    | some q => q.off + l ≤ q.obj.length

instance (a : Option Ptr) (l : Nat) : Decidable (Readable a l) := by
  unfold Readable
  cases a <;> exact inferInstance

/-- The six BSSID bytes written: the caller's, or zeros for a null pointer. -/
def bssidBytes (ucBssid : Option Ptr) : List Nat :=
  match ucBssid with
  | some b => bytesAt (some b) 6
  | none => [0, 0, 0, 0, 0, 0]

/-- The world after the frame `e` was delivered and given to the callbacks. -/
def dispatched (e : HciEvent) (rest : List HciEvent) (w : World) : World :=
  { w with
    rx := rest
    tSLInformation :=
      { w.tSLInformation with
        usEventOrDataReceived := 0
        pucReceivedData := some e }
    trace := w.trace ++ [Action.unsolicited e] }

/-- What stays fixed while a call waits for its event. -/
def SameGlobals (w w2 : World) : Prop :=
  w2.akey = w.akey ∧ w2.profileArray = w.profileArray ∧ w2.errno = w.errno ∧
    w2.tSLInformation.InformHostOnTxComplete = w.tSLInformation.InformHostOnTxComplete

/-- Length of the fixed part of an add-profile frame, per security type. -/
def addProfilePrefix (sec : Nat) : Nat :=
  if sec = 0 then 24 else if sec = 1 then 36 else 44

/-- Number of argument bytes of an add-profile frame. -/
def addProfileLength (sec ssidLen keyLen passLen : Nat) : Nat :=
  if sec = 0 then 24 + ssidLen
  else if sec = 1 then 36 + ssidLen + 4 * keyLen
  else 44 + ssidLen + passLen

/-- The byte `arr[i]` of an array (0 where the array has no such byte). -/
def byteAt (arr : List Nat) (i : Nat) : Nat := arr.getD i 0

/-- Spec section 4.3 step 5, on the decrypted 32-byte key region `r`: "inspect
byte 31 of the region.  If that byte is non-zero: the key occupies the full 32
bytes unless byte 0 of the region equals exactly 31, in which case the true key
is 31 bytes starting at offset 1.  If that byte is zero: byte 0 of the region is
the true key length, and the key starts at offset 1."  The result is the key
length and the offset of the key in the region. -/
def specKeyRule (r : List Nat) : Nat × Nat :=
  if byteAt r 31 ≠ 0 then
    (if byteAt r 0 = 31 then (31, 1) else (32, 0))
  else (byteAt r 0, 1)

/-- The 32-byte key region that starts at offset `o` of the profile array. -/
def keyRegion (arr : List Nat) (o : Nat) : List Nat := (arr.drop o).take 32

/-- The profile array after the decryption step (lines 1228-1234). -/
def decryptedProfile (env : Env) (key arr : List Nat) : List Nat :=
  if byteAt arr (byteAt arr 0 + 1) > 16 then
    decryptAt env.aes_decrypt key (decryptAt env.aes_decrypt key arr (byteAt arr 0 + 3))
      (byteAt arr 0 + 3 + 16)
  else decryptAt env.aes_decrypt key arr (byteAt arr 0 + 3)

/-- The `aes_decrypt` calls of the decryption step. -/
def decryptCalls (arr : List Nat) : List Action :=
  if byteAt arr (byteAt arr 0 + 1) > 16 then
    [Action.aes_decrypt (byteAt arr 0 + 3), Action.aes_decrypt (byteAt arr 0 + 3 + 16)]
  else [Action.aes_decrypt (byteAt arr 0 + 3)]

/-- The blob as `nvmem_read` leaves it in `profileArray`. -/
def fetchedBlob (env : Env) : List Nat := fixLen SMART_CONFIG_PROFILE_SIZE env.nvmem_read.2

/-- The key as `aes_read_key` leaves it in `akey`. -/
def fetchedKey (env : Env) : List Nat := fixLen AES128_KEY_SIZE env.aes_read_key.2

/-- The blob after the decryption step. -/
def decryptedBlob (env : Env) : List Nat :=
  decryptedProfile env (fetchedKey env) (fetchedBlob env)

/-- The world after the two fetches and the decryption step. -/
def decryptedWorld (env : Env) (w : World) : World :=
  { w with
    akey := fetchedKey env
    profileArray := decryptedBlob env
    trace := w.trace ++
      [Action.aes_read_key,
        Action.nvmem_read NVMEM_SHARED_MEM_FILEID SMART_CONFIG_PROFILE_SIZE 0] ++
      decryptCalls (fetchedBlob env) }

/-- The key length and the offset of the key in the profile array that the
disambiguation step derives from the decrypted blob. -/
def parsedKey (env : Env) : Nat × Nat :=
  ((specKeyRule (keyRegion (decryptedBlob env) (byteAt (fetchedBlob env) 0 + 3))).1,
    byteAt (fetchedBlob env) 0 + 3 +
      (specKeyRule (keyRegion (decryptedBlob env) (byteAt (fetchedBlob env) 0 + 3))).2)

/-- The frames delivered while waiting for `op` and before its completion. -/
def unsolicitedBefore (op : Opcode) (rx : List HciEvent) : List HciEvent :=
  rx.takeWhile (fun e => decide (e.opcode ≠ op))

/-- The fault an outcome stopped with, if any. -/
def Outcome.faulted {α : Type} : Outcome α → Option Fault
  | .fault f _ => some f
  | _ => none

/-- The value an outcome returned, if any. -/
def Outcome.returned {α : Type} : Outcome α → Option α
  | .done a _ => some a
  | _ => none

/-- What one add-profile call appends to the trace: nothing when encoding left
defined behaviour, else the command, the wait and the callbacks run meanwhile. -/
def addProfileTrace (r : Except Fault (List Nat × Nat)) (rx : List HciEvent) : List Action :=
  match r with
  | .error _ => []
  | .ok (args, len) =>
    Action.hci_command_send .HCI_CMND_WLAN_IOCTL_ADD_PROFILE args len ::
      Action.SimpleLinkWaitEvent .HCI_CMND_WLAN_IOCTL_ADD_PROFILE ::
      (unsolicitedBefore .HCI_CMND_WLAN_IOCTL_ADD_PROFILE rx).map Action.unsolicited

/-- A toy block cipher for the worked examples: byte-wise exclusive or with the key. -/
def xorCipher (block key : List Nat) : List Nat := List.zipWith Nat.xor block key

/-- Collaborators for the worked examples: both fetches succeed. -/
def demoEnv (key blob : List Nat) : Env :=
  { aes_read_key := (0, key), nvmem_read := (0, blob), aes_decrypt := xorCipher }

/-- Collaborators whose key fetch succeeds and whose blob fetch fails with -5. -/
def blobFailureEnv : Env :=
  { aes_read_key := (0, List.replicate 16 1), nvmem_read := (-5, []),
    aes_decrypt := xorCipher }

/-- A running session with nothing pending; the device will deliver `rx`. -/
def idleWorld (rx : List HciEvent) : World :=
  { tSLInformation :=
      { usRxEventOpcode := none, usEventOrDataReceived := 0, pucReceivedData := none,
        InformHostOnTxComplete := 1 }
    akey := [], profileArray := [], rx := rx, trace := [], errno := 0 }

/-- A world whose profile array is `arr`. -/
def profileWorld (arr : List Nat) : World := { (idleWorld []) with profileArray := arr }

/-- A 67-byte blob whose SSID length byte is 33: 33 SSID bytes, key-length byte
0, security type 0, and the 31 bytes that are left. -/
def blobL33 : List Nat := [33] ++ List.replicate 33 65 ++ [0, 0] ++ List.replicate 31 0

/-- A blob for SSID "AB" (L = 2), key-length byte 32, security type WPA2 (3);
under `xorCipher` with the key of sixteen 1s its key region decrypts to the
length byte 8, the passphrase "password" and zero padding. -/
def blobWpa2 : List Nat :=
  [2, 65, 66, 32, 3] ++ [9, 113, 96, 114, 114, 118, 110, 115, 101] ++ List.replicate 23 1 ++
    List.replicate 30 0

/-- As `blobWpa2`, with key-length byte `blob[1+L] = 0`: only the first block is
encrypted, the second is zero as fetched. -/
def blobWpa2Short : List Nat :=
  [2, 65, 66, 0, 3] ++ [9, 113, 96, 114, 114, 118, 110, 115, 101] ++ List.replicate 7 1 ++
    List.replicate 16 0 ++ List.replicate 30 0

/-- A blob for SSID "AB" (L = 2), key-length byte 32, security type WEP (1);
its key region decrypts to the length byte 5, the key "hello" and zero padding. -/
def blobWep : List Nat :=
  [2, 65, 66, 32, 1] ++ [4, 105, 100, 109, 109, 110] ++ List.replicate 26 1 ++
    List.replicate 30 0

/-- The collaborators of `env` with the security type byte `blob[L+2]` of the
fetched blob replaced by `s`; every other byte of the blob, the key and the
cipher are unchanged. -/
def withSecurityType (env : Env) (s : Nat) : Env :=
  { env with
    nvmem_read :=
      (env.nvmem_read.1, (fetchedBlob env).set (byteAt (fetchedBlob env) 0 + 2) s) }

/-- Scan of a call sequence with the opcode of a command that was sent and is
not yet waited for: every `hci_command_send` must be followed at once by the
`SimpleLinkWaitEvent` of the same opcode, and a wait occurs nowhere else. -/
def pairedFrom : Option Opcode → List Action → Bool
  | pending, [] => pending.isNone
  | none, Action.hci_command_send op _ _ :: rest => pairedFrom (some op) rest
  | none, Action.SimpleLinkWaitEvent _ :: _ => false
  | none, _ :: rest => pairedFrom none rest
  | some op, Action.SimpleLinkWaitEvent op2 :: rest => op == op2 && pairedFrom none rest
  | some _, _ :: _ => false

/-- In the call sequence every `hci_command_send` is immediately followed by
exactly one `SimpleLinkWaitEvent` on the opcode that was sent. -/
def sendsArePaired (calls : List Action) : Bool := pairedFrom none calls

/-- The calls a run adds to the trace pair every command with its wait. -/
def PairedRun {α : Type} (w : World) (o : Outcome α) : Prop :=
  ∃ calls, o.world.trace = w.trace ++ calls ∧ sendsArePaired calls = true

/-- The caller's buffer after 'T', 'T', 'T' was stored at its first three bytes. -/
def withTTT (p : Ptr) : Ptr :=
  { p with obj := ((p.obj.set (p.off + 0) 84).set (p.off + 1) 84).set (p.off + 2) 84 }

/-- The world in which `wlan_start` begins the interrupt-line handshake: the
event fields are reset, `SpiOpen` and `WriteWlanPin(WLAN_ENABLE)` were called. -/
def startedWorld (w : World) : World :=
  { w with
    tSLInformation :=
      { w.tSLInformation with
        usRxEventOpcode := none
        usEventOrDataReceived := 0
        pucReceivedData := none }
    trace := w.trace ++ [Action.SpiOpen] ++ [Action.WriteWlanPin true] }

/-- A blob for SSID "AB" (L = 2), key-length byte 32, security type WPA2 (3),
whose key region decrypts (key of sixteen 1s) to the length byte 40 followed by
31 zero bytes; the 30 bytes after the key region are 7. -/
def blobLongKey : List Nat :=
  [2, 65, 66, 32, 3] ++ [41] ++ List.replicate 31 1 ++ List.replicate 30 7

/-- The opcodes of the commands issued in a call sequence, in order. -/
def sentCommands (calls : List Action) : List Opcode :=
  calls.filterMap fun a =>
    match a with
    | Action.hci_command_send op _ _ => some op
    | _ => none

/-- The world after the two fetches of `wlan_smart_config_process` succeeded. -/
def fetchedWorld (env : Env) (w : World) : World :=
  { w with
    akey := fetchedKey env
    profileArray := fetchedBlob env
    trace := w.trace ++
      [Action.aes_read_key,
        Action.nvmem_read NVMEM_SHARED_MEM_FILEID SMART_CONFIG_PROFILE_SIZE 0] }

/-- The argument bytes of an add-profile frame for an unsecured network with a
null BSSID and priority 1. -/
def openProfileFrame (L : Nat) (ssid : List Nat) : List Nat :=
  le32 0 ++ le32 0x14 ++ le32 L ++ [0, 0] ++ [0, 0, 0, 0, 0, 0] ++ le32 1 ++ ssid

/-- An unsecured blob for SSID "AB": key-length byte 0, zero key region, with
the key of sixteen 1s. -/
def openBlobEnvA : Env :=
  demoEnv (List.replicate 16 1) ([2, 65, 66, 0, 0] ++ List.replicate 62 0)

/-- An unsecured blob for SSID "AB" that differs from `openBlobEnvA` in the
key-length byte (32), the key region (all 9) and the key (sixteen 5s). -/
def openBlobEnvB : Env :=
  demoEnv (List.replicate 16 5) ([2, 65, 66, 32, 0] ++ List.replicate 62 9)

/-- A well-formed WEP blob: SSID of 20 bytes (L = 20), key-length byte 32,
security type WEP (1); under `xorCipher` with the key of sixteen 1s the key
region decrypts to the length byte 13, a 13-byte key and zero padding.  The 12
bytes after the key region are zero. -/
def blobWep104 : List Nat :=
  [20] ++ List.replicate 20 65 ++ [32, 1] ++ [12] ++ List.replicate 13 106 ++
    List.replicate 18 1 ++ List.replicate 12 0

/-- The 32-bit little-endian word stored at position `pos` of an argument area. -/
def word32At (args : List Nat) (pos : Nat) : Nat :=
  byteAt args pos + 256 * byteAt args (pos + 1) + 65536 * byteAt args (pos + 2) +
    16777216 * byteAt args (pos + 3)

/-- The argument area lies in `wlan_tx_buffer` (wlan.c line 98), an array of
`CC3000_TX_BUFFER_SIZE` bytes whose first `HEADERS_SIZE_CMD` bytes hold the
command header (`args = ptr + HEADERS_SIZE_CMD`).  Both constants come from
headers that are not part of wlan.c and are taken as parameters.  The encoders
of wlan.c never compare what they store with the size of the array: an encoding
of more argument bytes than the array has left stores outside it, the first
such store being at index `CC3000_TX_BUFFER_SIZE`.  A load fault of the encoder
is kept as it is. -/
def storedInTxBuffer (CC3000_TX_BUFFER_SIZE HEADERS_SIZE_CMD : Nat)
    (r : Except Fault (List Nat × Nat)) : Except Fault (List Nat × Nat) :=
  match r with
  | .error f => .error f
  | .ok (args, len) =>
    if HEADERS_SIZE_CMD + args.length ≤ CC3000_TX_BUFFER_SIZE then .ok (args, len)
    else .error (.outOfBounds CC3000_TX_BUFFER_SIZE CC3000_TX_BUFFER_SIZE)

/-- The key bytes that the add-profile call selected by the security-type byte
`blob[L+2]` loads lie inside `profileArray`: for WEP the four blocks of the
derived key length from the derived key pointer, for WPA/WPA2 the derived
number of passphrase bytes from there; the other cases load no key byte. -/
def keyBytesInArray (env : Env) : Prop :=
  if byteAt (fetchedBlob env) (byteAt (fetchedBlob env) 0 + 2) = WLAN_SEC_WEP then
    Readable (some (Ptr.mk (decryptedBlob env) (parsedKey env).2)) (4 * (parsedKey env).1)
  else if byteAt (fetchedBlob env) (byteAt (fetchedBlob env) 0 + 2) = WLAN_SEC_WPA ∨
      byteAt (fetchedBlob env) (byteAt (fetchedBlob env) 0 + 2) = WLAN_SEC_WPA2 then
    Readable (some (Ptr.mk (decryptedBlob env) (parsedKey env).2)) (parsedKey env).1
  else True

instance (env : Env) : Decidable (keyBytesInArray env) := by
  unfold keyBytesInArray
  exact inferInstance

theorem ARRAY_TO_STREAM_readable (p : List Nat) (a : Option Ptr) (l : Nat)
    (h : Readable a l) : ARRAY_TO_STREAM p a l = .ok (p ++ bytesAt a l) := by
  unfold ARRAY_TO_STREAM
  by_cases hl : l = 0
  · subst hl; cases a <;> simp [bytesAt]
  · cases a with
    | none => simp [Readable, hl] at h
    | some q =>
      have hq : q.off + l ≤ q.obj.length := by simpa [Readable, hl] using h
      simp [hl, hq, bytesAt]

theorem length_bytesAt (a : Option Ptr) (l : Nat) (h : Readable a l) :
    (bytesAt a l).length = l := by
  by_cases hl : l = 0
  · subst hl; cases a <;> simp [bytesAt]
  · cases a with
    | none => simp [Readable, hl] at h
    | some q =>
      have hq : q.off + l ≤ q.obj.length := by simpa [Readable, hl] using h
      simp [bytesAt]; omega

theorem readable_some (q : Ptr) (l : Nat) (h : q.off + l ≤ q.obj.length) :
    Readable (some q) l := Or.inr h

theorem bssidToStream_ok (args : List Nat) (ucBssid : Option Ptr)
    (h : ∀ b, ucBssid = some b → b.off + 6 ≤ b.obj.length) :
    bssidToStream args ucBssid = .ok (args ++ bssidBytes ucBssid) := by
  cases ucBssid with
  | none =>
    simp [bssidToStream, bssidBytes, ARRAY_TO_STREAM, ETH_ALEN, bssid_zero]
  | some b =>
    have := h b rfl
    simp [bssidToStream, bssidBytes, ETH_ALEN]
    exact ARRAY_TO_STREAM_readable args (some b) 6 (readable_some b 6 this)

theorem length_bssidBytes (ucBssid : Option Ptr)
    (h : ∀ b, ucBssid = some b → b.off + 6 ≤ b.obj.length) :
    (bssidBytes ucBssid).length = 6 := by
  cases ucBssid with
  | none => rfl
  | some b =>
    have := h b rfl
    simp [bssidBytes, bytesAt]; omega

theorem length_le32 (v : Nat) : (le32 v).length = 4 := rfl

theorem u32_small (n : Nat) (h : n < 4294967296) : u32 n = n := Nat.mod_eq_of_lt h

theorem u16_small (n : Nat) (h : n < 65536) : u16 n = n := Nat.mod_eq_of_lt h

theorem readable_block (key : Option Ptr) (len i : Nat) (hi : i < 4)
    (hk : Readable key (4 * len)) : Readable (ptrAdd key (i * len)) len := by
  by_cases hl : len = 0
  · left; exact hl
  · cases key with
    | none =>
      have : ¬ 4 * len = 0 := by omega
      simp [Readable, this] at hk
    | some q =>
      have h4 : ¬ 4 * len = 0 := by omega
      have hq : q.off + 4 * len ≤ q.obj.length := by simpa [Readable, h4] using hk
      have : i * len + len ≤ 4 * len := by nlinarith
      right
      show (q.add (i * len)).off + len ≤ (q.add (i * len)).obj.length
      simp only [Ptr.add]; omega

theorem wlan_add_profile_args_open (ucSsid : Option Ptr) (ulSsidLen : Nat)
    (ucBssid : Option Ptr) (ulPriority c g k : Nat) (key : Option Ptr) (pl : Nat)
    (hb : ∀ b, ucBssid = some b → b.off + 6 ≤ b.obj.length)
    (hs : Readable ucSsid ulSsidLen) :
    wlan_add_profile_args 0 ucSsid ulSsidLen ucBssid ulPriority c g k key pl =
      .ok (le32 0 ++ le32 0x14 ++ le32 ulSsidLen ++ [0, 0] ++ bssidBytes ucBssid ++
            le32 ulPriority ++ bytesAt ucSsid ulSsidLen,
           u16 (u32 (24 + ulSsidLen))) := by
  simp [wlan_add_profile_args, WLAN_SEC_UNSEC, UINT32_TO_STREAM, UINT16_TO_STREAM,
    bssidToStream_ok _ _ hb, ARRAY_TO_STREAM_readable _ _ _ hs, le32,
    WLAN_ADD_PROFILE_NOSEC_PARAM_LEN, bind, Except.bind, pure, Except.pure]

theorem wlan_add_profile_args_wep (ucSsid : Option Ptr) (ulSsidLen : Nat)
    (ucBssid : Option Ptr) (ulPriority len g k : Nat) (key : Option Ptr) (pl : Nat)
    (hb : ∀ b, ucBssid = some b → b.off + 6 ≤ b.obj.length)
    (hs : Readable ucSsid ulSsidLen) (hlen : len < 1073741824)
    (hk : Readable key (4 * len)) :
    wlan_add_profile_args 1 ucSsid ulSsidLen ucBssid ulPriority len g k key pl =
      .ok (le32 1 ++ le32 0x20 ++ le32 ulSsidLen ++ [0, 0] ++ bssidBytes ucBssid ++
            le32 ulPriority ++ le32 (u32 (0x0C + ulSsidLen)) ++ le32 len ++ le32 g ++
            bytesAt ucSsid ulSsidLen ++ bytesAt key len ++ bytesAt (ptrAdd key len) len ++
            bytesAt (ptrAdd key (2 * len)) len ++ bytesAt (ptrAdd key (3 * len)) len,
           u16 (u32 (36 + ulSsidLen + len * 4))) := by
  have h0 := readable_block key len 0 (by omega) hk
  have h1 := readable_block key len 1 (by omega) hk
  have h2 := readable_block key len 2 (by omega) hk
  have h3 := readable_block key len 3 (by omega) hk
  have e2 : u32 (2 * len) = 2 * len := u32_small _ (by omega)
  have e3 : u32 (3 * len) = 3 * len := u32_small _ (by omega)
  have e1 : u32 len = len := u32_small _ (by omega)
  have p0 : ptrAdd key 0 = key := by cases key <;> simp [ptrAdd, Ptr.add]
  simp only [Nat.zero_mul, Nat.one_mul, p0] at h0 h1
  simp [wlan_add_profile_args, WLAN_SEC_UNSEC, WLAN_SEC_WEP, UINT32_TO_STREAM,
    UINT16_TO_STREAM, bssidToStream_ok _ _ hb, ARRAY_TO_STREAM_readable _ _ _ hs, le32,
    WLAN_ADD_PROFILE_WEP_PARAM_LEN, bind, Except.bind, pure, Except.pure, List.foldlM,
    e1, e2, e3, p0, u32_small 0 (by omega),
    ARRAY_TO_STREAM_readable _ _ _ h0, ARRAY_TO_STREAM_readable _ _ _ h1,
    ARRAY_TO_STREAM_readable _ _ _ h2, ARRAY_TO_STREAM_readable _ _ _ h3]

theorem wlan_add_profile_args_wpa (sec : Nat) (hsec : sec = 2 ∨ sec = 3)
    (ucSsid : Option Ptr) (ulSsidLen : Nat)
    (ucBssid : Option Ptr) (ulPriority c g k : Nat) (key : Option Ptr) (pl : Nat)
    (hb : ∀ b, ucBssid = some b → b.off + 6 ≤ b.obj.length)
    (hs : Readable ucSsid ulSsidLen) (hk : Readable key pl) :
    wlan_add_profile_args sec ucSsid ulSsidLen ucBssid ulPriority c g k key pl =
      .ok (le32 sec ++ le32 0x28 ++ le32 ulSsidLen ++ [0, 0] ++ bssidBytes ucBssid ++
            le32 ulPriority ++ le32 c ++ le32 g ++ le32 k ++ le32 (u32 (0x08 + ulSsidLen)) ++
            le32 pl ++ bytesAt ucSsid ulSsidLen ++ bytesAt key pl,
           u16 (u32 (44 + ulSsidLen + pl))) := by
  rcases hsec with rfl | rfl <;>
  simp [wlan_add_profile_args, WLAN_SEC_UNSEC, WLAN_SEC_WEP, WLAN_SEC_WPA, WLAN_SEC_WPA2,
    UINT32_TO_STREAM,
    UINT16_TO_STREAM, bssidToStream_ok _ _ hb, ARRAY_TO_STREAM_readable _ _ _ hs, le32,
    WLAN_ADD_PROFILE_WPA_PARAM_LEN, bind, Except.bind, pure, Except.pure,
    ARRAY_TO_STREAM_readable _ _ _ hk]

/-! ## Lemmas: the wait loop -/

theorem awaitEvent_cons_match (op : Opcode) (e : HciEvent) (rest : List HciEvent) (w : World)
    (hw : w.tSLInformation.usRxEventOpcode = some op) (he : e.opcode = op) :
    awaitEvent (e :: rest) w =
      .done e.status
        { w with
          rx := rest
          tSLInformation :=
            { w.tSLInformation with
              usRxEventOpcode := none
              usEventOrDataReceived := 0
              pucReceivedData := some e } } := by
  simp [awaitEvent, SpiReceiveHandler, hci_unsolicited_event_handler, hw, he]

theorem awaitEvent_cons_other (op : Opcode) (e : HciEvent) (rest : List HciEvent) (w : World)
    (hw : w.tSLInformation.usRxEventOpcode = some op) (he : e.opcode ≠ op) :
    awaitEvent (e :: rest) w = awaitEvent rest (dispatched e rest w) := by
  have he2 : ¬ op = e.opcode := fun h => he h.symm
  simp [awaitEvent, SpiReceiveHandler, hci_unsolicited_event_handler, hw, he2, dispatched]

theorem awaitEvent_first_match (op : Opcode) (pre : List HciEvent) :
    ∀ (e : HciEvent) (rest : List HciEvent) (w : World),
      w.tSLInformation.usRxEventOpcode = some op → e.opcode = op →
      (∀ x ∈ pre, x.opcode ≠ op) →
      ∃ w2, awaitEvent (pre ++ e :: rest) w = .done e.status w2 ∧ w2.rx = rest ∧
        w2.trace = w.trace ++ pre.map Action.unsolicited ∧
        w2.tSLInformation.usRxEventOpcode = none ∧ SameGlobals w w2 := by
  induction pre with
  | nil =>
    intro e rest w hw he _
    refine ⟨_, awaitEvent_cons_match op e rest w hw he, ?_⟩
    simp [SameGlobals]
  | cons x pre ih =>
    intro e rest w hw he hpre
    have hx : x.opcode ≠ op := hpre x (List.mem_cons_self _ _)
    have hrest : ∀ y ∈ pre, y.opcode ≠ op := fun y hy => hpre y (List.mem_cons_of_mem _ hy)
    rw [List.cons_append, awaitEvent_cons_other op x _ w hw hx]
    obtain ⟨w2, h1, h2, h3, h4, h5⟩ :=
      ih e rest (dispatched x (pre ++ e :: rest) w) hw he hrest
    refine ⟨w2, h1, h2, ?_, h4, ?_⟩
    · simpa [dispatched] using h3
    · simpa [SameGlobals, dispatched] using h5

theorem awaitEvent_no_match (op : Opcode) (evs : List HciEvent) :
    ∀ (w : World), w.tSLInformation.usRxEventOpcode = some op →
      (∀ x ∈ evs, x.opcode ≠ op) →
      ∃ w2, awaitEvent evs w = .blocked w2 ∧ w2.rx = [] ∧
        w2.trace = w.trace ++ evs.map Action.unsolicited ∧
        w2.tSLInformation.usRxEventOpcode = some op ∧ SameGlobals w w2 := by
  induction evs with
  | nil =>
    intro w hw _
    exact ⟨_, rfl, rfl, by simp, hw, by simp [SameGlobals]⟩
  | cons x evs ih =>
    intro w hw hall
    have hx : x.opcode ≠ op := hall x (List.mem_cons_self _ _)
    have hrest : ∀ y ∈ evs, y.opcode ≠ op := fun y hy => hall y (List.mem_cons_of_mem _ hy)
    rw [awaitEvent_cons_other op x _ w hw hx]
    obtain ⟨w2, h1, h2, h3, h4, h5⟩ := ih (dispatched x evs w) hw hrest
    refine ⟨w2, h1, h2, ?_, ?_, ?_⟩
    · simpa [dispatched] using h3
    · simpa [dispatched] using h4
    · simpa [SameGlobals, dispatched] using h5

/-- Every event list has no event for `op`, or splits at the first one. -/
theorem split_first_match (op : Opcode) (evs : List HciEvent) :
    (∀ x ∈ evs, x.opcode ≠ op) ∨
    ∃ pre e rest, evs = pre ++ e :: rest ∧ e.opcode = op ∧ ∀ x ∈ pre, x.opcode ≠ op := by
  induction evs with
  | nil => left; simp
  | cons x evs ih =>
    by_cases hx : x.opcode = op
    · right; exact ⟨[], x, evs, rfl, hx, by simp⟩
    · rcases ih with h | ⟨pre, e, rest, h1, h2, h3⟩
      · left
        intro y hy
        rcases List.mem_cons.mp hy with rfl | hy
        · exact hx
        · exact h y hy
      · right
        refine ⟨x :: pre, e, rest, by simp [h1], h2, ?_⟩
        intro y hy
        rcases List.mem_cons.mp hy with rfl | hy
        · exact hx
        · exact h3 y hy

/-! ## C1 and C3: the add-profile frame and its declared length -/

theorem wlan_add_profile_eq (sec : Nat) (ucSsid : Option Ptr) (n : Nat) (ucBssid : Option Ptr)
    (prio c g k : Nat) (key : Option Ptr) (pl : Nat) (w : World) (args : List Nat) (len : Nat)
    (h : wlan_add_profile_args sec ucSsid n ucBssid prio c g k key pl = .ok (args, len)) :
    wlan_add_profile sec ucSsid n ucBssid prio c g k key pl w =
      SimpleLinkWaitEvent .HCI_CMND_WLAN_IOCTL_ADD_PROFILE
        (hci_command_send .HCI_CMND_WLAN_IOCTL_ADD_PROFILE args len w) := by
  simp [wlan_add_profile, h]

theorem wlan_add_profile_frame (ulSecType : Nat) (ucSsid : Option Ptr)
    (ulSsidLen : Nat) (ucBssid : Option Ptr)
    (ulPriority ulPairwiseCipher_Or_TxKeyLen ulGroupCipher_TxKeyIndex ulKeyMgmt : Nat)
    (ucPf_OrKey : Option Ptr) (ulPassPhraseLen : Nat)
    (hsec : ulSecType ≤ 3)
    (hs : Readable ucSsid ulSsidLen)
    (hb : ∀ b, ucBssid = some b → b.off + 6 ≤ b.obj.length)
    (hwep : ulSecType = 1 → ulPairwiseCipher_Or_TxKeyLen < 1073741824 ∧
      Readable ucPf_OrKey (4 * ulPairwiseCipher_Or_TxKeyLen))
    (hwpa : 2 ≤ ulSecType → Readable ucPf_OrKey ulPassPhraseLen) :
    ∃ pre post : List Nat,
      wlan_add_profile_args ulSecType ucSsid ulSsidLen ucBssid ulPriority
          ulPairwiseCipher_Or_TxKeyLen ulGroupCipher_TxKeyIndex ulKeyMgmt ucPf_OrKey
          ulPassPhraseLen =
        .ok (pre ++ bytesAt ucSsid ulSsidLen ++ post,
          u16 (u32 (addProfileLength ulSecType ulSsidLen ulPairwiseCipher_Or_TxKeyLen
            ulPassPhraseLen))) ∧
      pre.length = addProfilePrefix ulSecType ∧
      (pre ++ bytesAt ucSsid ulSsidLen ++ post).length =
        addProfileLength ulSecType ulSsidLen ulPairwiseCipher_Or_TxKeyLen ulPassPhraseLen := by
  have hbl := length_bssidBytes ucBssid hb
  have hsl := length_bytesAt ucSsid ulSsidLen hs
  have hcases : ulSecType = 0 ∨ ulSecType = 1 ∨ ulSecType = 2 ∨ ulSecType = 3 := by omega
  rcases hcases with rfl | rfl | h23
  · have hargs := wlan_add_profile_args_open ucSsid ulSsidLen ucBssid ulPriority
      ulPairwiseCipher_Or_TxKeyLen ulGroupCipher_TxKeyIndex ulKeyMgmt ucPf_OrKey
      ulPassPhraseLen hb hs
    refine ⟨le32 0 ++ le32 0x14 ++ le32 ulSsidLen ++ [0, 0] ++ bssidBytes ucBssid ++
        le32 ulPriority, [], ?_, ?_, ?_⟩
    · rw [hargs]; simp [addProfileLength]
    · simp [length_le32, hbl, addProfilePrefix]
    · simp [length_le32, hbl, hsl, addProfileLength]; omega
  · obtain ⟨hk32, hkr⟩ := hwep rfl
    have hargs := wlan_add_profile_args_wep ucSsid ulSsidLen ucBssid ulPriority
      ulPairwiseCipher_Or_TxKeyLen ulGroupCipher_TxKeyIndex ulKeyMgmt ucPf_OrKey
      ulPassPhraseLen hb hs hk32 hkr
    have b0 := length_bytesAt _ _
      (readable_block ucPf_OrKey ulPairwiseCipher_Or_TxKeyLen 0 (by omega) hkr)
    have b1 := length_bytesAt _ _
      (readable_block ucPf_OrKey ulPairwiseCipher_Or_TxKeyLen 1 (by omega) hkr)
    have b2 := length_bytesAt _ _
      (readable_block ucPf_OrKey ulPairwiseCipher_Or_TxKeyLen 2 (by omega) hkr)
    have b3 := length_bytesAt _ _
      (readable_block ucPf_OrKey ulPairwiseCipher_Or_TxKeyLen 3 (by omega) hkr)
    have p0 : ptrAdd ucPf_OrKey 0 = ucPf_OrKey := by
      cases ucPf_OrKey <;> simp [ptrAdd, Ptr.add]
    simp only [Nat.zero_mul, Nat.one_mul, p0] at b0 b1
    have hcomm : 36 + ulSsidLen + ulPairwiseCipher_Or_TxKeyLen * 4 =
        36 + ulSsidLen + 4 * ulPairwiseCipher_Or_TxKeyLen := by omega
    refine ⟨le32 1 ++ le32 0x20 ++ le32 ulSsidLen ++ [0, 0] ++ bssidBytes ucBssid ++
        le32 ulPriority ++ le32 (u32 (0x0C + ulSsidLen)) ++
        le32 ulPairwiseCipher_Or_TxKeyLen ++ le32 ulGroupCipher_TxKeyIndex,
      bytesAt ucPf_OrKey ulPairwiseCipher_Or_TxKeyLen ++
        bytesAt (ptrAdd ucPf_OrKey ulPairwiseCipher_Or_TxKeyLen) ulPairwiseCipher_Or_TxKeyLen ++
        bytesAt (ptrAdd ucPf_OrKey (2 * ulPairwiseCipher_Or_TxKeyLen))
          ulPairwiseCipher_Or_TxKeyLen ++
        bytesAt (ptrAdd ucPf_OrKey (3 * ulPairwiseCipher_Or_TxKeyLen))
          ulPairwiseCipher_Or_TxKeyLen, ?_, ?_, ?_⟩
    · rw [hargs, hcomm]; simp [addProfileLength]
    · simp [length_le32, hbl, addProfilePrefix]
    · simp [length_le32, hbl, hsl, b0, b1, b2, b3, addProfileLength]; omega
  · have h2 : 2 ≤ ulSecType := by omega
    have hpr := hwpa h2
    have hargs := wlan_add_profile_args_wpa ulSecType h23 ucSsid ulSsidLen ucBssid ulPriority
      ulPairwiseCipher_Or_TxKeyLen ulGroupCipher_TxKeyIndex ulKeyMgmt ucPf_OrKey
      ulPassPhraseLen hb hs hpr
    have hpl := length_bytesAt _ _ hpr
    have hne0 : ulSecType ≠ 0 := by omega
    have hne1 : ulSecType ≠ 1 := by omega
    refine ⟨le32 ulSecType ++ le32 0x28 ++ le32 ulSsidLen ++ [0, 0] ++ bssidBytes ucBssid ++
        le32 ulPriority ++ le32 ulPairwiseCipher_Or_TxKeyLen ++
        le32 ulGroupCipher_TxKeyIndex ++ le32 ulKeyMgmt ++ le32 (u32 (0x08 + ulSsidLen)) ++
        le32 ulPassPhraseLen, bytesAt ucPf_OrKey ulPassPhraseLen, ?_, ?_, ?_⟩
    · rw [hargs]; simp [addProfileLength, hne0, hne1]
    · simp [length_le32, hbl, addProfilePrefix, hne0, hne1]
    · simp [length_le32, hbl, hsl, hpl, addProfileLength, hne0, hne1]; omega

theorem addProfileLength_le (sec n k p : Nat) :
    addProfileLength sec n k p ≤ 44 + n + 4 * k + p := by
  unfold addProfileLength; split_ifs <;> omega

/-- C1: for the supported security types (0..3), SSID length at most 32, WEP
key length at most 32, WPA passphrase length at most 64, BSSID present or null
and loadable source buffers, `wlan_add_profile` declares to `hci_command_send`
exactly the number of argument bytes it wrote: 24+ssidLen (open),
36+ssidLen+4*keyLen (WEP), 44+ssidLen+passLen (WPA/WPA2); the 16-bit `arg_len`
holds that value untruncated. -/
theorem wlan_add_profile_declared_length (ulSecType : Nat) (ucSsid : Option Ptr)
    (ulSsidLen : Nat) (ucBssid : Option Ptr)
    (ulPriority ulPairwiseCipher_Or_TxKeyLen ulGroupCipher_TxKeyIndex ulKeyMgmt : Nat)
    (ucPf_OrKey : Option Ptr) (ulPassPhraseLen : Nat) (w : World)
    (hsec : ulSecType ≤ 3) (hssid : ulSsidLen ≤ 32)
    (hs : Readable ucSsid ulSsidLen)
    (hb : ∀ b, ucBssid = some b → b.off + 6 ≤ b.obj.length)
    (hwep : ulSecType = 1 → ulPairwiseCipher_Or_TxKeyLen ≤ 32 ∧
      Readable ucPf_OrKey (4 * ulPairwiseCipher_Or_TxKeyLen))
    (hwpa : 2 ≤ ulSecType → ulPassPhraseLen ≤ 64 ∧ Readable ucPf_OrKey ulPassPhraseLen) :
    ∃ args : List Nat,
      wlan_add_profile_args ulSecType ucSsid ulSsidLen ucBssid ulPriority
          ulPairwiseCipher_Or_TxKeyLen ulGroupCipher_TxKeyIndex ulKeyMgmt ucPf_OrKey
          ulPassPhraseLen = .ok (args, args.length) ∧
      wlan_add_profile ulSecType ucSsid ulSsidLen ucBssid ulPriority
          ulPairwiseCipher_Or_TxKeyLen ulGroupCipher_TxKeyIndex ulKeyMgmt ucPf_OrKey
          ulPassPhraseLen w =
        SimpleLinkWaitEvent .HCI_CMND_WLAN_IOCTL_ADD_PROFILE
          (hci_command_send .HCI_CMND_WLAN_IOCTL_ADD_PROFILE args args.length w) ∧
      args.length =
        (if ulSecType = 0 then 24 + ulSsidLen
         else if ulSecType = 1 then 36 + ulSsidLen + 4 * ulPairwiseCipher_Or_TxKeyLen
         else 44 + ulSsidLen + ulPassPhraseLen) ∧
      args.length < 65536 := by
  obtain ⟨pre, post, hargs, _, hlen⟩ := wlan_add_profile_frame ulSecType ucSsid ulSsidLen
    ucBssid ulPriority ulPairwiseCipher_Or_TxKeyLen ulGroupCipher_TxKeyIndex ulKeyMgmt
    ucPf_OrKey ulPassPhraseLen hsec hs hb
    (fun h => ⟨by have := (hwep h).1; omega, (hwep h).2⟩) (fun h => (hwpa h).2)
  have hbound : addProfileLength ulSecType ulSsidLen ulPairwiseCipher_Or_TxKeyLen
      ulPassPhraseLen < 65536 := by
    unfold addProfileLength
    split_ifs with h0 h1
    · omega
    · have := (hwep h1).1; omega
    · have := (hwpa (by omega)).1; omega
  rw [u32_small _ (by omega), u16_small _ hbound, ← hlen] at hargs
  refine ⟨_, hargs, wlan_add_profile_eq _ _ _ _ _ _ _ _ _ _ w _ _ hargs, ?_, ?_⟩
  · rw [hlen]; rfl
  · rw [hlen]; exact hbound

theorem wlan_add_profile_declared_length_witness :
    ∃ args : List Nat,
      wlan_add_profile_args 1 (some ⟨[65, 66, 67], 0⟩) 3 none 1 5 0 0
          (some ⟨List.replicate 20 7, 0⟩) 0 = .ok (args, args.length) ∧
      wlan_add_profile 1 (some ⟨[65, 66, 67], 0⟩) 3 none 1 5 0 0
          (some ⟨List.replicate 20 7, 0⟩) 0 ⟨⟨none, 0, none, 1⟩, [], [], [], [], 0⟩ =
        SimpleLinkWaitEvent .HCI_CMND_WLAN_IOCTL_ADD_PROFILE
          (hci_command_send .HCI_CMND_WLAN_IOCTL_ADD_PROFILE args args.length
            ⟨⟨none, 0, none, 1⟩, [], [], [], [], 0⟩) ∧
      args.length = (if 1 = 0 then 24 + 3 else if 1 = 1 then 36 + 3 + 4 * 5 else 44 + 3 + 0) ∧
      args.length < 65536 :=
  wlan_add_profile_declared_length 1 (some ⟨[65, 66, 67], 0⟩) 3 none 1 5 0 0
    (some ⟨List.replicate 20 7, 0⟩) 0 ⟨⟨none, 0, none, 1⟩, [], [], [], [], 0⟩
    (by decide) (by decide) (by decide) (by intro b h; cases h) (fun _ => ⟨by decide, by decide⟩)
    (fun h => absurd h (by decide))


/-- C3 (as stated, refuted): a call with a 33-byte SSID is not rejected.  The
open-security call below returns the status 0 delivered by the device, after
`hci_command_send` was invoked with 57 = 24 + 33 argument bytes, all 33 SSID
bytes included. -/
theorem wlan_add_profile_ssid33_is_sent :
    wlan_add_profile 0 (some ⟨List.replicate 33 65, 0⟩) 33 none 1 0 0 0 none 0
        ⟨⟨none, 0, none, 1⟩, [], [], [⟨.HCI_CMND_WLAN_IOCTL_ADD_PROFILE, 0⟩], [], 0⟩ =
      .done 0
        ⟨⟨none, 0, some ⟨.HCI_CMND_WLAN_IOCTL_ADD_PROFILE, 0⟩, 1⟩, [], [], [],
          [Action.hci_command_send .HCI_CMND_WLAN_IOCTL_ADD_PROFILE
              ([0, 0, 0, 0, 20, 0, 0, 0, 33, 0, 0, 0, 0, 0, 0, 0, 0, 0, 0, 0, 1, 0, 0, 0] ++
                List.replicate 33 65) 57,
            Action.SimpleLinkWaitEvent .HCI_CMND_WLAN_IOCTL_ADD_PROFILE], 0⟩ := by
  decide

theorem storedInTxBuffer_fits (size hdr : Nat) (args : List Nat) (len : Nat)
    (r : Except Fault (List Nat × Nat)) (hr : r = .ok (args, len))
    (h : hdr + args.length ≤ size) : storedInTxBuffer size hdr r = .ok (args, len) := by
  subst hr
  simp only [storedInTxBuffer, h, if_true]

theorem storedInTxBuffer_overflow (size hdr : Nat) (args : List Nat) (len : Nat)
    (r : Except Fault (List Nat × Nat)) (hr : r = .ok (args, len))
    (h : size < hdr + args.length) :
    storedInTxBuffer size hdr r = .error (.outOfBounds size size) := by
  subst hr
  have : ¬ hdr + args.length ≤ size := by omega
  simp only [storedInTxBuffer, this, if_false]

/-- C3 (amended): `wlan_add_profile` does not validate the SSID length and has
no rejected outcome.  For an SSID longer than 32 bytes (supported security
type, loadable source buffers, frame shorter than 65536 bytes): when the header
and the frame fit `wlan_tx_buffer`, the call invokes `hci_command_send`, once,
followed by the wait; the frame holds the fixed part of 24, 36 or 44 bytes,
then all `ulSsidLen` SSID bytes, then the key bytes, and the declared length is
the number of bytes written.  When they do not fit, the encoder is not stopped
either: it stores past the end of the array. -/
theorem wlan_add_profile_long_ssid_sent_while_it_fits (CC3000_TX_BUFFER_SIZE
    HEADERS_SIZE_CMD ulSecType : Nat) (ucSsid : Option Ptr)
    (ulSsidLen : Nat) (ucBssid : Option Ptr)
    (ulPriority ulPairwiseCipher_Or_TxKeyLen ulGroupCipher_TxKeyIndex ulKeyMgmt : Nat)
    (ucPf_OrKey : Option Ptr) (ulPassPhraseLen : Nat) (w : World)
    (hsec : ulSecType ≤ 3) (hssid : 32 < ulSsidLen)
    (hfit : addProfileLength ulSecType ulSsidLen ulPairwiseCipher_Or_TxKeyLen
      ulPassPhraseLen < 65536)
    (hs : Readable ucSsid ulSsidLen)
    (hb : ∀ b, ucBssid = some b → b.off + 6 ≤ b.obj.length)
    (hwep : ulSecType = 1 → Readable ucPf_OrKey (4 * ulPairwiseCipher_Or_TxKeyLen))
    (hwpa : 2 ≤ ulSecType → Readable ucPf_OrKey ulPassPhraseLen) :
    (HEADERS_SIZE_CMD + addProfileLength ulSecType ulSsidLen ulPairwiseCipher_Or_TxKeyLen
        ulPassPhraseLen ≤ CC3000_TX_BUFFER_SIZE →
      ∃ pre post : List Nat,
        storedInTxBuffer CC3000_TX_BUFFER_SIZE HEADERS_SIZE_CMD
            (wlan_add_profile_args ulSecType ucSsid ulSsidLen ucBssid ulPriority
              ulPairwiseCipher_Or_TxKeyLen ulGroupCipher_TxKeyIndex ulKeyMgmt ucPf_OrKey
              ulPassPhraseLen) =
          .ok (pre ++ bytesAt ucSsid ulSsidLen ++ post,
            (pre ++ bytesAt ucSsid ulSsidLen ++ post).length) ∧
        wlan_add_profile ulSecType ucSsid ulSsidLen ucBssid ulPriority
            ulPairwiseCipher_Or_TxKeyLen ulGroupCipher_TxKeyIndex ulKeyMgmt ucPf_OrKey
            ulPassPhraseLen w =
          SimpleLinkWaitEvent .HCI_CMND_WLAN_IOCTL_ADD_PROFILE
            (hci_command_send .HCI_CMND_WLAN_IOCTL_ADD_PROFILE
              (pre ++ bytesAt ucSsid ulSsidLen ++ post)
              (pre ++ bytesAt ucSsid ulSsidLen ++ post).length w) ∧
        pre.length = addProfilePrefix ulSecType ∧
        (bytesAt ucSsid ulSsidLen).length = ulSsidLen ∧
        32 < (bytesAt ucSsid ulSsidLen).length ∧
        (pre ++ bytesAt ucSsid ulSsidLen ++ post).length =
          addProfileLength ulSecType ulSsidLen ulPairwiseCipher_Or_TxKeyLen
            ulPassPhraseLen) ∧
    (CC3000_TX_BUFFER_SIZE < HEADERS_SIZE_CMD + addProfileLength ulSecType ulSsidLen
        ulPairwiseCipher_Or_TxKeyLen ulPassPhraseLen →
      storedInTxBuffer CC3000_TX_BUFFER_SIZE HEADERS_SIZE_CMD
          (wlan_add_profile_args ulSecType ucSsid ulSsidLen ucBssid ulPriority
            ulPairwiseCipher_Or_TxKeyLen ulGroupCipher_TxKeyIndex ulKeyMgmt ucPf_OrKey
            ulPassPhraseLen) =
        .error (.outOfBounds CC3000_TX_BUFFER_SIZE CC3000_TX_BUFFER_SIZE)) := by
  have hk : ulSecType = 1 → ulPairwiseCipher_Or_TxKeyLen < 1073741824 := by
    intro h1
    subst h1
    simp [addProfileLength] at hfit
    omega
  obtain ⟨pre, post, hargs, hpre, hlen⟩ := wlan_add_profile_frame ulSecType ucSsid ulSsidLen
    ucBssid ulPriority ulPairwiseCipher_Or_TxKeyLen ulGroupCipher_TxKeyIndex ulKeyMgmt
    ucPf_OrKey ulPassPhraseLen hsec hs hb (fun h => ⟨hk h, hwep h⟩) hwpa
  rw [u32_small _ (by omega), u16_small _ hfit, ← hlen] at hargs
  have hsl := length_bytesAt ucSsid ulSsidLen hs
  refine ⟨?_, ?_⟩
  · intro hbuf
    exact ⟨pre, post, storedInTxBuffer_fits _ _ _ _ _ hargs (by rw [hlen]; exact hbuf),
      wlan_add_profile_eq _ _ _ _ _ _ _ _ _ _ w _ _ hargs, hpre, hsl, by omega, hlen⟩
  · intro hbuf
    exact storedInTxBuffer_overflow _ _ _ _ _ hargs (by rw [hlen]; exact hbuf)

theorem wlan_add_profile_long_ssid_sent_while_it_fits_witness :
    ∃ pre post : List Nat,
      storedInTxBuffer 1520 9
          (wlan_add_profile_args 3 (some ⟨List.replicate 40 65, 0⟩) 40 none 1 0x18 0x1e 2
            (some ⟨[1, 2, 3, 4, 5, 6, 7, 8], 0⟩) 8) =
        .ok (pre ++ bytesAt (some ⟨List.replicate 40 65, 0⟩) 40 ++ post,
          (pre ++ bytesAt (some ⟨List.replicate 40 65, 0⟩) 40 ++ post).length) ∧
      wlan_add_profile 3 (some ⟨List.replicate 40 65, 0⟩) 40 none 1 0x18 0x1e 2
          (some ⟨[1, 2, 3, 4, 5, 6, 7, 8], 0⟩) 8 (idleWorld []) =
        SimpleLinkWaitEvent .HCI_CMND_WLAN_IOCTL_ADD_PROFILE
          (hci_command_send .HCI_CMND_WLAN_IOCTL_ADD_PROFILE
            (pre ++ bytesAt (some ⟨List.replicate 40 65, 0⟩) 40 ++ post)
            (pre ++ bytesAt (some ⟨List.replicate 40 65, 0⟩) 40 ++ post).length
            (idleWorld [])) ∧
      pre.length = addProfilePrefix 3 ∧
      (bytesAt (some ⟨List.replicate 40 65, 0⟩) 40).length = 40 ∧
      32 < (bytesAt (some ⟨List.replicate 40 65, 0⟩) 40).length ∧
      (pre ++ bytesAt (some ⟨List.replicate 40 65, 0⟩) 40 ++ post).length =
        addProfileLength 3 40 0x18 8 :=
  (wlan_add_profile_long_ssid_sent_while_it_fits 1520 9 3
    (some ⟨List.replicate 40 65, 0⟩) 40 none 1 0x18 0x1e 2
    (some ⟨[1, 2, 3, 4, 5, 6, 7, 8], 0⟩) 8 (idleWorld [])
    (by decide) (by decide) (by decide) (by decide) (by intro b h; cases h)
    (fun h => absurd h (by decide)) (fun _ => by decide)).1 (by decide)

/-! ## C10: the rendezvous -/

theorem SimpleLinkWaitEvent_first_match (op : Opcode) (w : World) (pre : List HciEvent)
    (e : HciEvent) (rest : List HciEvent) (hrx : w.rx = pre ++ e :: rest)
    (he : e.opcode = op) (hpre : ∀ x ∈ pre, x.opcode ≠ op) :
    ∃ w2, SimpleLinkWaitEvent op w = .done e.status w2 ∧ w2.rx = rest ∧
      w2.trace = w.trace ++ [Action.SimpleLinkWaitEvent op] ++ pre.map Action.unsolicited ∧
      w2.tSLInformation.usRxEventOpcode = none ∧ SameGlobals w w2 := by
  unfold SimpleLinkWaitEvent
  obtain ⟨w2, h1, h2, h3, h4, h5⟩ := awaitEvent_first_match op pre e rest
    { w with
      tSLInformation := { w.tSLInformation with usRxEventOpcode := some op }
      trace := w.trace ++ [Action.SimpleLinkWaitEvent op] } rfl he hpre
  rw [← hrx] at h1
  exact ⟨w2, h1, h2, h3, h4, h5⟩

theorem SimpleLinkWaitEvent_no_match (op : Opcode) (w : World)
    (hall : ∀ x ∈ w.rx, x.opcode ≠ op) :
    ∃ w2, SimpleLinkWaitEvent op w = .blocked w2 ∧
      w2.trace = w.trace ++ [Action.SimpleLinkWaitEvent op] ++ w.rx.map Action.unsolicited ∧
      SameGlobals w w2 := by
  unfold SimpleLinkWaitEvent
  obtain ⟨w2, h1, _, h3, _, h5⟩ := awaitEvent_no_match op w.rx
    { w with
      tSLInformation := { w.tSLInformation with usRxEventOpcode := some op }
      trace := w.trace ++ [Action.SimpleLinkWaitEvent op] } rfl hall
  exact ⟨w2, h1, h3, h5⟩

/-- C10: a command issued through the correlator (here `wlan_disconnect`, and
the wait of any opcode) returns only on the event of the awaited opcode.  If
the call returns, the frames delivered up to the return are some frames of
other opcodes, each given to the callbacks, followed by one frame of the
awaited opcode whose status is the value returned; while only frames of other
opcodes arrive the call stays blocked; and with a frame of another opcode B
delivered first and the frame of the awaited opcode A second, the call
resolves on A. -/
theorem wlan_disconnect_resolves_on_awaited_event (w : World) :
    (∀ ret w2, wlan_disconnect w = .done ret w2 →
      ∃ pre e, w.rx = pre ++ e :: w2.rx ∧
        e.opcode = .HCI_CMND_WLAN_DISCONNECT ∧ e.status = ret ∧
        (∀ x ∈ pre, x.opcode ≠ .HCI_CMND_WLAN_DISCONNECT) ∧
        w2.trace = w.trace ++
          [Action.hci_command_send .HCI_CMND_WLAN_DISCONNECT [] 0,
            Action.SimpleLinkWaitEvent .HCI_CMND_WLAN_DISCONNECT] ++
          pre.map Action.unsolicited) ∧
    ((∀ x ∈ w.rx, x.opcode ≠ .HCI_CMND_WLAN_DISCONNECT) →
      ∃ w2, wlan_disconnect w = .blocked w2) ∧
    (∀ b a rest, w.rx = b :: a :: rest → b.opcode ≠ .HCI_CMND_WLAN_DISCONNECT →
      a.opcode = .HCI_CMND_WLAN_DISCONNECT →
      ∃ w2, wlan_disconnect w = .done a.status w2 ∧ w2.rx = rest ∧
        w2.trace = w.trace ++
          [Action.hci_command_send .HCI_CMND_WLAN_DISCONNECT [] 0,
            Action.SimpleLinkWaitEvent .HCI_CMND_WLAN_DISCONNECT, Action.unsolicited b]) ∧
    (∀ op ret w2, SimpleLinkWaitEvent op w = .done ret w2 →
      ∃ pre e, w.rx = pre ++ e :: w2.rx ∧ e.opcode = op ∧ e.status = ret ∧
        ∀ x ∈ pre, x.opcode ≠ op) := by
  have key : ∀ (op : Opcode) (v : World) (ret : Int) (w2 : World),
      SimpleLinkWaitEvent op v = .done ret w2 →
      ∃ pre e, v.rx = pre ++ e :: w2.rx ∧ e.opcode = op ∧ e.status = ret ∧
        (∀ x ∈ pre, x.opcode ≠ op) ∧
        w2.trace = v.trace ++ [Action.SimpleLinkWaitEvent op] ++ pre.map Action.unsolicited := by
    intro op v ret w2 h
    rcases split_first_match op v.rx with hno | ⟨pre, e, rest, hrx, he, hpre⟩
    · obtain ⟨w3, h3, _⟩ := SimpleLinkWaitEvent_no_match op v hno
      rw [h3] at h; cases h
    · obtain ⟨w3, h3, hr, ht, _⟩ := SimpleLinkWaitEvent_first_match op v pre e rest hrx he hpre
      rw [h3] at h
      injection h with hret hw
      subst hw
      exact ⟨pre, e, by rw [hrx, hr], he, hret, hpre, ht⟩
  refine ⟨?_, ?_, ?_, ?_⟩
  · intro ret w2 h
    unfold wlan_disconnect at h
    cases hs : SimpleLinkWaitEvent .HCI_CMND_WLAN_DISCONNECT
        (hci_command_send .HCI_CMND_WLAN_DISCONNECT [] 0 w) with
    | done r v =>
      rw [hs] at h
      simp only [Outcome.bind] at h
      injection h with hret hw
      obtain ⟨pre, e, h1, h2, h3, h4, h5⟩ := key _ _ _ _ hs
      subst hw
      refine ⟨pre, e, ?_, h2, by rw [h3, hret], h4, ?_⟩
      · simpa [hci_command_send] using h1
      · simpa [hci_command_send] using h5
    | blocked v => rw [hs] at h; simp [Outcome.bind] at h
    | fault f v => rw [hs] at h; simp [Outcome.bind] at h
  · intro hall
    obtain ⟨w3, h3, _⟩ := SimpleLinkWaitEvent_no_match .HCI_CMND_WLAN_DISCONNECT
      (hci_command_send .HCI_CMND_WLAN_DISCONNECT [] 0 w) hall
    exact ⟨w3, by simp [wlan_disconnect, h3, Outcome.bind]⟩
  · intro b a rest hrx hb ha
    obtain ⟨w3, h3, hr, ht, _⟩ := SimpleLinkWaitEvent_first_match .HCI_CMND_WLAN_DISCONNECT
      (hci_command_send .HCI_CMND_WLAN_DISCONNECT [] 0 w) [b] a rest hrx ha
      (by intro x hx; rw [List.mem_singleton] at hx; rw [hx]; exact hb)
    refine ⟨{ w3 with errno := a.status }, by simp [wlan_disconnect, h3, Outcome.bind], hr, ?_⟩
    simpa [hci_command_send] using ht
  · intro op ret w2 h
    obtain ⟨pre, e, h1, h2, h3, h4, _⟩ := key op w ret w2 h
    exact ⟨pre, e, h1, h2, h3, h4⟩

theorem wlan_disconnect_resolves_on_awaited_event_witness :
    ∃ w2, wlan_disconnect
        ⟨⟨none, 0, none, 1⟩, [], [], [⟨.other 1, 9⟩, ⟨.HCI_CMND_WLAN_DISCONNECT, 7⟩], [], 0⟩ =
          .done (HciEvent.mk .HCI_CMND_WLAN_DISCONNECT 7).status w2 ∧ w2.rx = [] ∧
        w2.trace = [] ++
          [Action.hci_command_send .HCI_CMND_WLAN_DISCONNECT [] 0,
            Action.SimpleLinkWaitEvent .HCI_CMND_WLAN_DISCONNECT,
            Action.unsolicited ⟨.other 1, 9⟩] :=
  (wlan_disconnect_resolves_on_awaited_event
    ⟨⟨none, 0, none, 1⟩, [], [], [⟨.other 1, 9⟩, ⟨.HCI_CMND_WLAN_DISCONNECT, 7⟩], [], 0⟩).2.2.1
    ⟨.other 1, 9⟩ ⟨.HCI_CMND_WLAN_DISCONNECT, 7⟩ [] rfl (by decide) rfl

/-! ## Lemmas: the smart-config pipeline -/

theorem length_fixLen (n : Nat) (d : List Nat) : (fixLen n d).length = n := by
  simp [fixLen]

theorem fixLen_of_length (n : Nat) (d : List Nat) (h : d.length = n) : fixLen n d = d := by
  unfold fixLen
  rw [List.take_append_of_le_length (by omega), List.take_of_length_le (by omega)]

theorem length_decryptAt (c : List Nat → List Nat → List Nat) (key arr : List Nat) (off : Nat)
    (h : off + 16 ≤ arr.length) : (decryptAt c key arr off).length = arr.length := by
  simp [decryptAt, length_fixLen]; omega

theorem byteAt_decryptAt_lt (c : List Nat → List Nat → List Nat) (key arr : List Nat)
    (off i : Nat) (h : off + 16 ≤ arr.length) (hi : i < off) :
    byteAt (decryptAt c key arr off) i = byteAt arr i := by
  unfold decryptAt byteAt
  rw [List.append_assoc, List.getD_append _ _ _ _ (by simp; omega)]
  simp [List.getElem?_take_of_lt hi]

theorem byteAt_decryptAt_ge (c : List Nat → List Nat → List Nat) (key arr : List Nat)
    (off i : Nat) (h : off + 16 ≤ arr.length) (hi : off + 16 ≤ i) :
    byteAt (decryptAt c key arr off) i = byteAt arr i := by
  unfold decryptAt byteAt
  have hl : (List.take off arr ++ fixLen 16 (c (List.take 16 (List.drop off arr)) key)).length
      = off + 16 := by simp [length_fixLen]; omega
  rw [List.getD_append_right _ _ _ _ (by omega), hl]
  simp only [List.getD_eq_getElem?_getD, List.getElem?_drop]
  congr 2; omega

theorem profileByte_eq (i : Nat) (w : World) (h : i < w.profileArray.length) :
    profileByte i w = .done (byteAt w.profileArray i) w := by
  simp [profileByte, Ptr.load, List.getElem?_eq_getElem h, byteAt]

theorem profileByte_oob (i : Nat) (w : World) (h : w.profileArray.length ≤ i) :
    profileByte i w = .fault (.outOfBounds i w.profileArray.length) w := by
  simp [profileByte, Ptr.load, List.getElem?_eq_none h]

theorem byteAt_keyRegion (arr : List Nat) (o i : Nat) (hi : i < 32) :
    byteAt (keyRegion arr o) i = byteAt arr (o + i) := by
  simp [keyRegion, byteAt, List.getElem?_take, List.getElem?_drop, hi]

theorem keyDisambiguation_eq (o : Nat) (w : World) (h : o + 32 ≤ w.profileArray.length) :
    keyDisambiguation o w =
      .done ((specKeyRule (keyRegion w.profileArray o)).1,
        o + (specKeyRule (keyRegion w.profileArray o)).2) w := by
  have h31 := byteAt_keyRegion w.profileArray o 31 (by omega)
  have h0 := byteAt_keyRegion w.profileArray o 0 (by omega)
  rw [Nat.add_zero] at h0
  unfold keyDisambiguation specKeyRule
  rw [profileByte_eq _ _ (by omega), h31, h0]
  simp only [Outcome.bind]
  by_cases hz : byteAt w.profileArray (o + 31) = 0
  · simp only [hz, profileByte_eq o w (by omega), Outcome.bind, ne_eq, not_true_eq_false,
      if_false]
  · by_cases h1 : byteAt w.profileArray o = 31
    · simp only [hz, h1, profileByte_eq o w (by omega), Outcome.bind, ne_eq,
        not_false_eq_true, if_true]
    · simp only [hz, h1, profileByte_eq o w (by omega), Outcome.bind, ne_eq,
        not_false_eq_true, if_true, if_false, Nat.add_zero]

theorem aes_decrypt_ok (env : Env) (off : Nat) (w : World)
    (h : off + 16 ≤ w.profileArray.length) :
    aes_decrypt env off w =
      .done ()
        { w with
          profileArray := decryptAt env.aes_decrypt w.akey w.profileArray off
          trace := w.trace ++ [Action.aes_decrypt off] } := by
  simp [aes_decrypt, h]

theorem aes_decrypt_oob (env : Env) (off : Nat) (w : World)
    (h : w.profileArray.length < off + 16) :
    aes_decrypt env off w =
      .fault (.outOfBounds (max off w.profileArray.length) w.profileArray.length)
        { w with trace := w.trace ++ [Action.aes_decrypt off] } := by
  have : ¬ off + 16 ≤ w.profileArray.length := by omega
  simp [aes_decrypt, this]

theorem length_decryptedProfile (env : Env) (key arr : List Nat)
    (hlen : arr.length = 67) (hL : byteAt arr 0 ≤ 32) :
    (decryptedProfile env key arr).length = 67 := by
  unfold decryptedProfile
  split_ifs
  · rw [length_decryptAt _ _ _ _ (by rw [length_decryptAt _ _ _ _ (by omega)]; omega),
      length_decryptAt _ _ _ _ (by omega), hlen]
  · rw [length_decryptAt _ _ _ _ (by omega), hlen]

theorem byteAt_decryptedProfile_lt (env : Env) (key arr : List Nat) (i : Nat)
    (hlen : arr.length = 67) (hL : byteAt arr 0 ≤ 32) (hi : i < byteAt arr 0 + 3) :
    byteAt (decryptedProfile env key arr) i = byteAt arr i := by
  unfold decryptedProfile
  split_ifs
  · rw [byteAt_decryptAt_lt _ _ _ _ _ (by rw [length_decryptAt _ _ _ _ (by omega)]; omega)
      (by omega), byteAt_decryptAt_lt _ _ _ _ _ (by omega) hi]
  · rw [byteAt_decryptAt_lt _ _ _ _ _ (by omega) hi]

theorem smartConfigDecrypt_ok (env : Env) (w : World)
    (hlen : w.profileArray.length = 67) (hL : byteAt w.profileArray 0 ≤ 32) :
    smartConfigDecrypt env w =
      .done (1, byteAt w.profileArray 0,
          (specKeyRule (keyRegion (decryptedProfile env w.akey w.profileArray)
            (byteAt w.profileArray 0 + 3))).1,
          byteAt w.profileArray 0 + 3 +
            (specKeyRule (keyRegion (decryptedProfile env w.akey w.profileArray)
              (byteAt w.profileArray 0 + 3))).2)
        { w with
          profileArray := decryptedProfile env w.akey w.profileArray
          trace := w.trace ++ decryptCalls w.profileArray } := by
  have hl1 := length_decryptAt env.aes_decrypt w.akey w.profileArray
    (byteAt w.profileArray 0 + 3) (by omega)
  have g0 := byteAt_decryptAt_lt env.aes_decrypt w.akey w.profileArray
    (byteAt w.profileArray 0 + 3) 0 (by omega) (by omega)
  have g1 := byteAt_decryptAt_lt env.aes_decrypt w.akey w.profileArray
    (byteAt w.profileArray 0 + 3) (byteAt w.profileArray 0 + 1) (by omega) (by omega)
  unfold smartConfigDecrypt
  rw [profileByte_eq 0 w (by omega)]
  simp only [Outcome.bind]
  rw [profileByte_eq 0 w (by omega)]
  simp only [Outcome.bind]
  rw [aes_decrypt_ok env _ w (by omega)]
  simp only [Outcome.bind]
  rw [profileByte_eq 0 _ (by simp only [hl1]; omega)]
  simp only [Outcome.bind, g0]
  rw [profileByte_eq _ _ (by simp only [hl1]; omega)]
  simp only [Outcome.bind, g1]
  by_cases hc : byteAt w.profileArray (byteAt w.profileArray 0 + 1) > 16
  · simp only [hc, if_true]
    rw [aes_decrypt_ok env _ _ (by simp only [hl1]; omega)]
    simp only [Outcome.bind]
    rw [keyDisambiguation_eq _ _ (by
      simp only []
      rw [length_decryptAt _ _ _ _ (by omega), hl1]; omega)]
    simp only [Outcome.bind, decryptedProfile, decryptCalls, hc, if_true, List.append_assoc,
      List.singleton_append]
  · simp only [hc, if_false]
    rw [keyDisambiguation_eq _ _ (by simp only [hl1]; omega)]
    simp only [Outcome.bind, decryptedProfile, decryptCalls, hc, if_false]

theorem smartConfigAddProfile_eq (rv : Int) (sp sl kl kp : Nat) (w : World)
    (hlen : w.profileArray.length = 67) (hL : byteAt w.profileArray 0 ≤ 32) :
    smartConfigAddProfile rv sp sl kl kp w =
      if byteAt w.profileArray (byteAt w.profileArray 0 + 2) = 0 then
        wlan_add_profile 0 (some (Ptr.mk w.profileArray sp)) sl none 1 0 0 0 none 0 w
      else if byteAt w.profileArray (byteAt w.profileArray 0 + 2) = 1 then
        wlan_add_profile 1 (some (Ptr.mk w.profileArray sp)) sl none 1 kl 0 0
          (some (Ptr.mk w.profileArray kp)) 0 w
      else if byteAt w.profileArray (byteAt w.profileArray 0 + 2) = 2 ∨
          byteAt w.profileArray (byteAt w.profileArray 0 + 2) = 3 then
        wlan_add_profile 3 (some (Ptr.mk w.profileArray sp)) sl none 1 0x18 0x1e 2
          (some (Ptr.mk w.profileArray kp)) kl w
      else .done rv w := by
  unfold smartConfigAddProfile
  rw [profileByte_eq 0 w (by omega)]
  simp only [Outcome.bind]
  rw [profileByte_eq _ w (by omega)]
  simp only [Outcome.bind, WLAN_SEC_UNSEC, WLAN_SEC_WEP, WLAN_SEC_WPA, WLAN_SEC_WPA2]
  have e0 := profileByte_eq 0 w (by omega)
  have e2 := profileByte_eq (byteAt w.profileArray 0 + 2) w (by omega)
  by_cases h0 : byteAt w.profileArray (byteAt w.profileArray 0 + 2) = 0
  · simp only [h0, if_true, e0, Outcome.bind]
    rw [e2, h0]
  · by_cases h1 : byteAt w.profileArray (byteAt w.profileArray 0 + 2) = 1
    · simp only [h1, if_true, if_false, one_ne_zero, e0, Outcome.bind]
      rw [e2, h1]
    · simp only [h0, h1, if_false]

theorem length_fetchedBlob (env : Env) : (fetchedBlob env).length = 67 :=
  length_fixLen _ _

theorem length_decryptedBlob (env : Env) (hL : byteAt (fetchedBlob env) 0 ≤ 32) :
    (decryptedBlob env).length = 67 :=
  length_decryptedProfile env _ _ (length_fetchedBlob env) hL

theorem byteAt_decryptedBlob_lt (env : Env) (i : Nat) (hL : byteAt (fetchedBlob env) 0 ≤ 32)
    (hi : i < byteAt (fetchedBlob env) 0 + 3) :
    byteAt (decryptedBlob env) i = byteAt (fetchedBlob env) i :=
  byteAt_decryptedProfile_lt env _ _ i (length_fetchedBlob env) hL hi

/-- With both fetches successful and `L ≤ 32` the run reaches the `switch`. -/
theorem wlan_smart_config_process_reaches_switch (env : Env) (w : World)
    (hk : env.aes_read_key.1 = 0) (hb : env.nvmem_read.1 = 0)
    (hL : byteAt (fetchedBlob env) 0 ≤ 32) :
    wlan_smart_config_process env w =
      smartConfigAddProfile 0 1 (byteAt (fetchedBlob env) 0) (parsedKey env).1
        (parsedKey env).2 (decryptedWorld env w) := by
  unfold wlan_smart_config_process
  simp only [hk, hb, ne_eq, not_true_eq_false, if_false]
  rw [smartConfigDecrypt_ok env _ (length_fetchedBlob env) hL]
  simp only [Outcome.bind, parsedKey, decryptedWorld, decryptedBlob, fetchedBlob, fetchedKey,
    List.append_assoc, List.singleton_append, List.cons_append, List.nil_append]

/-! ## Lemmas: what a call leaves in the world -/

theorem unsolicitedBefore_no_match (op : Opcode) (rx : List HciEvent)
    (h : ∀ x ∈ rx, x.opcode ≠ op) : unsolicitedBefore op rx = rx := by
  unfold unsolicitedBefore
  rw [List.takeWhile_eq_self_iff]
  intro x hx
  simpa using h x hx

theorem unsolicitedBefore_split (op : Opcode) (pre : List HciEvent) (e : HciEvent)
    (rest : List HciEvent) (he : e.opcode = op) (h : ∀ x ∈ pre, x.opcode ≠ op) :
    unsolicitedBefore op (pre ++ e :: rest) = pre := by
  unfold unsolicitedBefore
  induction pre with
  | nil => simp [List.takeWhile, he]
  | cons x pre ih =>
    have hx : x.opcode ≠ op := h x (List.mem_cons_self _ _)
    simp only [List.cons_append, List.takeWhile_cons, hx, ne_eq, not_false_eq_true,
      decide_True, if_true]
    rw [ih (fun y hy => h y (List.mem_cons_of_mem _ hy))]

theorem SimpleLinkWaitEvent_world (op : Opcode) (w : World) :
    (SimpleLinkWaitEvent op w).world.trace =
        w.trace ++ Action.SimpleLinkWaitEvent op ::
          (unsolicitedBefore op w.rx).map Action.unsolicited ∧
      SameGlobals w (SimpleLinkWaitEvent op w).world := by
  rcases split_first_match op w.rx with hno | ⟨pre, e, rest, hrx, he, hpre⟩
  · obtain ⟨w2, h1, h2, h3⟩ := SimpleLinkWaitEvent_no_match op w hno
    rw [h1, unsolicitedBefore_no_match op w.rx hno]
    exact ⟨by simpa [Outcome.world] using h2, h3⟩
  · obtain ⟨w2, h1, _, h2, _, h3⟩ := SimpleLinkWaitEvent_first_match op w pre e rest hrx he hpre
    rw [h1, hrx, unsolicitedBefore_split op pre e rest he hpre]
    exact ⟨by simpa [Outcome.world] using h2, h3⟩

theorem wlan_add_profile_world (sec : Nat) (ucSsid : Option Ptr) (n : Nat)
    (ucBssid : Option Ptr) (prio c g k : Nat) (key : Option Ptr) (pl : Nat) (w : World) :
    (wlan_add_profile sec ucSsid n ucBssid prio c g k key pl w).world.trace =
        w.trace ++
          addProfileTrace (wlan_add_profile_args sec ucSsid n ucBssid prio c g k key pl) w.rx ∧
      SameGlobals w (wlan_add_profile sec ucSsid n ucBssid prio c g k key pl w).world := by
  unfold wlan_add_profile
  cases h : wlan_add_profile_args sec ucSsid n ucBssid prio c g k key pl with
  | error f => simp [Outcome.world, addProfileTrace, SameGlobals]
  | ok r =>
    obtain ⟨args, len⟩ := r
    obtain ⟨h1, h2⟩ := SimpleLinkWaitEvent_world .HCI_CMND_WLAN_IOCTL_ADD_PROFILE
      (hci_command_send .HCI_CMND_WLAN_IOCTL_ADD_PROFILE args len w)
    refine ⟨?_, ?_⟩
    · rw [h1]
      simp only [addProfileTrace, hci_command_send, List.append_assoc,
        List.singleton_append]
    · simpa [SameGlobals, hci_command_send] using h2

theorem not_decrypt_of_mem_addProfileTrace (r : Except Fault (List Nat × Nat))
    (rx : List HciEvent) (a : Action) (h : a ∈ addProfileTrace r rx) (o : Nat) :
    a ≠ Action.aes_decrypt o := by
  intro ha
  subst ha
  cases r with
  | error f => simp [addProfileTrace] at h
  | ok r => simp [addProfileTrace] at h

/-! ## C2: key length disambiguation -/

/-- C2: on every 32-byte key region `r` (the bytes `o .. o+32` of the profile
array as they stand after decryption) the disambiguation yields key length 31
and key start `r+1` when `r[31] ≠ 0` and `r[0] = 31`, key length 32 and key
start `r` when `r[31] ≠ 0` and `r[0] ≠ 31`, and key length `r[0]` and key start
`r+1` when `r[31] = 0`; this is the rule of spec section 4.3 step 5. -/
theorem keyDisambiguation_rule (o : Nat) (w : World) (h : o + 32 ≤ w.profileArray.length) :
    (byteAt (keyRegion w.profileArray o) 31 ≠ 0 → byteAt (keyRegion w.profileArray o) 0 = 31 →
      keyDisambiguation o w = .done (31, o + 1) w) ∧
    (byteAt (keyRegion w.profileArray o) 31 ≠ 0 → byteAt (keyRegion w.profileArray o) 0 ≠ 31 →
      keyDisambiguation o w = .done (32, o) w) ∧
    (byteAt (keyRegion w.profileArray o) 31 = 0 →
      keyDisambiguation o w = .done (byteAt (keyRegion w.profileArray o) 0, o + 1) w) ∧
    keyDisambiguation o w =
      .done ((specKeyRule (keyRegion w.profileArray o)).1,
        o + (specKeyRule (keyRegion w.profileArray o)).2) w := by
  have hk := keyDisambiguation_eq o w h
  refine ⟨?_, ?_, ?_, hk⟩
  · intro h31 h0
    rw [hk]; simp [specKeyRule, h31, h0]
  · intro h31 h0
    rw [hk]; simp [specKeyRule, h31, h0]
  · intro h31
    rw [hk]; simp [specKeyRule, h31]

theorem keyDisambiguation_rule_witness :
    (keyDisambiguation 0
        (profileWorld ([10, 1, 2, 3, 4, 5, 6, 7, 8, 9, 10] ++ List.replicate 21 0)) =
      .done (10, 0 + 1)
        (profileWorld ([10, 1, 2, 3, 4, 5, 6, 7, 8, 9, 10] ++ List.replicate 21 0)) ∧
      bytesAt (some ⟨[10, 1, 2, 3, 4, 5, 6, 7, 8, 9, 10] ++ List.replicate 21 0, 0 + 1⟩) 10 =
        [1, 2, 3, 4, 5, 6, 7, 8, 9, 10]) ∧
    (keyDisambiguation 0 (profileWorld ([31] ++ List.replicate 30 9 ++ [5])) =
        .done (31, 0 + 1) (profileWorld ([31] ++ List.replicate 30 9 ++ [5])) ∧
      bytesAt (some ⟨[31] ++ List.replicate 30 9 ++ [5], 0 + 1⟩) 31 =
        List.replicate 30 9 ++ [5]) ∧
    (keyDisambiguation 0 (profileWorld ([7] ++ List.replicate 30 9 ++ [5])) =
        .done (32, 0) (profileWorld ([7] ++ List.replicate 30 9 ++ [5])) ∧
      bytesAt (some ⟨[7] ++ List.replicate 30 9 ++ [5], 0⟩) 32 =
        [7] ++ List.replicate 30 9 ++ [5]) :=
  ⟨⟨(keyDisambiguation_rule 0
        (profileWorld ([10, 1, 2, 3, 4, 5, 6, 7, 8, 9, 10] ++ List.replicate 21 0))
        (by decide)).2.2.1 (by decide), by decide⟩,
    ⟨(keyDisambiguation_rule 0 (profileWorld ([31] ++ List.replicate 30 9 ++ [5]))
      (by decide)).1 (by decide) (by decide), by decide⟩,
    ⟨(keyDisambiguation_rule 0 (profileWorld ([7] ++ List.replicate 30 9 ++ [5]))
      (by decide)).2.1 (by decide) (by decide), by decide⟩⟩

/-! ## C9: fetch failures -/

/-- C9: a failed key fetch is returned unchanged, and only `aes_read_key` was
called; after a successful key fetch a failed blob fetch (`nvmem_read` of 67
bytes at offset 0) is returned unchanged, and only the two fetches were called:
no decryption and no add-profile command. -/
theorem wlan_smart_config_process_fetch_failure (env : Env) (w : World) :
    (env.aes_read_key.1 ≠ 0 →
      wlan_smart_config_process env w =
        .done env.aes_read_key.1
          { w with akey := fetchedKey env, trace := w.trace ++ [Action.aes_read_key] }) ∧
    (env.aes_read_key.1 = 0 → env.nvmem_read.1 ≠ 0 →
      wlan_smart_config_process env w =
        .done env.nvmem_read.1
          { w with
            akey := fetchedKey env
            profileArray := fetchedBlob env
            trace := w.trace ++
              [Action.aes_read_key,
                Action.nvmem_read NVMEM_SHARED_MEM_FILEID SMART_CONFIG_PROFILE_SIZE 0] }) := by
  refine ⟨?_, ?_⟩
  · intro hk
    simp [wlan_smart_config_process, hk, fetchedKey]
  · intro hk hb
    simp [wlan_smart_config_process, hk, hb, fetchedKey, fetchedBlob]

theorem wlan_smart_config_process_fetch_failure_witness :
    wlan_smart_config_process blobFailureEnv (idleWorld []) =
      .done (-5)
        { (idleWorld []) with
          akey := fetchedKey blobFailureEnv
          profileArray := fetchedBlob blobFailureEnv
          trace := (idleWorld []).trace ++
            [Action.aes_read_key,
              Action.nvmem_read NVMEM_SHARED_MEM_FILEID SMART_CONFIG_PROFILE_SIZE 0] } :=
  (wlan_smart_config_process_fetch_failure blobFailureEnv (idleWorld [])).2 rfl (by decide)

/-! ## C4: a blob with L > 32 -/

/-- C4 (as stated, refuted): with `L = 33` the call is not rejected as
malformed.  It decrypts the block at offset 36 and then loads `profileArray[67]`,
one byte past the 67-byte array. -/
theorem wlan_smart_config_process_L33_overruns :
    blobL33.length = 67 ∧ byteAt blobL33 0 = 33 ∧
    (wlan_smart_config_process (demoEnv (List.replicate 16 1) blobL33)
        (idleWorld [])).faulted = some (.outOfBounds 67 67) ∧
    (wlan_smart_config_process (demoEnv (List.replicate 16 1) blobL33)
        (idleWorld [])).world.trace =
      [Action.aes_read_key, Action.nvmem_read 13 67 0, Action.aes_decrypt 36] := by
  decide

theorem smartConfigDecrypt_overruns (env : Env) (v : World)
    (hlen : v.profileArray.length = 67) (hL : 32 < byteAt v.profileArray 0) :
    ∃ idx v2, 67 ≤ idx ∧
      smartConfigDecrypt env v = .fault (.outOfBounds idx 67) v2 ∧
      v2.trace =
        v.trace ++ [Action.aes_decrypt (byteAt v.profileArray 0 + 3)] ++
          (if byteAt v.profileArray 0 ≤ 48 ∧
              byteAt v.profileArray (byteAt v.profileArray 0 + 1) > 16 then
            [Action.aes_decrypt (byteAt v.profileArray 0 + 3 + 16)]
          else []) := by
  unfold smartConfigDecrypt
  rw [profileByte_eq 0 v (by omega)]
  simp only [Outcome.bind]
  rw [profileByte_eq 0 v (by omega)]
  simp only [Outcome.bind]
  by_cases h48 : byteAt v.profileArray 0 ≤ 48
  · have hl1 := length_decryptAt env.aes_decrypt v.akey v.profileArray
      (byteAt v.profileArray 0 + 3) (by omega)
    have g0 := byteAt_decryptAt_lt env.aes_decrypt v.akey v.profileArray
      (byteAt v.profileArray 0 + 3) 0 (by omega) (by omega)
    have g1 := byteAt_decryptAt_lt env.aes_decrypt v.akey v.profileArray
      (byteAt v.profileArray 0 + 3) (byteAt v.profileArray 0 + 1) (by omega) (by omega)
    rw [aes_decrypt_ok env _ v (by omega)]
    simp only [Outcome.bind]
    rw [profileByte_eq 0 _ (by simp only [hl1]; omega)]
    simp only [Outcome.bind, g0]
    rw [profileByte_eq _ _ (by simp only [hl1]; omega)]
    simp only [Outcome.bind, g1]
    by_cases hc : byteAt v.profileArray (byteAt v.profileArray 0 + 1) > 16
    · simp only [hc, if_true]
      rw [aes_decrypt_oob env _ _ (by simp only [hl1]; omega)]
      simp only [Outcome.bind, hl1, hlen]
      have hm : max (byteAt v.profileArray 0 + 3 + 16) 67 = 67 := by omega
      rw [hm]
      exact ⟨67, _, le_refl _, rfl, by simp [h48, hc]⟩
    · simp only [hc, if_false]
      unfold keyDisambiguation
      rw [profileByte_oob _ _ (by simp only [hl1]; omega)]
      simp only [Outcome.bind, hl1, hlen]
      exact ⟨_, _, by omega, rfl, by simp [h48, hc]⟩
  · rw [aes_decrypt_oob env _ v (by omega)]
    simp only [Outcome.bind, hlen]
    exact ⟨_, _, by omega, rfl, by simp [h48]⟩

/-- C4 (amended): `wlan_smart_config_process` does not range-check `L` and has
no MalformedBlob outcome.  For every 67-byte blob with `L > 32` (both fetches
successful) it calls `aes_decrypt` on the block at `L+3`, then stops at an
access outside the 67-byte array (index at least 67) without returning a
value; up to that access the calls made are the two fetches, that decryption
and, when `L ≤ 48` and `blob[L+1] > 16`, the decryption of the block at `L+19`:
no add-profile command. -/
theorem wlan_smart_config_process_long_ssid_overruns (env : Env) (w : World)
    (hk : env.aes_read_key.1 = 0) (hb : env.nvmem_read.1 = 0)
    (hL : 32 < byteAt (fetchedBlob env) 0) :
    ∃ idx, 67 ≤ idx ∧
      (wlan_smart_config_process env w).faulted = some (.outOfBounds idx 67) ∧
      (wlan_smart_config_process env w).returned = none ∧
      (wlan_smart_config_process env w).world.trace =
        w.trace ++
          [Action.aes_read_key,
            Action.nvmem_read NVMEM_SHARED_MEM_FILEID SMART_CONFIG_PROFILE_SIZE 0,
            Action.aes_decrypt (byteAt (fetchedBlob env) 0 + 3)] ++
          (if byteAt (fetchedBlob env) 0 ≤ 48 ∧
              byteAt (fetchedBlob env) (byteAt (fetchedBlob env) 0 + 1) > 16 then
            [Action.aes_decrypt (byteAt (fetchedBlob env) 0 + 3 + 16)]
          else []) := by
  obtain ⟨idx, v2, hidx, hrun, htr⟩ := smartConfigDecrypt_overruns env
    { w with
      akey := fixLen AES128_KEY_SIZE env.aes_read_key.2
      profileArray := fetchedBlob env
      trace := w.trace ++ [Action.aes_read_key] ++
        [Action.nvmem_read NVMEM_SHARED_MEM_FILEID SMART_CONFIG_PROFILE_SIZE 0] }
    (length_fetchedBlob env) hL
  have hp : wlan_smart_config_process env w = .fault (.outOfBounds idx 67) v2 := by
    unfold wlan_smart_config_process
    simp only [hk, hb, ne_eq, not_true_eq_false, if_false]
    unfold fetchedBlob at hrun
    rw [hrun]
    rfl
  rw [hp]
  refine ⟨idx, hidx, rfl, rfl, ?_⟩
  simp only [Outcome.world, htr, List.append_assoc, List.cons_append, List.nil_append]

theorem wlan_smart_config_process_long_ssid_overruns_witness :
    ∃ idx, 67 ≤ idx ∧
      (wlan_smart_config_process (demoEnv (List.replicate 16 1) blobL33)
        (idleWorld [])).faulted = some (.outOfBounds idx 67) ∧
      (wlan_smart_config_process (demoEnv (List.replicate 16 1) blobL33)
        (idleWorld [])).returned = none ∧
      (wlan_smart_config_process (demoEnv (List.replicate 16 1) blobL33)
        (idleWorld [])).world.trace =
        (idleWorld []).trace ++
          [Action.aes_read_key,
            Action.nvmem_read NVMEM_SHARED_MEM_FILEID SMART_CONFIG_PROFILE_SIZE 0,
            Action.aes_decrypt
              (byteAt (fetchedBlob (demoEnv (List.replicate 16 1) blobL33)) 0 + 3)] ++
          (if byteAt (fetchedBlob (demoEnv (List.replicate 16 1) blobL33)) 0 ≤ 48 ∧
              byteAt (fetchedBlob (demoEnv (List.replicate 16 1) blobL33))
                (byteAt (fetchedBlob (demoEnv (List.replicate 16 1) blobL33)) 0 + 1) > 16 then
            [Action.aes_decrypt
              (byteAt (fetchedBlob (demoEnv (List.replicate 16 1) blobL33)) 0 + 3 + 16)]
          else []) :=
  wlan_smart_config_process_long_ssid_overruns (demoEnv (List.replicate 16 1) blobL33)
    (idleWorld []) rfl rfl (by decide)

/-! ## C6: the second key block -/

theorem smartConfigAddProfile_world (rv : Int) (sp sl kl kp : Nat) (v : World)
    (hlen : v.profileArray.length = 67) (hL : byteAt v.profileArray 0 ≤ 32) :
    ∃ rest, (smartConfigAddProfile rv sp sl kl kp v).world.trace = v.trace ++ rest ∧
      (∀ a ∈ rest, ∀ o, a ≠ Action.aes_decrypt o) ∧
      SameGlobals v (smartConfigAddProfile rv sp sl kl kp v).world := by
  rw [smartConfigAddProfile_eq rv sp sl kl kp v hlen hL]
  split_ifs
  · exact ⟨_, (wlan_add_profile_world _ _ _ _ _ _ _ _ _ _ v).1,
      fun a ha o => not_decrypt_of_mem_addProfileTrace _ _ a ha o,
      (wlan_add_profile_world _ _ _ _ _ _ _ _ _ _ v).2⟩
  · exact ⟨_, (wlan_add_profile_world _ _ _ _ _ _ _ _ _ _ v).1,
      fun a ha o => not_decrypt_of_mem_addProfileTrace _ _ a ha o,
      (wlan_add_profile_world _ _ _ _ _ _ _ _ _ _ v).2⟩
  · exact ⟨_, (wlan_add_profile_world _ _ _ _ _ _ _ _ _ _ v).1,
      fun a ha o => not_decrypt_of_mem_addProfileTrace _ _ a ha o,
      (wlan_add_profile_world _ _ _ _ _ _ _ _ _ _ v).2⟩
  · exact ⟨[], by simp [Outcome.world], by simp, by simp [SameGlobals, Outcome.world]⟩

/-- C6 (as stated, refuted): in `blobWpa2` (L = 2) the byte `blob[1+L+1]` is the
security type 3, not greater than 16, yet the second block (offset 21 = L+19) is
decrypted: the test is on `blob[L+1] = 32`. -/
theorem second_block_decrypted_with_small_byte_L2 :
    blobWpa2.length = 67 ∧ byteAt blobWpa2 0 = 2 ∧ byteAt blobWpa2 (1 + 2 + 1) = 3 ∧
    ¬ byteAt blobWpa2 (1 + 2 + 1) > 16 ∧
    (wlan_smart_config_process (demoEnv (List.replicate 16 1) blobWpa2)
        (idleWorld [⟨.HCI_CMND_WLAN_IOCTL_ADD_PROFILE, 0⟩])).world.trace =
      [Action.aes_read_key, Action.nvmem_read 13 67 0, Action.aes_decrypt 5,
        Action.aes_decrypt 21,
        Action.hci_command_send .HCI_CMND_WLAN_IOCTL_ADD_PROFILE
          (le32 3 ++ le32 0x28 ++ le32 2 ++ [0, 0] ++ [0, 0, 0, 0, 0, 0] ++ le32 1 ++
            le32 0x18 ++ le32 0x1e ++ le32 2 ++ le32 10 ++ le32 8 ++ [65, 66] ++
            [112, 97, 115, 115, 119, 111, 114, 100]) 54,
        Action.SimpleLinkWaitEvent .HCI_CMND_WLAN_IOCTL_ADD_PROFILE] := by
  decide

/-- C6 (amended): for every 67-byte blob with `L = blob[0] ≤ 32` (both fetches
successful) the second 16-byte block of the key region, at `L+19`, is decrypted
if and only if the key-length byte `blob[L+1]` is greater than 16: the calls of
the run are the two fetches, the decryption at `L+3`, the decryption at `L+19`
exactly in that case, and then calls that are no decryption.  Otherwise the
bytes `blob[L+19 .. L+35)` are left as fetched. -/
theorem second_block_decrypted_iff_key_length_byte (env : Env) (w : World)
    (hk : env.aes_read_key.1 = 0) (hb : env.nvmem_read.1 = 0)
    (hL : byteAt (fetchedBlob env) 0 ≤ 32) :
    (∃ rest,
      (wlan_smart_config_process env w).world.trace =
        w.trace ++
          [Action.aes_read_key,
            Action.nvmem_read NVMEM_SHARED_MEM_FILEID SMART_CONFIG_PROFILE_SIZE 0,
            Action.aes_decrypt (byteAt (fetchedBlob env) 0 + 3)] ++
          (if byteAt (fetchedBlob env) (byteAt (fetchedBlob env) 0 + 1) > 16 then
            [Action.aes_decrypt (byteAt (fetchedBlob env) 0 + 19)]
          else []) ++ rest ∧
      ∀ a ∈ rest, ∀ o, a ≠ Action.aes_decrypt o) ∧
    (¬ byteAt (fetchedBlob env) (byteAt (fetchedBlob env) 0 + 1) > 16 →
      ∀ i, byteAt (fetchedBlob env) 0 + 19 ≤ i → i < byteAt (fetchedBlob env) 0 + 35 →
        byteAt (wlan_smart_config_process env w).world.profileArray i =
          byteAt (fetchedBlob env) i) := by
  have hreach := wlan_smart_config_process_reaches_switch env w hk hb hL
  have hdl : (decryptedWorld env w).profileArray.length = 67 := length_decryptedBlob env hL
  have hd0 : byteAt (decryptedWorld env w).profileArray 0 ≤ 32 := by
    show byteAt (decryptedBlob env) 0 ≤ 32
    rw [byteAt_decryptedBlob_lt env 0 hL (by omega)]; exact hL
  obtain ⟨rest, htr, hno, hsame⟩ := smartConfigAddProfile_world 0 1
    (byteAt (fetchedBlob env) 0) (parsedKey env).1 (parsedKey env).2 (decryptedWorld env w)
    hdl hd0
  rw [hreach]
  refine ⟨⟨rest, ?_, hno⟩, ?_⟩
  · rw [htr]
    by_cases hc : byteAt (fetchedBlob env) (byteAt (fetchedBlob env) 0 + 1) > 16
    · simp [decryptedWorld, decryptCalls, hc]
    · simp [decryptedWorld, decryptCalls, hc]
  · intro hc i hi1 hi2
    rw [hsame.2.1]
    show byteAt (decryptedBlob env) i = byteAt (fetchedBlob env) i
    unfold decryptedBlob decryptedProfile
    rw [if_neg hc]
    exact byteAt_decryptAt_ge _ _ _ _ _ (by have := length_fetchedBlob env; omega) (by omega)

theorem second_block_decrypted_iff_key_length_byte_witness :
    byteAt (wlan_smart_config_process (demoEnv (List.replicate 16 1) blobWpa2Short)
        (idleWorld [])).world.profileArray 21 =
      byteAt (fetchedBlob (demoEnv (List.replicate 16 1) blobWpa2Short)) 21 :=
  (second_block_decrypted_iff_key_length_byte (demoEnv (List.replicate 16 1) blobWpa2Short)
    (idleWorld []) rfl rfl (by decide)).2 (by decide) 21 (by decide) (by decide)

/-! ## C7: the security type byte -/

/-- The `switch` of `wlan_smart_config_process` on the security type byte
`blob[L+2]`, for a blob with `L ≤ 32` and successful fetches. -/
theorem wlan_smart_config_process_switch (env : Env) (w : World)
    (hk : env.aes_read_key.1 = 0) (hb : env.nvmem_read.1 = 0)
    (hL : byteAt (fetchedBlob env) 0 ≤ 32) :
    wlan_smart_config_process env w =
      if byteAt (fetchedBlob env) (byteAt (fetchedBlob env) 0 + 2) = 0 then
        wlan_add_profile 0 (some (Ptr.mk (decryptedBlob env) 1)) (byteAt (fetchedBlob env) 0)
          none 1 0 0 0 none 0 (decryptedWorld env w)
      else if byteAt (fetchedBlob env) (byteAt (fetchedBlob env) 0 + 2) = 1 then
        wlan_add_profile 1 (some (Ptr.mk (decryptedBlob env) 1)) (byteAt (fetchedBlob env) 0)
          none 1 (parsedKey env).1 0 0 (some (Ptr.mk (decryptedBlob env) (parsedKey env).2)) 0
          (decryptedWorld env w)
      else if byteAt (fetchedBlob env) (byteAt (fetchedBlob env) 0 + 2) = 2 ∨
          byteAt (fetchedBlob env) (byteAt (fetchedBlob env) 0 + 2) = 3 then
        wlan_add_profile 3 (some (Ptr.mk (decryptedBlob env) 1)) (byteAt (fetchedBlob env) 0)
          none 1 0x18 0x1e 2 (some (Ptr.mk (decryptedBlob env) (parsedKey env).2))
          (parsedKey env).1 (decryptedWorld env w)
      else .done 0 (decryptedWorld env w) := by
  have hdl : (decryptedWorld env w).profileArray.length = 67 := length_decryptedBlob env hL
  have h0 : byteAt (decryptedBlob env) 0 = byteAt (fetchedBlob env) 0 :=
    byteAt_decryptedBlob_lt env 0 hL (by omega)
  have h2 : byteAt (decryptedBlob env) (byteAt (fetchedBlob env) 0 + 2) =
      byteAt (fetchedBlob env) (byteAt (fetchedBlob env) 0 + 2) :=
    byteAt_decryptedBlob_lt env _ hL (by omega)
  have hd0 : byteAt (decryptedWorld env w).profileArray 0 ≤ 32 := by
    show byteAt (decryptedBlob env) 0 ≤ 32
    rw [h0]; exact hL
  rw [wlan_smart_config_process_reaches_switch env w hk hb hL,
    smartConfigAddProfile_eq _ _ _ _ _ _ hdl hd0]
  show (if byteAt (decryptedBlob env) (byteAt (decryptedBlob env) 0 + 2) = 0 then _
    else if byteAt (decryptedBlob env) (byteAt (decryptedBlob env) 0 + 2) = 1 then _
    else if byteAt (decryptedBlob env) (byteAt (decryptedBlob env) 0 + 2) = 2 ∨
      byteAt (decryptedBlob env) (byteAt (decryptedBlob env) 0 + 2) = 3 then _ else _) = _
  rw [h0, h2]
  rfl

/-- C7 (as stated, refuted): in `blobWpa2Short` (L = 2) the byte `blob[1+L]` is
0, yet the frame sent is the WPA2 variant (security type word 3, 44-byte fixed
part, passphrase "password"): the selector is `blob[L+2] = 3`. -/
theorem variant_not_selected_by_byte_L1 :
    blobWpa2Short.length = 67 ∧ byteAt blobWpa2Short 0 = 2 ∧
    byteAt blobWpa2Short (1 + 2) = 0 ∧
    (wlan_smart_config_process (demoEnv (List.replicate 16 1) blobWpa2Short)
        (idleWorld [⟨.HCI_CMND_WLAN_IOCTL_ADD_PROFILE, 0⟩])).world.trace =
      [Action.aes_read_key, Action.nvmem_read 13 67 0, Action.aes_decrypt 5,
        Action.hci_command_send .HCI_CMND_WLAN_IOCTL_ADD_PROFILE
          (le32 3 ++ le32 0x28 ++ le32 2 ++ [0, 0] ++ [0, 0, 0, 0, 0, 0] ++ le32 1 ++
            le32 0x18 ++ le32 0x1e ++ le32 2 ++ le32 10 ++ le32 8 ++ [65, 66] ++
            [112, 97, 115, 115, 119, 111, 114, 100]) 54,
        Action.SimpleLinkWaitEvent .HCI_CMND_WLAN_IOCTL_ADD_PROFILE] := by
  decide

/-- C7 (amended): with `L = blob[0] ≤ 32` and both fetches successful, the
add-profile variant is selected by the byte `blob[L+2]`: 0 gives the unsecured
call, 1 the WEP call, 2 or 3 the WPA2 call, and any other value no call (the
function returns 0). -/
theorem variant_selected_by_byte_L2 (env : Env) (w : World)
    (hk : env.aes_read_key.1 = 0) (hb : env.nvmem_read.1 = 0)
    (hL : byteAt (fetchedBlob env) 0 ≤ 32) :
    (byteAt (fetchedBlob env) (byteAt (fetchedBlob env) 0 + 2) = 0 →
      wlan_smart_config_process env w =
        wlan_add_profile WLAN_SEC_UNSEC (some (Ptr.mk (decryptedBlob env) 1))
          (byteAt (fetchedBlob env) 0) none 1 0 0 0 none 0 (decryptedWorld env w)) ∧
    (byteAt (fetchedBlob env) (byteAt (fetchedBlob env) 0 + 2) = 1 →
      wlan_smart_config_process env w =
        wlan_add_profile WLAN_SEC_WEP (some (Ptr.mk (decryptedBlob env) 1))
          (byteAt (fetchedBlob env) 0) none 1 (parsedKey env).1 0 0
          (some (Ptr.mk (decryptedBlob env) (parsedKey env).2)) 0 (decryptedWorld env w)) ∧
    (byteAt (fetchedBlob env) (byteAt (fetchedBlob env) 0 + 2) = 2 ∨
        byteAt (fetchedBlob env) (byteAt (fetchedBlob env) 0 + 2) = 3 →
      wlan_smart_config_process env w =
        wlan_add_profile WLAN_SEC_WPA2 (some (Ptr.mk (decryptedBlob env) 1))
          (byteAt (fetchedBlob env) 0) none 1 0x18 0x1e 2
          (some (Ptr.mk (decryptedBlob env) (parsedKey env).2)) (parsedKey env).1
          (decryptedWorld env w)) ∧
    (3 < byteAt (fetchedBlob env) (byteAt (fetchedBlob env) 0 + 2) →
      wlan_smart_config_process env w = .done 0 (decryptedWorld env w)) := by
  have hs := wlan_smart_config_process_switch env w hk hb hL
  refine ⟨?_, ?_, ?_, ?_⟩
  · intro h
    rw [hs, if_pos h]; rfl
  · intro h
    rw [hs, if_neg (by omega), if_pos h]; rfl
  · intro h
    rw [hs, if_neg (by omega), if_neg (by omega), if_pos h]; rfl
  · intro h
    rw [hs, if_neg (by omega), if_neg (by omega), if_neg (by omega)]

theorem variant_selected_by_byte_L2_witness :
    wlan_smart_config_process (demoEnv (List.replicate 16 1) blobWpa2Short) (idleWorld []) =
      wlan_add_profile WLAN_SEC_WPA2
        (some (Ptr.mk (decryptedBlob (demoEnv (List.replicate 16 1) blobWpa2Short)) 1))
        (byteAt (fetchedBlob (demoEnv (List.replicate 16 1) blobWpa2Short)) 0) none 1 0x18 0x1e 2
        (some (Ptr.mk (decryptedBlob (demoEnv (List.replicate 16 1) blobWpa2Short))
          (parsedKey (demoEnv (List.replicate 16 1) blobWpa2Short)).2))
        (parsedKey (demoEnv (List.replicate 16 1) blobWpa2Short)).1
        (decryptedWorld (demoEnv (List.replicate 16 1) blobWpa2Short) (idleWorld [])) :=
  (variant_selected_by_byte_L2 (demoEnv (List.replicate 16 1) blobWpa2Short) (idleWorld [])
    rfl rfl (by decide)).2.2.1 (by decide)

/-! ## C8: the WEP profile -/

/-- C8 (as stated, refuted): for the WEP blob `blobWep` the add-profile frame
carries priority 1, not 0 (bytes 20..23 of the arguments); the key-index word is
0 and the key-length word is the parsed length 5. -/
theorem wep_profile_priority_is_not_zero :
    blobWep.length = 67 ∧ byteAt blobWep 0 = 2 ∧ byteAt blobWep (2 + 2) = WLAN_SEC_WEP ∧
    (wlan_smart_config_process (demoEnv (List.replicate 16 1) blobWep)
        (idleWorld [⟨.HCI_CMND_WLAN_IOCTL_ADD_PROFILE, 0⟩])).world.trace =
      [Action.aes_read_key, Action.nvmem_read 13 67 0, Action.aes_decrypt 5,
        Action.aes_decrypt 21,
        Action.hci_command_send .HCI_CMND_WLAN_IOCTL_ADD_PROFILE
          (le32 1 ++ le32 0x20 ++ le32 2 ++ [0, 0] ++ [0, 0, 0, 0, 0, 0] ++ le32 1 ++
            le32 14 ++ le32 5 ++ le32 0 ++ [65, 66] ++
            [104, 101, 108, 108, 111] ++ List.replicate 15 0) 58,
        Action.SimpleLinkWaitEvent .HCI_CMND_WLAN_IOCTL_ADD_PROFILE] ∧
    le32 1 ≠ le32 0 := by
  decide

/-- C8 (amended): for every blob with `L ≤ 32` whose security type byte
`blob[L+2]` is WEP (both fetches successful) the add-profile call carries
priority 1 and key index 0, with the WEP key length equal to the disambiguated
key length; when the four key blocks lie inside the array, the frame has the
priority word 1, the key-length word and the key-index word 0 at argument
offsets 20, 28 and 32, and the declared length 36 + L + 4 * keyLen. -/
theorem wep_profile_priority_one_key_index_zero (env : Env) (w : World)
    (hk : env.aes_read_key.1 = 0) (hb : env.nvmem_read.1 = 0)
    (hL : byteAt (fetchedBlob env) 0 ≤ 32)
    (hsec : byteAt (fetchedBlob env) (byteAt (fetchedBlob env) 0 + 2) = WLAN_SEC_WEP) :
    wlan_smart_config_process env w =
        wlan_add_profile WLAN_SEC_WEP (some (Ptr.mk (decryptedBlob env) 1))
          (byteAt (fetchedBlob env) 0) none 1 (parsedKey env).1 0 0
          (some (Ptr.mk (decryptedBlob env) (parsedKey env).2)) 0 (decryptedWorld env w) ∧
    ((parsedKey env).2 + 4 * (parsedKey env).1 ≤ 67 →
      wlan_add_profile_args WLAN_SEC_WEP (some (Ptr.mk (decryptedBlob env) 1))
          (byteAt (fetchedBlob env) 0) none 1 (parsedKey env).1 0 0
          (some (Ptr.mk (decryptedBlob env) (parsedKey env).2)) 0 =
        .ok (le32 1 ++ le32 0x20 ++ le32 (byteAt (fetchedBlob env) 0) ++ [0, 0] ++
              [0, 0, 0, 0, 0, 0] ++ le32 1 ++ le32 (0x0C + byteAt (fetchedBlob env) 0) ++
              le32 (parsedKey env).1 ++ le32 0 ++
              bytesAt (some (Ptr.mk (decryptedBlob env) 1)) (byteAt (fetchedBlob env) 0) ++
              bytesAt (some (Ptr.mk (decryptedBlob env) (parsedKey env).2)) (parsedKey env).1 ++
              bytesAt (some (Ptr.mk (decryptedBlob env) ((parsedKey env).2 + (parsedKey env).1)))
                (parsedKey env).1 ++
              bytesAt (some (Ptr.mk (decryptedBlob env)
                ((parsedKey env).2 + 2 * (parsedKey env).1))) (parsedKey env).1 ++
              bytesAt (some (Ptr.mk (decryptedBlob env)
                ((parsedKey env).2 + 3 * (parsedKey env).1))) (parsedKey env).1,
            36 + byteAt (fetchedBlob env) 0 + 4 * (parsedKey env).1)) := by
  have hs := wlan_smart_config_process_switch env w hk hb hL
  have hsec1 : byteAt (fetchedBlob env) (byteAt (fetchedBlob env) 0 + 2) = 1 := hsec
  refine ⟨?_, ?_⟩
  · rw [hs, if_neg (by omega), if_pos hsec1]; rfl
  · intro hfit
    have hdl := length_decryptedBlob env hL
    have hargs := wlan_add_profile_args_wep (some (Ptr.mk (decryptedBlob env) 1))
      (byteAt (fetchedBlob env) 0) none 1 (parsedKey env).1 0 0
      (some (Ptr.mk (decryptedBlob env) (parsedKey env).2)) 0
      (by intro b h; cases h)
      (readable_some _ _ (by show 1 + _ ≤ (decryptedBlob env).length; omega))
      (by omega)
      (readable_some _ _ (by show (parsedKey env).2 + _ ≤ (decryptedBlob env).length; omega))
    have e1 : u32 (0x0C + byteAt (fetchedBlob env) 0) = 0x0C + byteAt (fetchedBlob env) 0 :=
      u32_small _ (by omega)
    have e2 : u16 (u32 (36 + byteAt (fetchedBlob env) 0 + (parsedKey env).1 * 4)) =
        36 + byteAt (fetchedBlob env) 0 + 4 * (parsedKey env).1 := by
      rw [u32_small _ (by omega), u16_small _ (by omega)]; omega
    rw [e1, e2] at hargs
    exact hargs

theorem wep_profile_priority_one_key_index_zero_witness :
    wlan_smart_config_process (demoEnv (List.replicate 16 1) blobWep) (idleWorld []) =
        wlan_add_profile WLAN_SEC_WEP
          (some (Ptr.mk (decryptedBlob (demoEnv (List.replicate 16 1) blobWep)) 1))
          (byteAt (fetchedBlob (demoEnv (List.replicate 16 1) blobWep)) 0) none 1
          (parsedKey (demoEnv (List.replicate 16 1) blobWep)).1 0 0
          (some (Ptr.mk (decryptedBlob (demoEnv (List.replicate 16 1) blobWep))
            (parsedKey (demoEnv (List.replicate 16 1) blobWep)).2)) 0
          (decryptedWorld (demoEnv (List.replicate 16 1) blobWep) (idleWorld [])) :=
  (wep_profile_priority_one_key_index_zero (demoEnv (List.replicate 16 1) blobWep)
    (idleWorld []) rfl rfl (by decide) (by decide)).1

/-! ## C5: WPA and WPA2 blobs -/

theorem byteAt_set_ne (l : List Nat) (i j v : Nat) (h : i ≠ j) :
    byteAt (l.set i v) j = byteAt l j := by
  simp [byteAt, List.getElem?_set_ne h]

theorem byteAt_set_self (l : List Nat) (i v : Nat) (h : i < l.length) :
    byteAt (l.set i v) i = v := by
  simp [byteAt, List.getElem?_set_self h]

theorem decryptAt_set (c : List Nat → List Nat → List Nat) (key arr : List Nat)
    (off i v : Nat) (hi : i < off) (h : off + 16 ≤ arr.length) :
    decryptAt c key (arr.set i v) off = (decryptAt c key arr off).set i v := by
  unfold decryptAt
  rw [List.drop_set_of_lt _ _ hi, List.drop_set_of_lt _ _ (by omega : i < off + 16),
    List.set_take, List.append_assoc, List.append_assoc,
    List.set_append_left _ _ (by simp; omega)]

theorem keyRegion_set (arr : List Nat) (o i v : Nat) (hi : i < o) :
    keyRegion (arr.set i v) o = keyRegion arr o := by
  unfold keyRegion
  rw [List.drop_set_of_lt _ _ hi]

theorem ARRAY_TO_STREAM_set (p arr : List Nat) (o n i v : Nat) (h : i < o ∨ o + n ≤ i) :
    ARRAY_TO_STREAM p (some (Ptr.mk (arr.set i v) o)) n =
      ARRAY_TO_STREAM p (some (Ptr.mk arr o)) n := by
  have hb : List.take n (List.drop o (arr.set i v)) = List.take n (List.drop o arr) := by
    rcases h with h | h
    · rw [List.drop_set_of_lt _ _ h]
    · rw [List.drop_set, if_neg (by omega), List.set_take,
        List.set_eq_of_length_le (by simp; omega)]
  simp only [ARRAY_TO_STREAM, List.length_set, hb]

theorem wlan_add_profile_args_wpa2_set (arr : List Nat) (L kp kl i v c g k : Nat)
    (h1 : 1 + L ≤ i) (h2 : i < kp) :
    wlan_add_profile_args 3 (some (Ptr.mk (arr.set i v) 1)) L none 1 c g k
        (some (Ptr.mk (arr.set i v) kp)) kl =
      wlan_add_profile_args 3 (some (Ptr.mk arr 1)) L none 1 c g k
        (some (Ptr.mk arr kp)) kl := by
  have e1 : ∀ p, ARRAY_TO_STREAM p (some (Ptr.mk (arr.set i v) 1)) L =
      ARRAY_TO_STREAM p (some (Ptr.mk arr 1)) L :=
    fun p => ARRAY_TO_STREAM_set p arr 1 L i v (Or.inr h1)
  have e2 : ∀ p, ARRAY_TO_STREAM p (some (Ptr.mk (arr.set i v) kp)) kl =
      ARRAY_TO_STREAM p (some (Ptr.mk arr kp)) kl :=
    fun p => ARRAY_TO_STREAM_set p arr kp kl i v (Or.inl h2)
  simp [wlan_add_profile_args, e1, e2, WLAN_SEC_UNSEC, WLAN_SEC_WEP, WLAN_SEC_WPA,
    WLAN_SEC_WPA2]

theorem fetchedBlob_withSecurityType (env : Env) (s : Nat) :
    fetchedBlob (withSecurityType env s) =
      (fetchedBlob env).set (byteAt (fetchedBlob env) 0 + 2) s := by
  show fixLen 67 ((fetchedBlob env).set (byteAt (fetchedBlob env) 0 + 2) s) = _
  exact fixLen_of_length _ _ (by rw [List.length_set]; exact length_fetchedBlob env)

theorem decryptedProfile_set (env : Env) (key arr : List Nat) (s : Nat)
    (hlen : arr.length = 67) (hL : byteAt arr 0 ≤ 32) :
    decryptedProfile env key (arr.set (byteAt arr 0 + 2) s) =
      (decryptedProfile env key arr).set (byteAt arr 0 + 2) s := by
  have h0 : byteAt (arr.set (byteAt arr 0 + 2) s) 0 = byteAt arr 0 :=
    byteAt_set_ne _ _ _ _ (by omega)
  have h1 : byteAt (arr.set (byteAt arr 0 + 2) s) (byteAt arr 0 + 1) =
      byteAt arr (byteAt arr 0 + 1) := byteAt_set_ne _ _ _ _ (by omega)
  unfold decryptedProfile
  rw [h0, h1]
  split_ifs
  · rw [decryptAt_set _ _ _ _ _ _ (by omega) (by omega),
      decryptAt_set _ _ _ _ _ _ (by omega) (by rw [length_decryptAt _ _ _ _ (by omega)]; omega)]
  · rw [decryptAt_set _ _ _ _ _ _ (by omega) (by omega)]

theorem decryptCalls_set (arr : List Nat) (s : Nat) :
    decryptCalls (arr.set (byteAt arr 0 + 2) s) = decryptCalls arr := by
  have h0 : byteAt (arr.set (byteAt arr 0 + 2) s) 0 = byteAt arr 0 :=
    byteAt_set_ne _ _ _ _ (by omega)
  have h1 : byteAt (arr.set (byteAt arr 0 + 2) s) (byteAt arr 0 + 1) =
      byteAt arr (byteAt arr 0 + 1) := byteAt_set_ne _ _ _ _ (by omega)
  unfold decryptCalls
  rw [h0, h1]

/-- The trace of a run on a blob whose security type byte was set to WPA or
WPA2 does not depend on which of the two was set. -/
theorem trace_withSecurityType (env : Env) (w : World) (s : Nat)
    (hk : env.aes_read_key.1 = 0) (hb : env.nvmem_read.1 = 0)
    (hL : byteAt (fetchedBlob env) 0 ≤ 32) (hs : s = 2 ∨ s = 3) :
    (wlan_smart_config_process (withSecurityType env s) w).world.trace =
      (decryptedWorld env w).trace ++
        addProfileTrace
          (wlan_add_profile_args 3 (some (Ptr.mk (decryptedBlob env) 1))
            (byteAt (fetchedBlob env) 0) none 1 0x18 0x1e 2
            (some (Ptr.mk (decryptedBlob env) (parsedKey env).2)) (parsedKey env).1) w.rx := by
  have hB := fetchedBlob_withSecurityType env s
  have hlen := length_fetchedBlob env
  have h0 : byteAt (fetchedBlob (withSecurityType env s)) 0 = byteAt (fetchedBlob env) 0 := by
    rw [hB]; exact byteAt_set_ne _ _ _ _ (by omega)
  have hD : decryptedBlob (withSecurityType env s) =
      (decryptedBlob env).set (byteAt (fetchedBlob env) 0 + 2) s := by
    show decryptedProfile (withSecurityType env s) (fetchedKey env)
      (fetchedBlob (withSecurityType env s)) = _
    rw [hB]
    exact decryptedProfile_set env (fetchedKey env) (fetchedBlob env) s hlen hL
  have hP : parsedKey (withSecurityType env s) = parsedKey env := by
    unfold parsedKey
    rw [hD, h0, keyRegion_set _ _ _ _ (by omega)]
  have hsec : byteAt (fetchedBlob (withSecurityType env s))
      (byteAt (fetchedBlob (withSecurityType env s)) 0 + 2) = s := by
    rw [h0, hB]; exact byteAt_set_self _ _ _ (by omega)
  have hsw := wlan_smart_config_process_switch (withSecurityType env s) w hk hb
    (by rw [h0]; exact hL)
  rw [hsec, if_neg (by omega), if_neg (by omega), if_pos hs] at hsw
  have hkp : byteAt (fetchedBlob env) 0 + 3 ≤ (parsedKey env).2 := by
    unfold parsedKey; omega
  rw [hsw, (wlan_add_profile_world _ _ _ _ _ _ _ _ _ _ _).1, h0, hD, hP,
    wlan_add_profile_args_wpa2_set _ _ _ _ _ _ _ _ _ (by omega) (by omega)]
  have htr : (decryptedWorld (withSecurityType env s) w).trace = (decryptedWorld env w).trace := by
    show w.trace ++ _ ++ decryptCalls (fetchedBlob (withSecurityType env s)) =
      w.trace ++ _ ++ decryptCalls (fetchedBlob env)
    rw [hB, decryptCalls_set]
  rw [htr]
  rfl

/-- C5: for every blob with `L ≤ 32` whose security type byte `blob[L+2]` is
WPA (2) or WPA2 (3), with both fetches successful, the add-profile call is the
same: security type WPA2, pairwise cipher 0x18, group cipher 0x1e, key
management 2, priority 1, null BSSID, and the disambiguated key pointer and key
length as passphrase; when the passphrase lies inside the array the frame is the
44-byte WPA fixed part with these words, the SSID and the passphrase.  Two blobs
that differ only in that byte, 2 in one and 3 in the other, make the driver
perform the same calls with byte-identical frames. -/
theorem wpa_and_wpa2_give_the_same_wpa2_profile (env : Env) (w : World)
    (hk : env.aes_read_key.1 = 0) (hb : env.nvmem_read.1 = 0)
    (hL : byteAt (fetchedBlob env) 0 ≤ 32) :
    (byteAt (fetchedBlob env) (byteAt (fetchedBlob env) 0 + 2) = WLAN_SEC_WPA ∨
        byteAt (fetchedBlob env) (byteAt (fetchedBlob env) 0 + 2) = WLAN_SEC_WPA2 →
      wlan_smart_config_process env w =
        wlan_add_profile WLAN_SEC_WPA2 (some (Ptr.mk (decryptedBlob env) 1))
          (byteAt (fetchedBlob env) 0) none 1 0x18 0x1e 2
          (some (Ptr.mk (decryptedBlob env) (parsedKey env).2)) (parsedKey env).1
          (decryptedWorld env w)) ∧
    ((parsedKey env).2 + (parsedKey env).1 ≤ 67 →
      wlan_add_profile_args WLAN_SEC_WPA2 (some (Ptr.mk (decryptedBlob env) 1))
          (byteAt (fetchedBlob env) 0) none 1 0x18 0x1e 2
          (some (Ptr.mk (decryptedBlob env) (parsedKey env).2)) (parsedKey env).1 =
        .ok (le32 3 ++ le32 0x28 ++ le32 (byteAt (fetchedBlob env) 0) ++ [0, 0] ++
              [0, 0, 0, 0, 0, 0] ++ le32 1 ++ le32 0x18 ++ le32 0x1e ++ le32 2 ++
              le32 (0x08 + byteAt (fetchedBlob env) 0) ++ le32 (parsedKey env).1 ++
              bytesAt (some (Ptr.mk (decryptedBlob env) 1)) (byteAt (fetchedBlob env) 0) ++
              bytesAt (some (Ptr.mk (decryptedBlob env) (parsedKey env).2)) (parsedKey env).1,
            44 + byteAt (fetchedBlob env) 0 + (parsedKey env).1)) ∧
    (wlan_smart_config_process (withSecurityType env WLAN_SEC_WPA) w).world.trace =
      (wlan_smart_config_process (withSecurityType env WLAN_SEC_WPA2) w).world.trace := by
  refine ⟨?_, ?_, ?_⟩
  · intro hsec
    have hs := wlan_smart_config_process_switch env w hk hb hL
    have hsec2 : byteAt (fetchedBlob env) (byteAt (fetchedBlob env) 0 + 2) = 2 ∨
        byteAt (fetchedBlob env) (byteAt (fetchedBlob env) 0 + 2) = 3 := hsec
    rw [hs, if_neg (by omega), if_neg (by omega), if_pos hsec2]; rfl
  · intro hfit
    have hdl := length_decryptedBlob env hL
    have hargs := wlan_add_profile_args_wpa 3 (Or.inr rfl) (some (Ptr.mk (decryptedBlob env) 1))
      (byteAt (fetchedBlob env) 0) none 1 0x18 0x1e 2
      (some (Ptr.mk (decryptedBlob env) (parsedKey env).2)) (parsedKey env).1
      (by intro b h; cases h)
      (readable_some _ _ (by show 1 + _ ≤ (decryptedBlob env).length; omega))
      (readable_some _ _ (by show (parsedKey env).2 + _ ≤ (decryptedBlob env).length; omega))
    have e1 : u32 (0x08 + byteAt (fetchedBlob env) 0) = 0x08 + byteAt (fetchedBlob env) 0 :=
      u32_small _ (by omega)
    have e2 : u16 (u32 (44 + byteAt (fetchedBlob env) 0 + (parsedKey env).1)) =
        44 + byteAt (fetchedBlob env) 0 + (parsedKey env).1 := by
      rw [u32_small _ (by omega), u16_small _ (by omega)]
    rw [e1, e2] at hargs
    exact hargs
  · rw [trace_withSecurityType env w WLAN_SEC_WPA hk hb hL (Or.inl rfl),
      trace_withSecurityType env w WLAN_SEC_WPA2 hk hb hL (Or.inr rfl)]

theorem wpa_and_wpa2_give_the_same_wpa2_profile_witness :
    wlan_smart_config_process (demoEnv (List.replicate 16 1) blobWpa2) (idleWorld []) =
      wlan_add_profile WLAN_SEC_WPA2
        (some (Ptr.mk (decryptedBlob (demoEnv (List.replicate 16 1) blobWpa2)) 1))
        (byteAt (fetchedBlob (demoEnv (List.replicate 16 1) blobWpa2)) 0) none 1 0x18 0x1e 2
        (some (Ptr.mk (decryptedBlob (demoEnv (List.replicate 16 1) blobWpa2))
          (parsedKey (demoEnv (List.replicate 16 1) blobWpa2)).2))
        (parsedKey (demoEnv (List.replicate 16 1) blobWpa2)).1
        (decryptedWorld (demoEnv (List.replicate 16 1) blobWpa2) (idleWorld [])) :=
  (wpa_and_wpa2_give_the_same_wpa2_profile (demoEnv (List.replicate 16 1) blobWpa2)
    (idleWorld []) rfl rfl (by decide)).1 (by decide)

/-! ## C11: every command is followed by its wait -/

theorem pairedFrom_append (a b : List Action) :
    ∀ s, pairedFrom s a = true → pairedFrom none b = true → pairedFrom s (a ++ b) = true := by
  induction a with
  | nil =>
    intro s ha hb
    cases s with
    | none => simpa using hb
    | some op => simp [pairedFrom] at ha
  | cons x a ih =>
    intro s ha hb
    cases s with
    | none =>
      cases x <;> simp only [pairedFrom, List.cons_append] at ha ⊢ <;>
        first | exact ih _ ha hb | exact absurd ha (by simp)
    | some op =>
      cases x <;> simp only [pairedFrom, List.cons_append, Bool.and_eq_true] at ha ⊢ <;>
        first | exact ⟨ha.1, ih _ ha.2 hb⟩ | exact absurd ha (by simp)

theorem sendsArePaired_append (a b : List Action) (ha : sendsArePaired a = true)
    (hb : sendsArePaired b = true) : sendsArePaired (a ++ b) = true :=
  pairedFrom_append a b none ha hb

theorem sendsArePaired_unsolicited (evs : List HciEvent) :
    sendsArePaired (evs.map Action.unsolicited) = true := by
  induction evs with
  | nil => rfl
  | cons e evs ih => simpa [sendsArePaired, pairedFrom] using ih

theorem sendsArePaired_command (op : Opcode) (args : List Nat) (len : Nat)
    (evs : List HciEvent) :
    sendsArePaired (Action.hci_command_send op args len :: Action.SimpleLinkWaitEvent op ::
      evs.map Action.unsolicited) = true := by
  have := sendsArePaired_unsolicited evs
  simpa [sendsArePaired, pairedFrom] using this

theorem command_trace (op : Opcode) (args : List Nat) (len : Nat) (w : World) :
    (SimpleLinkWaitEvent op (hci_command_send op args len w)).world.trace =
      w.trace ++ Action.hci_command_send op args len :: Action.SimpleLinkWaitEvent op ::
        (unsolicitedBefore op w.rx).map Action.unsolicited := by
  rw [(SimpleLinkWaitEvent_world op _).1]
  simp [hci_command_send]

theorem PairedRun.command (op : Opcode) (args : List Nat) (len : Nat) (w : World) :
    PairedRun w (SimpleLinkWaitEvent op (hci_command_send op args len w)) :=
  ⟨_, command_trace op args len w, sendsArePaired_command _ _ _ _⟩

theorem PairedRun.of_trace {α : Type} (w : World) (o : Outcome α)
    (h : o.world.trace = w.trace) : PairedRun w o :=
  ⟨[], by simpa using h, rfl⟩

theorem PairedRun.bind {α β : Type} (w : World) (o : Outcome α) (f : α → World → Outcome β)
    (ho : PairedRun w o) (hf : ∀ a v, PairedRun v (f a v)) : PairedRun w (o.bind f) := by
  obtain ⟨c1, h1, p1⟩ := ho
  cases o with
  | done a v =>
    obtain ⟨c2, h2, p2⟩ := hf a v
    refine ⟨c1 ++ c2, ?_, sendsArePaired_append _ _ p1 p2⟩
    simp only [Outcome.bind, h2]
    simp only [Outcome.world] at h1
    rw [h1, List.append_assoc]
  | blocked v => exact ⟨c1, h1, p1⟩
  | fault e v => exact ⟨c1, h1, p1⟩

theorem PairedRun.after {α : Type} (w v : World) (o : Outcome α) (pre : List Action)
    (hv : v.trace = w.trace ++ pre) (hp : sendsArePaired pre = true) (ho : PairedRun v o) :
    PairedRun w o := by
  obtain ⟨c, h, p⟩ := ho
  exact ⟨pre ++ c, by rw [h, hv, List.append_assoc], sendsArePaired_append _ _ hp p⟩

theorem pairedRun_SimpleLink_Init_Start (p : Nat) (w : World) :
    PairedRun w (SimpleLink_Init_Start p w) :=
  PairedRun.bind w _ _ (PairedRun.command _ _ _ w) (fun _ v => PairedRun.of_trace v _ rfl)

theorem pairedRun_wlan_start (p : Nat) (pins : List Nat) (w : World) :
    PairedRun w (wlan_start p pins w) := by
  unfold wlan_start
  cases pins with
  | nil => exact ⟨[Action.SpiOpen], rfl, rfl⟩
  | cons s pins =>
    simp only []
    split
    · refine ⟨[Action.SpiOpen, Action.WriteWlanPin true], ?_, rfl⟩
      show (w.trace ++ [Action.SpiOpen]) ++ [Action.WriteWlanPin true] = _
      rw [List.append_assoc]; rfl
    · refine PairedRun.after w
        { w with
          tSLInformation :=
            { w.tSLInformation with
              usRxEventOpcode := none
              usEventOrDataReceived := 0
              pucReceivedData := none }
          trace := w.trace ++ [Action.SpiOpen] ++ [Action.WriteWlanPin true] }
        _ [Action.SpiOpen, Action.WriteWlanPin true]
        (by simp only [List.append_assoc, List.singleton_append]) rfl ?_
      refine PairedRun.bind _ _ _ (pairedRun_SimpleLink_Init_Start _ _) ?_
      intro _ v
      exact PairedRun.bind v _ _ (PairedRun.command _ _ _ v)
        (fun _ u => PairedRun.of_trace u _ rfl)

theorem pairedRun_wlan_add_profile (sec : Nat) (ucSsid : Option Ptr) (n : Nat)
    (ucBssid : Option Ptr) (prio c g k : Nat) (key : Option Ptr) (pl : Nat) (w : World) :
    PairedRun w (wlan_add_profile sec ucSsid n ucBssid prio c g k key pl w) := by
  unfold wlan_add_profile
  split
  · exact PairedRun.of_trace w _ rfl
  · exact PairedRun.command _ _ _ w

/-- C11: in every command function of wlan.c, on every path, each
`hci_command_send` is immediately followed by exactly one `SimpleLinkWaitEvent`
on the opcode that was sent, and nothing happens between the two: the calls each
function adds to the trace satisfy `sendsArePaired`, whatever its arguments, the
frames the device delivers and the way the call ends. -/
theorem every_command_is_followed_by_its_wait (w : World) :
    (∀ p, PairedRun w (SimpleLink_Init_Start p w)) ∧
    (∀ p pins, PairedRun w (wlan_start p pins w)) ∧
    (∀ sec ssid n bssid key kl, PairedRun w (wlan_connect sec ssid n bssid key kl w)) ∧
    PairedRun w (wlan_disconnect w) ∧
    (∀ a b c, PairedRun w (wlan_ioctl_set_connection_policy a b c w)) ∧
    (∀ sec ssid n bssid prio c g k key pl,
      PairedRun w (wlan_add_profile sec ssid n bssid prio c g k key pl w)) ∧
    (∀ i, PairedRun w (wlan_ioctl_del_profile i w)) ∧
    (∀ t, PairedRun w (wlan_ioctl_get_scan_results t w)) ∧
    (∀ e mn mx pr ch rssi snr tx il,
      PairedRun w (wlan_ioctl_set_scan_params e mn mx pr ch rssi snr tx il w)) ∧
    (∀ txc base m, PairedRun w (wlan_set_event_mask txc base m w)) ∧
    PairedRun w (wlan_ioctl_statusget w) ∧
    (∀ f, PairedRun w (wlan_smart_config_start f w)) ∧
    PairedRun w (wlan_smart_config_stop w) ∧
    (∀ p, PairedRun w ( wlan_smart_config_set_prefix p w).1) := by
  refine ⟨fun p => pairedRun_SimpleLink_Init_Start p w,
    fun p pins => pairedRun_wlan_start p pins w, ?_, ?_,
    fun a b c => PairedRun.command _ _ _ w,
    fun sec ssid n bssid prio c g k key pl =>
      pairedRun_wlan_add_profile sec ssid n bssid prio c g k key pl w,
    fun i => PairedRun.command _ _ _ w, ?_, ?_, ?_,
    PairedRun.command _ _ _ w, fun f => PairedRun.command _ _ _ w,
    PairedRun.command _ _ _ w, ?_⟩
  · intro sec ssid n bssid key kl
    unfold wlan_connect
    split
    · exact PairedRun.of_trace w _ rfl
    · exact PairedRun.bind w _ _ (PairedRun.command _ _ _ w)
        (fun _ v => PairedRun.of_trace v _ rfl)
  · exact PairedRun.bind w _ _ (PairedRun.command _ _ _ w)
      (fun _ v => PairedRun.of_trace v _ rfl)
  · intro t
    exact PairedRun.bind w _ _ (PairedRun.command _ _ _ w)
      (fun _ v => PairedRun.of_trace v _ rfl)
  · intro e mn mx pr ch rssi snr tx il
    unfold wlan_ioctl_set_scan_params
    split
    · exact PairedRun.of_trace w _ rfl
    · exact PairedRun.command _ _ _ w
  · intro txc base m
    unfold wlan_set_event_mask
    simp only []
    split_ifs
    · exact PairedRun.of_trace w _ rfl
    · exact PairedRun.after w
        { w with tSLInformation := { w.tSLInformation with InformHostOnTxComplete := 0 } }
        _ [] (by simp) rfl (PairedRun.command _ _ _ _)
    · exact PairedRun.after w
        { w with tSLInformation := { w.tSLInformation with InformHostOnTxComplete := 1 } }
        _ [] (by simp) rfl (PairedRun.command _ _ _ _)
  · intro p
    unfold wlan_smart_config_set_prefix
    split
    · exact PairedRun.of_trace w _ rfl
    · split
      · exact PairedRun.of_trace w _ rfl
      · split
        · exact PairedRun.of_trace w _ rfl
        · exact PairedRun.command _ _ _ w

/-! ## C18: the smart-config prefix -/

theorem storeTTT_ok (p : Ptr) (h : p.off + 3 ≤ p.obj.length) :
    storeTTT p = (withTTT p, none) := by
  have e0 : p.store 0 84 = .ok { p with obj := p.obj.set (p.off + 0) 84 } := by
    unfold Ptr.store
    rw [if_pos (by omega)]
  have e1 : (Ptr.mk (p.obj.set (p.off + 0) 84) p.off).store 1 84 =
      .ok (Ptr.mk ((p.obj.set (p.off + 0) 84).set (p.off + 1) 84) p.off) := by
    unfold Ptr.store
    rw [if_pos (by simp only [List.length_set]; omega)]
  have e2 : (Ptr.mk ((p.obj.set (p.off + 0) 84).set (p.off + 1) 84) p.off).store 2 84 =
      .ok (Ptr.mk (((p.obj.set (p.off + 0) 84).set (p.off + 1) 84).set (p.off + 2) 84)
        p.off) := by
    unfold Ptr.store
    rw [if_pos (by simp only [List.length_set]; omega)]
  unfold storeTTT
  rw [e0]
  simp only []
  rw [e1]
  simp only []
  rw [e2]
  rfl

theorem take_drop_TTT (l : List Nat) (o : Nat) (h : o + 3 ≤ l.length) :
    List.take 3 (List.drop o (((l.set (o + 0) 84).set (o + 1) 84).set (o + 2) 84)) =
      [84, 84, 84] := by
  apply List.ext_getElem?
  intro i
  rw [List.getElem?_take]
  by_cases hi : i < 3
  · rw [if_pos hi, List.getElem?_drop]
    have hcases : i = 0 ∨ i = 1 ∨ i = 2 := by omega
    rcases hcases with rfl | rfl | rfl
    · rw [List.getElem?_set_ne (by omega), List.getElem?_set_ne (by omega),
        List.getElem?_set_self (by omega)]; rfl
    · rw [List.getElem?_set_ne (by omega), List.getElem?_set_self (by simp; omega)]; rfl
    · rw [List.getElem?_set_self (by simp; omega)]; rfl
  · rw [if_neg hi]
    have : ([84, 84, 84] : List Nat).length ≤ i := by simp; omega
    rw [List.getElem?_eq_none this]

/-- C18: for every non-null prefix buffer (of at least three bytes)
`wlan_smart_config_set_prefix` sends the SIMPLE_CONFIG_SET_PREFIX command with
the argument bytes 'T','T','T' and declared length 3, whatever the caller's
bytes are: two calls with different buffers send the same frame and end the
same way; the first three bytes of the caller's buffer are overwritten with
"TTT" and the other bytes are kept. -/
theorem smart_config_frame_is_TTT (p : Ptr) (w : World) (h : p.off + 3 ≤ p.obj.length) :
    ( wlan_smart_config_set_prefix (some p) w) =
        (SimpleLinkWaitEvent .HCI_CMND_WLAN_IOCTL_SIMPLE_CONFIG_SET_PREFIX
            (hci_command_send .HCI_CMND_WLAN_IOCTL_SIMPLE_CONFIG_SET_PREFIX [84, 84, 84] 3 w),
          some (withTTT p)) ∧
    bytesAt (some (withTTT p)) 3 = [84, 84, 84] ∧
    (withTTT p).obj.length = p.obj.length ∧
    (∀ i, i < p.off ∨ p.off + 3 ≤ i → (withTTT p).obj[i]? = p.obj[i]?) ∧
    (∀ q : Ptr, q.off + 3 ≤ q.obj.length →
      ( wlan_smart_config_set_prefix (some q) w).1 =
        ( wlan_smart_config_set_prefix (some p) w).1) := by
  have hbytes : ∀ r : Ptr, r.off + 3 ≤ r.obj.length →
      List.take 3 (List.drop r.off (withTTT r).obj) = [84, 84, 84] :=
    fun r hr => take_drop_TTT r.obj r.off hr
  have hlen : ∀ r : Ptr, (withTTT r).obj.length = r.obj.length := by
    intro r; simp [withTTT]
  have hrun : ∀ r : Ptr, r.off + 3 ≤ r.obj.length →
      ( wlan_smart_config_set_prefix (some r) w) =
        (SimpleLinkWaitEvent .HCI_CMND_WLAN_IOCTL_SIMPLE_CONFIG_SET_PREFIX
            (hci_command_send .HCI_CMND_WLAN_IOCTL_SIMPLE_CONFIG_SET_PREFIX [84, 84, 84] 3 w),
          some (withTTT r)) := by
    intro r hr
    have hoff : (withTTT r).off = r.off := rfl
    have hstream : ARRAY_TO_STREAM [] (some (withTTT r)) 3 = .ok [84, 84, 84] := by
      rw [ARRAY_TO_STREAM_readable _ _ _ (readable_some _ _ (by
        rw [hoff, hlen]; exact hr))]
      simp only [bytesAt, hoff, hbytes r hr, List.nil_append]
    simp only [ wlan_smart_config_set_prefix, storeTTT_ok r hr, hstream,
      SL_SIMPLE_CONFIG_PREFIX_LENGTH]
  refine ⟨hrun p h, ?_, hlen p, ?_, ?_⟩
  · exact hbytes p h
  · intro i hi
    simp only [withTTT]
    rw [List.getElem?_set_ne (by omega), List.getElem?_set_ne (by omega),
      List.getElem?_set_ne (by omega)]
  · intro q hq
    rw [hrun q hq, hrun p h]

theorem smart_config_frame_is_TTT_witness :
    ( wlan_smart_config_set_prefix (some ⟨[65, 66, 67, 68], 0⟩) (idleWorld [])) =
        (SimpleLinkWaitEvent .HCI_CMND_WLAN_IOCTL_SIMPLE_CONFIG_SET_PREFIX
            (hci_command_send .HCI_CMND_WLAN_IOCTL_SIMPLE_CONFIG_SET_PREFIX [84, 84, 84] 3
              (idleWorld [])),
          some (withTTT ⟨[65, 66, 67, 68], 0⟩)) ∧
    (withTTT ⟨[65, 66, 67, 68], 0⟩).obj = [84, 84, 84, 68] :=
  ⟨(smart_config_frame_is_TTT ⟨[65, 66, 67, 68], 0⟩ (idleWorld []) (by decide)).1, by decide⟩

/-! ## C19 and C20: the fixed-layout commands -/

theorem set_TTT_run (r : Ptr) (w : World) (hr : r.off + 3 ≤ r.obj.length) :
    ( wlan_smart_config_set_prefix (some r) w).1 =
      SimpleLinkWaitEvent .HCI_CMND_WLAN_IOCTL_SIMPLE_CONFIG_SET_PREFIX
        (hci_command_send .HCI_CMND_WLAN_IOCTL_SIMPLE_CONFIG_SET_PREFIX [84, 84, 84] 3 w) := by
  have hoff : (withTTT r).off = r.off := rfl
  have hlen : (withTTT r).obj.length = r.obj.length := by simp [withTTT]
  have hstream : ARRAY_TO_STREAM [] (some (withTTT r)) 3 = .ok [84, 84, 84] := by
    have hb : List.take 3 (List.drop r.off (withTTT r).obj) = [84, 84, 84] :=
      take_drop_TTT r.obj r.off hr
    rw [ARRAY_TO_STREAM_readable _ _ _ (readable_some _ _ (by rw [hoff, hlen]; exact hr))]
    simp only [bytesAt, hoff, hb, List.nil_append]
  simp only [ wlan_smart_config_set_prefix, storeTTT_ok r hr, hstream,
    SL_SIMPLE_CONFIG_PREFIX_LENGTH]

/-- C19: each fixed-layout command declares to `hci_command_send` the number of
argument bytes it wrote: 12 for `wlan_ioctl_set_connection_policy` (the words
open-AP, fast-connect, use-profiles, in this order), 4 for
`wlan_ioctl_del_profile`, `wlan_set_event_mask` (when it sends),
`wlan_smart_config_start` and `wlan_ioctl_get_scan_results`, 3 for
`wlan_smart_config_set_prefix`, 1 for `SimpleLink_Init_Start`, and 0 with no
argument byte for `wlan_disconnect`, `wlan_ioctl_statusget`,
`wlan_smart_config_stop` and the read-buffer-size command of `wlan_start`. -/
theorem fixed_layout_declared_lengths (w : World) :
    (∀ v, (le32 v).length = 4) ∧
    (∀ a b c,
      wlan_ioctl_set_connection_policy a b c w =
        SimpleLinkWaitEvent .HCI_CMND_WLAN_IOCTL_SET_CONNECTION_POLICY
          (hci_command_send .HCI_CMND_WLAN_IOCTL_SET_CONNECTION_POLICY
            (le32 a ++ le32 b ++ le32 c) 12 w) ∧
      (le32 a ++ le32 b ++ le32 c).length = 12) ∧
    (∀ i,
      wlan_ioctl_del_profile i w =
        SimpleLinkWaitEvent .HCI_CMND_WLAN_IOCTL_DEL_PROFILE
          (hci_command_send .HCI_CMND_WLAN_IOCTL_DEL_PROFILE (le32 i) 4 w)) ∧
    (∀ txc base m, m ≠ txc →
      ∃ m2 v, v.trace = w.trace ∧
        wlan_set_event_mask txc base m w =
          SimpleLinkWaitEvent .HCI_CMND_EVENT_MASK
            (hci_command_send .HCI_CMND_EVENT_MASK (le32 m2) 4 v)) ∧
    (∀ f,
      wlan_smart_config_start f w =
        SimpleLinkWaitEvent .HCI_CMND_WLAN_IOCTL_SIMPLE_CONFIG_START
          (hci_command_send .HCI_CMND_WLAN_IOCTL_SIMPLE_CONFIG_START (le32 f) 4 w)) ∧
    (∀ t,
      wlan_ioctl_get_scan_results t w =
        (SimpleLinkWaitEvent .HCI_CMND_WLAN_IOCTL_GET_SCAN_RESULTS
          (hci_command_send .HCI_CMND_WLAN_IOCTL_GET_SCAN_RESULTS (le32 t) 4 w)).bind
          fun _ u => .done 0 u) ∧
    (∀ p : Ptr, p.off + 3 ≤ p.obj.length →
      ( wlan_smart_config_set_prefix (some p) w).1 =
        SimpleLinkWaitEvent .HCI_CMND_WLAN_IOCTL_SIMPLE_CONFIG_SET_PREFIX
          (hci_command_send .HCI_CMND_WLAN_IOCTL_SIMPLE_CONFIG_SET_PREFIX [84, 84, 84] 3 w)) ∧
    (∀ p,
      SimpleLink_Init_Start p w =
        (SimpleLinkWaitEvent .HCI_CMND_SIMPLE_LINK_START
          (hci_command_send .HCI_CMND_SIMPLE_LINK_START [if p ≠ 0 then 1 else 0] 1 w)).bind
          fun _ u => .done () u) ∧
    wlan_disconnect w =
      (SimpleLinkWaitEvent .HCI_CMND_WLAN_DISCONNECT
        (hci_command_send .HCI_CMND_WLAN_DISCONNECT [] 0 w)).bind
        (fun ret u => .done ret { u with errno := ret }) ∧
    wlan_ioctl_statusget w =
      SimpleLinkWaitEvent .HCI_CMND_WLAN_IOCTL_STATUSGET
        (hci_command_send .HCI_CMND_WLAN_IOCTL_STATUSGET [] 0 w) ∧
    wlan_smart_config_stop w =
      SimpleLinkWaitEvent .HCI_CMND_WLAN_IOCTL_SIMPLE_CONFIG_STOP
        (hci_command_send .HCI_CMND_WLAN_IOCTL_SIMPLE_CONFIG_STOP [] 0 w) ∧
    (∀ p s pins left, irqHandshake s pins = some left →
      wlan_start p (s :: pins) w =
        (SimpleLink_Init_Start p (startedWorld w)).bind fun _ u =>
          (SimpleLinkWaitEvent .HCI_CMND_READ_BUFFER_SIZE
            (hci_command_send .HCI_CMND_READ_BUFFER_SIZE [] 0 u)).bind
            fun _ u => .done () u) := by
  refine ⟨fun _ => rfl, fun a b c => ⟨rfl, rfl⟩, fun i => rfl, ?_, fun f => rfl, fun t => rfl,
    fun p hp => set_TTT_run p w hp, ?_, rfl, rfl, rfl, ?_⟩
  · intro txc base m hm
    by_cases h : m &&& txc = txc
    · refine ⟨(m &&& u32 (4294967295 - txc)) ||| base,
        { w with tSLInformation := { w.tSLInformation with InformHostOnTxComplete := 0 } },
        rfl, ?_⟩
      simp only [wlan_set_event_mask, h, hm, if_true, if_false]
      rfl
    · refine ⟨m,
        { w with tSLInformation := { w.tSLInformation with InformHostOnTxComplete := 1 } },
        rfl, ?_⟩
      simp only [wlan_set_event_mask, h, if_false]
      rfl
  · intro p
    unfold SimpleLink_Init_Start UINT8_TO_STREAM
    by_cases hp : p = 0
    · subst hp; rfl
    · simp [hp, WLAN_SL_INIT_START_PARAMS_LEN]
  · intro p s pins left hh
    unfold wlan_start
    simp only [hh]
    rfl

theorem fixed_layout_declared_lengths_witness :
    wlan_start 0 [0, 0, 1, 1, 0] (idleWorld []) =
      (SimpleLink_Init_Start 0 (startedWorld (idleWorld []))).bind fun _ u =>
        (SimpleLinkWaitEvent .HCI_CMND_READ_BUFFER_SIZE
          (hci_command_send .HCI_CMND_READ_BUFFER_SIZE [] 0 u)).bind
          fun _ u => .done () u :=
  (fixed_layout_declared_lengths (idleWorld [])).2.2.2.2.2.2.2.2.2.2.2 0 0 [0, 1, 1, 0] []
    (by decide)

/-- C20: called with a mask equal to exactly `HCI_EVNT_WLAN_TX_COMPLETE`,
`wlan_set_event_mask` returns 0, calls neither `hci_command_send` nor
`SimpleLinkWaitEvent` (the trace is unchanged) and sets `InformHostOnTxComplete`
to 0, whatever the value of the event code is. -/
theorem set_event_mask_tx_complete_only (txComplete unsolBase : Nat) (w : World) :
    wlan_set_event_mask txComplete unsolBase txComplete w =
        .done 0
          { w with
            tSLInformation := { w.tSLInformation with InformHostOnTxComplete := 0 } } ∧
    (wlan_set_event_mask txComplete unsolBase txComplete w).world.trace = w.trace ∧
    (wlan_set_event_mask txComplete unsolBase txComplete w).world.tSLInformation.InformHostOnTxComplete
      = 0 ∧
    (wlan_set_event_mask txComplete unsolBase txComplete w).returned = some 0 := by
  have h : wlan_set_event_mask txComplete unsolBase txComplete w =
      .done 0
        { w with
          tSLInformation := { w.tSLInformation with InformHostOnTxComplete := 0 } } := by
    simp [wlan_set_event_mask, Nat.and_self]
  rw [h]
  exact ⟨rfl, rfl, rfl, rfl⟩

/-! ## C12: the connect frame -/

theorem wlan_connect_args_eq (sec : Nat) (ssid : Option Ptr) (n : Nat) (bssid key : Option Ptr)
    (kl : Nat) (hb : ∀ b, bssid = some b → b.off + 6 ≤ b.obj.length)
    (hs : Readable ssid n) (hk : key.isSome → Readable key kl) :
    wlan_connect_args sec ssid n bssid key kl =
      .ok (le32 0x1c ++ le32 n ++ le32 sec ++ le32 (0x10 + n) ++ le32 kl ++ [0, 0] ++
            bssidBytes bssid ++ bytesAt ssid n ++ bytesAt key kl,
          WLAN_CONNECT_PARAM_LEN + n + kl - 1) := by
  cases key with
  | none =>
    simp [wlan_connect_args, UINT32_TO_STREAM, UINT16_TO_STREAM, bssidToStream_ok _ _ hb,
      ARRAY_TO_STREAM_readable _ _ _ hs, le32, bind, Except.bind, pure, Except.pure, bytesAt]
  | some q =>
    have hkr := hk rfl
    by_cases h0 : kl = 0
    · subst h0
      simp [wlan_connect_args, UINT32_TO_STREAM, UINT16_TO_STREAM, bssidToStream_ok _ _ hb,
        ARRAY_TO_STREAM_readable _ _ _ hs, le32, bind, Except.bind, pure, Except.pure, bytesAt]
    · simp [wlan_connect_args, UINT32_TO_STREAM, UINT16_TO_STREAM, bssidToStream_ok _ _ hb,
        ARRAY_TO_STREAM_readable _ _ _ hs, ARRAY_TO_STREAM_readable _ _ _ hkr, le32, bind,
        Except.bind, pure, Except.pure, h0]

theorem wlan_connect_eq (sec : Nat) (ssid : Option Ptr) (n : Nat) (bssid key : Option Ptr)
    (kl : Nat) (w : World) (args : List Nat) (len : Nat)
    (h : wlan_connect_args sec ssid n bssid key kl = .ok (args, len)) :
    wlan_connect sec ssid n bssid key kl w =
      (SimpleLinkWaitEvent .HCI_CMND_WLAN_CONNECT
        (hci_command_send .HCI_CMND_WLAN_CONNECT args len w)).bind
        fun ret u => .done ret { u with errno := ret } := by
  simp [wlan_connect, h]

/-- C12 (as stated, refuted): with a null key pointer and `key_len = 5` the
call writes 30 argument bytes (28 + ssid_len, no key byte) and declares 35. -/
theorem wlan_connect_null_key_declares_more :
    wlan_connect_args WLAN_SEC_WPA2 (some ⟨[65, 66], 0⟩) 2 none none 5 =
      .ok (le32 0x1c ++ le32 2 ++ le32 3 ++ le32 0x12 ++ le32 5 ++ [0, 0] ++
            [0, 0, 0, 0, 0, 0] ++ [65, 66], 35) ∧
    (le32 0x1c ++ le32 2 ++ le32 3 ++ le32 0x12 ++ le32 5 ++ [0, 0] ++
      [0, 0, 0, 0, 0, 0] ++ [65, 66]).length = 30 ∧
    (wlan_connect WLAN_SEC_WPA2 (some ⟨[65, 66], 0⟩) 2 none none 5
        (idleWorld [⟨.HCI_CMND_WLAN_CONNECT, 0⟩])).world.trace =
      [Action.hci_command_send .HCI_CMND_WLAN_CONNECT
          (le32 0x1c ++ le32 2 ++ le32 3 ++ le32 0x12 ++ le32 5 ++ [0, 0] ++
            [0, 0, 0, 0, 0, 0] ++ [65, 66]) 35,
        Action.SimpleLinkWaitEvent .HCI_CMND_WLAN_CONNECT] :=
  ⟨rfl, by decide, by decide⟩

/-- C12 (amended): for every `wlan_connect` call (non-tiny driver) in which the
key pointer is present or `key_len` is 0, with BSSID present or null, loadable
source buffers, and a frame that fits `wlan_tx_buffer` together with the
header, the length declared to `hci_command_send`,
`WLAN_CONNECT_PARAM_LEN + ssid_len + key_len - 1 = 28 + ssid_len + key_len`,
equals the number of argument bytes written.  With a null key pointer and
`key_len > 0` the guard `if (key_len && key)` skips the key bytes: 28 + ssid_len
bytes are written and 28 + ssid_len + key_len declared.  Nothing bounds
`ssid_len` and `key_len`: a frame that does not fit is stored past the end of
the array. -/
theorem wlan_connect_declared_length_while_it_fits (CC3000_TX_BUFFER_SIZE
    HEADERS_SIZE_CMD ulSecType : Nat) (ssid : Option Ptr) (ssid_len : Nat)
    (bssid key : Option Ptr) (key_len : Nat) (w : World)
    (hb : ∀ b, bssid = some b → b.off + 6 ≤ b.obj.length)
    (hs : Readable ssid ssid_len) (hk : key.isSome → Readable key key_len) :
    ∃ args : List Nat,
      wlan_connect_args ulSecType ssid ssid_len bssid key key_len =
        .ok (args, 28 + ssid_len + key_len) ∧
      (key.isSome ∨ key_len = 0 → args.length = 28 + ssid_len + key_len) ∧
      (key = none → args.length = 28 + ssid_len) ∧
      (HEADERS_SIZE_CMD + args.length ≤ CC3000_TX_BUFFER_SIZE →
        storedInTxBuffer CC3000_TX_BUFFER_SIZE HEADERS_SIZE_CMD
            (wlan_connect_args ulSecType ssid ssid_len bssid key key_len) =
          .ok (args, 28 + ssid_len + key_len) ∧
        wlan_connect ulSecType ssid ssid_len bssid key key_len w =
          (SimpleLinkWaitEvent .HCI_CMND_WLAN_CONNECT
            (hci_command_send .HCI_CMND_WLAN_CONNECT args (28 + ssid_len + key_len) w)).bind
            (fun ret u => .done ret { u with errno := ret })) ∧
      (CC3000_TX_BUFFER_SIZE < HEADERS_SIZE_CMD + args.length →
        storedInTxBuffer CC3000_TX_BUFFER_SIZE HEADERS_SIZE_CMD
            (wlan_connect_args ulSecType ssid ssid_len bssid key key_len) =
          .error (.outOfBounds CC3000_TX_BUFFER_SIZE CC3000_TX_BUFFER_SIZE)) := by
  have hargs := wlan_connect_args_eq ulSecType ssid ssid_len bssid key key_len hb hs hk
  have hdecl : WLAN_CONNECT_PARAM_LEN + ssid_len + key_len - 1 = 28 + ssid_len + key_len := by
    simp only [WLAN_CONNECT_PARAM_LEN]; omega
  rw [hdecl] at hargs
  have hbl := length_bssidBytes bssid hb
  have hsl := length_bytesAt ssid ssid_len hs
  refine ⟨_, hargs, ?_, ?_, ?_, ?_⟩
  · intro hcase
    have hkl : (bytesAt key key_len).length = key_len := by
      rcases hcase with h | h
      · exact length_bytesAt key key_len (hk h)
      · exact length_bytesAt key key_len (Or.inl h)
    simp only [List.length_append, length_le32, hbl, hsl, hkl, List.length_cons,
      List.length_nil]
  · intro hnone
    subst hnone
    have hkn : (bytesAt (none : Option Ptr) key_len).length = 0 := rfl
    simp only [List.length_append, length_le32, hbl, hsl, hkn, List.length_cons,
      List.length_nil]
    omega
  · intro hbuf
    exact ⟨storedInTxBuffer_fits _ _ _ _ _ hargs hbuf, wlan_connect_eq _ _ _ _ _ _ w _ _ hargs⟩
  · intro hbuf
    exact storedInTxBuffer_overflow _ _ _ _ _ hargs hbuf

theorem wlan_connect_declared_length_while_it_fits_witness :
    ∃ args : List Nat,
      wlan_connect_args WLAN_SEC_WPA2 (some ⟨[65, 66], 0⟩) 2 none (some ⟨[1, 2, 3, 4, 5], 0⟩) 5 =
        .ok (args, 28 + 2 + 5) ∧
      args.length = 28 + 2 + 5 ∧
      storedInTxBuffer 1520 9
          (wlan_connect_args WLAN_SEC_WPA2 (some ⟨[65, 66], 0⟩) 2 none
            (some ⟨[1, 2, 3, 4, 5], 0⟩) 5) = .ok (args, 28 + 2 + 5) ∧
      wlan_connect WLAN_SEC_WPA2 (some ⟨[65, 66], 0⟩) 2 none (some ⟨[1, 2, 3, 4, 5], 0⟩) 5
          (idleWorld []) =
        (SimpleLinkWaitEvent .HCI_CMND_WLAN_CONNECT
          (hci_command_send .HCI_CMND_WLAN_CONNECT args (28 + 2 + 5) (idleWorld []))).bind
          (fun ret u => .done ret { u with errno := ret }) :=
  Exists.imp
    (fun _ h => ⟨h.1, h.2.1 (Or.inl rfl), (h.2.2.2.1 (by rw [h.2.1 (Or.inl rfl)]; decide)).1,
      (h.2.2.2.1 (by rw [h.2.1 (Or.inl rfl)]; decide)).2⟩)
    (wlan_connect_declared_length_while_it_fits 1520 9 WLAN_SEC_WPA2 (some ⟨[65, 66], 0⟩) 2
      none (some ⟨[1, 2, 3, 4, 5], 0⟩) 5 (idleWorld []) (by intro b h; cases h) (by decide)
      (fun _ => by decide))

/-! ## C13: layout of the add-profile frame -/

/-- Block `i` of the WEP key stream is `key[i*len .. (i+1)*len)`. -/
theorem wep_block_eq (key : Option Ptr) (len i : Nat) (hi : i < 4) :
    bytesAt (ptrAdd key (i * len)) len = ((bytesAt key (4 * len)).drop (i * len)).take len := by
  cases key with
  | none => simp [bytesAt, ptrAdd]
  | some q =>
    have hle : len ≤ 4 * len - i * len := by
      have : i * len + len ≤ 4 * len := by nlinarith
      omega
    simp only [bytesAt, ptrAdd, Option.map, Ptr.add, List.drop_take, List.take_take,
      List.drop_drop, Nat.min_eq_left hle]

/-- C13: the frame built by `wlan_add_profile` has a fixed part of 24 bytes
(open), 36 bytes (WEP) or 44 bytes (WPA/WPA2); what follows is, for open,
exactly the `ulSsidLen` SSID bytes and no key byte; for WEP, the SSID bytes and
then exactly four key blocks of `ulPairwiseCipher_Or_TxKeyLen` bytes, block `i`
being `key[i*len .. (i+1)*len)`; for WPA/WPA2, the SSID bytes and then exactly
`ulPassPhraseLen` passphrase bytes. -/
theorem add_profile_frame_layout (ucSsid : Option Ptr) (ulSsidLen : Nat)
    (ucBssid : Option Ptr) (ulPriority ulPairwiseCipher_Or_TxKeyLen
      ulGroupCipher_TxKeyIndex ulKeyMgmt : Nat) (ucPf_OrKey : Option Ptr)
    (ulPassPhraseLen : Nat)
    (hb : ∀ b, ucBssid = some b → b.off + 6 ≤ b.obj.length)
    (hs : Readable ucSsid ulSsidLen) :
    (bytesAt ucSsid ulSsidLen).length = ulSsidLen ∧
    (∃ pre len, pre.length = 24 ∧
      wlan_add_profile_args WLAN_SEC_UNSEC ucSsid ulSsidLen ucBssid ulPriority
          ulPairwiseCipher_Or_TxKeyLen ulGroupCipher_TxKeyIndex ulKeyMgmt ucPf_OrKey
          ulPassPhraseLen = .ok (pre ++ bytesAt ucSsid ulSsidLen, len)) ∧
    (ulPairwiseCipher_Or_TxKeyLen < 1073741824 →
        Readable ucPf_OrKey (4 * ulPairwiseCipher_Or_TxKeyLen) →
      ∃ pre len blocks, pre.length = 36 ∧
        wlan_add_profile_args WLAN_SEC_WEP ucSsid ulSsidLen ucBssid ulPriority
            ulPairwiseCipher_Or_TxKeyLen ulGroupCipher_TxKeyIndex ulKeyMgmt ucPf_OrKey
            ulPassPhraseLen =
          .ok (pre ++ bytesAt ucSsid ulSsidLen ++ blocks, len) ∧
        blocks =
          bytesAt (ptrAdd ucPf_OrKey (0 * ulPairwiseCipher_Or_TxKeyLen))
              ulPairwiseCipher_Or_TxKeyLen ++
            bytesAt (ptrAdd ucPf_OrKey (1 * ulPairwiseCipher_Or_TxKeyLen))
              ulPairwiseCipher_Or_TxKeyLen ++
            bytesAt (ptrAdd ucPf_OrKey (2 * ulPairwiseCipher_Or_TxKeyLen))
              ulPairwiseCipher_Or_TxKeyLen ++
            bytesAt (ptrAdd ucPf_OrKey (3 * ulPairwiseCipher_Or_TxKeyLen))
              ulPairwiseCipher_Or_TxKeyLen ∧
        blocks.length = 4 * ulPairwiseCipher_Or_TxKeyLen ∧
        ∀ i, i < 4 →
          (bytesAt (ptrAdd ucPf_OrKey (i * ulPairwiseCipher_Or_TxKeyLen))
              ulPairwiseCipher_Or_TxKeyLen).length = ulPairwiseCipher_Or_TxKeyLen ∧
          bytesAt (ptrAdd ucPf_OrKey (i * ulPairwiseCipher_Or_TxKeyLen))
              ulPairwiseCipher_Or_TxKeyLen =
            ((bytesAt ucPf_OrKey (4 * ulPairwiseCipher_Or_TxKeyLen)).drop
              (i * ulPairwiseCipher_Or_TxKeyLen)).take ulPairwiseCipher_Or_TxKeyLen) ∧
    (∀ sec, sec = WLAN_SEC_WPA ∨ sec = WLAN_SEC_WPA2 → Readable ucPf_OrKey ulPassPhraseLen →
      ∃ pre len, pre.length = 44 ∧
        wlan_add_profile_args sec ucSsid ulSsidLen ucBssid ulPriority
            ulPairwiseCipher_Or_TxKeyLen ulGroupCipher_TxKeyIndex ulKeyMgmt ucPf_OrKey
            ulPassPhraseLen =
          .ok (pre ++ bytesAt ucSsid ulSsidLen ++ bytesAt ucPf_OrKey ulPassPhraseLen, len) ∧
        (bytesAt ucPf_OrKey ulPassPhraseLen).length = ulPassPhraseLen) := by
  have hbl := length_bssidBytes ucBssid hb
  refine ⟨length_bytesAt _ _ hs, ?_, ?_, ?_⟩
  · refine ⟨_, _, ?_, wlan_add_profile_args_open ucSsid ulSsidLen ucBssid ulPriority
      ulPairwiseCipher_Or_TxKeyLen ulGroupCipher_TxKeyIndex ulKeyMgmt ucPf_OrKey
      ulPassPhraseLen hb hs⟩
    simp [length_le32, hbl]
  · intro hlen hk
    have hblk : ∀ i, i < 4 →
        (bytesAt (ptrAdd ucPf_OrKey (i * ulPairwiseCipher_Or_TxKeyLen))
          ulPairwiseCipher_Or_TxKeyLen).length = ulPairwiseCipher_Or_TxKeyLen :=
      fun i hi => length_bytesAt _ _ (readable_block ucPf_OrKey _ i hi hk)
    have hargs := wlan_add_profile_args_wep ucSsid ulSsidLen ucBssid ulPriority
      ulPairwiseCipher_Or_TxKeyLen ulGroupCipher_TxKeyIndex ulKeyMgmt ucPf_OrKey
      ulPassPhraseLen hb hs hlen hk
    have p0 : ptrAdd ucPf_OrKey 0 = ucPf_OrKey := by
      cases ucPf_OrKey <;> simp [ptrAdd, Ptr.add]
    refine ⟨le32 1 ++ le32 0x20 ++ le32 ulSsidLen ++ [0, 0] ++ bssidBytes ucBssid ++
        le32 ulPriority ++ le32 (u32 (0x0C + ulSsidLen)) ++
        le32 ulPairwiseCipher_Or_TxKeyLen ++ le32 ulGroupCipher_TxKeyIndex,
      u16 (u32 (36 + ulSsidLen + ulPairwiseCipher_Or_TxKeyLen * 4)),
      bytesAt (ptrAdd ucPf_OrKey (0 * ulPairwiseCipher_Or_TxKeyLen))
          ulPairwiseCipher_Or_TxKeyLen ++
        bytesAt (ptrAdd ucPf_OrKey (1 * ulPairwiseCipher_Or_TxKeyLen))
          ulPairwiseCipher_Or_TxKeyLen ++
        bytesAt (ptrAdd ucPf_OrKey (2 * ulPairwiseCipher_Or_TxKeyLen))
          ulPairwiseCipher_Or_TxKeyLen ++
        bytesAt (ptrAdd ucPf_OrKey (3 * ulPairwiseCipher_Or_TxKeyLen))
          ulPairwiseCipher_Or_TxKeyLen, ?_, ?_, rfl,
      ?_, fun i hi => ⟨hblk i hi, wep_block_eq ucPf_OrKey _ i hi⟩⟩
    · simp [length_le32, hbl]
    · refine Eq.trans hargs ?_
      simp only [Nat.zero_mul, Nat.one_mul, p0, List.append_assoc]
    · simp only [List.length_append, hblk 0 (by omega), hblk 1 (by omega), hblk 2 (by omega),
        hblk 3 (by omega)]
      omega
  · intro sec hsec hk
    refine ⟨_, _, ?_, wlan_add_profile_args_wpa sec hsec ucSsid ulSsidLen ucBssid ulPriority
      ulPairwiseCipher_Or_TxKeyLen ulGroupCipher_TxKeyIndex ulKeyMgmt ucPf_OrKey
      ulPassPhraseLen hb hs hk, length_bytesAt _ _ hk⟩
    simp [length_le32, hbl]

theorem add_profile_frame_layout_witness :
    ∃ pre len, pre.length = 44 ∧
      wlan_add_profile_args WLAN_SEC_WPA2 (some ⟨[65, 66], 0⟩) 2 none 1 0x18 0x1e 2
          (some ⟨[1, 2, 3, 4, 5], 0⟩) 5 =
        .ok (pre ++ bytesAt (some ⟨[65, 66], 0⟩) 2 ++ bytesAt (some ⟨[1, 2, 3, 4, 5], 0⟩) 5,
          len) ∧
      (bytesAt (some ⟨[1, 2, 3, 4, 5], 0⟩) 5).length = 5 :=
  (add_profile_frame_layout (some ⟨[65, 66], 0⟩) 2 none 1 0x18 0x1e 2
    (some ⟨[1, 2, 3, 4, 5], 0⟩) 5 (by intro b h; cases h) (by decide)).2.2.2
    WLAN_SEC_WPA2 (Or.inr rfl) (by decide)

/-! ## C14: the decryption stays in the key region -/

theorem byteAt_decryptedBlob_ge (env : Env) (i : Nat) (hL : byteAt (fetchedBlob env) 0 ≤ 32)
    (hi : byteAt (fetchedBlob env) 0 + 35 ≤ i) :
    byteAt (decryptedBlob env) i = byteAt (fetchedBlob env) i := by
  have hlen := length_fetchedBlob env
  unfold decryptedBlob decryptedProfile
  split_ifs
  · rw [byteAt_decryptAt_ge _ _ _ _ _ (by rw [length_decryptAt _ _ _ _ (by omega)]; omega)
      (by omega), byteAt_decryptAt_ge _ _ _ _ _ (by omega) (by omega)]
  · rw [byteAt_decryptAt_ge _ _ _ _ _ (by omega) (by omega)]

theorem take_decryptAt (c : List Nat → List Nat → List Nat) (key arr : List Nat)
    (off n : Nat) (h : off ≤ arr.length) (hn : n ≤ off) :
    (decryptAt c key arr off).take n = arr.take n := by
  unfold decryptAt
  rw [List.append_assoc, List.take_append_of_le_length (by simp; omega), List.take_take,
    Nat.min_eq_left hn]

theorem block_decryptAt (c : List Nat → List Nat → List Nat) (key arr : List Nat)
    (off : Nat) (h : off + 16 ≤ arr.length) :
    ((decryptAt c key arr off).drop off).take 16 =
      fixLen 16 (c ((arr.drop off).take 16) key) := by
  unfold decryptAt
  rw [List.append_assoc, List.drop_left' (by simp; omega),
    List.take_left' (length_fixLen _ _)]

theorem block_take_drop (l : List Nat) (off : Nat) :
    (l.drop off).take 16 = (l.take (off + 16)).drop off := by
  rw [List.drop_take]
  congr 1
  omega

theorem first_block_decryptedBlob (env : Env) (hL : byteAt (fetchedBlob env) 0 ≤ 32) :
    ((decryptedBlob env).drop (byteAt (fetchedBlob env) 0 + 3)).take 16 =
      fixLen 16 (env.aes_decrypt
        (((fetchedBlob env).drop (byteAt (fetchedBlob env) 0 + 3)).take 16) (fetchedKey env)) := by
  have hlen := length_fetchedBlob env
  unfold decryptedBlob decryptedProfile
  split_ifs
  · rw [block_take_drop, take_decryptAt _ _ _ _ _
      (by rw [length_decryptAt _ _ _ _ (by omega)]; omega) (by omega), ← block_take_drop,
      block_decryptAt _ _ _ _ (by omega)]
  · exact block_decryptAt _ _ _ _ (by omega)

/-- C14: for every blob with `L = blob[0] ≤ 32` (both fetches successful) the
first decryption of `wlan_smart_config_process` is of the 16-byte block at
`L+3`, i.e. `blob[L+3 .. L+19)`, which ends up holding the decryption of the
fetched block; the array keeps its 67 bytes, and every byte outside the key
region `blob[L+3 .. L+35)` is as fetched when the call ends: the SSID-length
byte, the SSID bytes, the key-length byte `blob[L+1]` and the security-type
byte `blob[L+2]` (all at indices below `L+3`) and the bytes from `L+35` on. -/
theorem decryption_stays_in_key_region (env : Env) (w : World)
    (hk : env.aes_read_key.1 = 0) (hb : env.nvmem_read.1 = 0)
    (hL : byteAt (fetchedBlob env) 0 ≤ 32) :
    (∃ rest,
      (wlan_smart_config_process env w).world.trace =
        w.trace ++
          [Action.aes_read_key,
            Action.nvmem_read NVMEM_SHARED_MEM_FILEID SMART_CONFIG_PROFILE_SIZE 0,
            Action.aes_decrypt (byteAt (fetchedBlob env) 0 + 3)] ++ rest) ∧
    (((wlan_smart_config_process env w).world.profileArray.drop
        (byteAt (fetchedBlob env) 0 + 3)).take 16 =
      fixLen 16 (env.aes_decrypt
        (((fetchedBlob env).drop (byteAt (fetchedBlob env) 0 + 3)).take 16)
        (fetchedKey env))) ∧
    (wlan_smart_config_process env w).world.profileArray.length = 67 ∧
    ∀ i, i < byteAt (fetchedBlob env) 0 + 3 ∨ byteAt (fetchedBlob env) 0 + 35 ≤ i →
      byteAt (wlan_smart_config_process env w).world.profileArray i =
        byteAt (fetchedBlob env) i := by
  have hreach := wlan_smart_config_process_reaches_switch env w hk hb hL
  have hdl : (decryptedWorld env w).profileArray.length = 67 := length_decryptedBlob env hL
  have hd0 : byteAt (decryptedWorld env w).profileArray 0 ≤ 32 := by
    show byteAt (decryptedBlob env) 0 ≤ 32
    rw [byteAt_decryptedBlob_lt env 0 hL (by omega)]; exact hL
  obtain ⟨rest, htr, _, hsame⟩ := smartConfigAddProfile_world 0 1
    (byteAt (fetchedBlob env) 0) (parsedKey env).1 (parsedKey env).2 (decryptedWorld env w)
    hdl hd0
  have harr : (wlan_smart_config_process env w).world.profileArray = decryptedBlob env := by
    rw [hreach, hsame.2.1]; rfl
  refine ⟨?_, ?_, ?_, ?_⟩
  · rw [hreach, htr]
    by_cases hc : byteAt (fetchedBlob env) (byteAt (fetchedBlob env) 0 + 1) > 16
    · exact ⟨Action.aes_decrypt (byteAt (fetchedBlob env) 0 + 3 + 16) :: rest, by
        simp [decryptedWorld, decryptCalls, hc]⟩
    · exact ⟨rest, by simp [decryptedWorld, decryptCalls, hc]⟩
  · rw [harr]; exact first_block_decryptedBlob env hL
  · rw [harr]; exact length_decryptedBlob env hL
  · intro i hi
    rw [harr]
    rcases hi with hi | hi
    · exact byteAt_decryptedBlob_lt env i hL hi
    · exact byteAt_decryptedBlob_ge env i hL hi

theorem decryption_stays_in_key_region_witness :
    byteAt (wlan_smart_config_process (demoEnv (List.replicate 16 1) blobWpa2)
        (idleWorld [])).world.profileArray 4 =
      byteAt (fetchedBlob (demoEnv (List.replicate 16 1) blobWpa2)) 4 :=
  (decryption_stays_in_key_region (demoEnv (List.replicate 16 1) blobWpa2)
    (idleWorld []) rfl rfl (by decide)).2.2.2 4 (Or.inl (by decide))

/-! ## C17: the derived key length -/

/-- C17 (as stated, refuted): in `blobLongKey` (L = 2 ≤ 32) the key region
decrypts to the length byte 40 and a zero last byte, so the key is taken to be
40 bytes from offset 1 of the region: 1 + 40 > 32, no check stops it, and the
frame sent carries 40 passphrase bytes, `profileArray[6 .. 46)`, nine of them
(the 7s) from outside the key region `profileArray[5 .. 37)`. -/
theorem key_length_40_is_not_rejected :
    blobLongKey.length = 67 ∧ byteAt blobLongKey 0 = 2 ∧
    parsedKey (demoEnv (List.replicate 16 1) blobLongKey) = (40, 6) ∧
    ¬ (6 - (2 + 3) + 40 ≤ 32) ∧
    (wlan_smart_config_process (demoEnv (List.replicate 16 1) blobLongKey)
        (idleWorld [⟨.HCI_CMND_WLAN_IOCTL_ADD_PROFILE, 0⟩])).world.trace =
      [Action.aes_read_key, Action.nvmem_read 13 67 0, Action.aes_decrypt 5,
        Action.aes_decrypt 21,
        Action.hci_command_send .HCI_CMND_WLAN_IOCTL_ADD_PROFILE
          (le32 3 ++ le32 0x28 ++ le32 2 ++ [0, 0] ++ [0, 0, 0, 0, 0, 0] ++ le32 1 ++
            le32 0x18 ++ le32 0x1e ++ le32 2 ++ le32 10 ++ le32 40 ++ [65, 66] ++
            List.replicate 31 0 ++ List.replicate 9 7) 86,
        Action.SimpleLinkWaitEvent .HCI_CMND_WLAN_IOCTL_ADD_PROFILE] := by
  decide

/-- C17 (amended): `wlan_smart_config_process` does not range-check the key
length it derives.  For every blob with `L = blob[0] ≤ 32` (both fetches
successful) the call continues into the `switch` with the derived key length
and key pointer, the pointer lies 0 or 1 byte into the key region, and pointer
offset + length ≤ 32 holds if and only if the last byte of the decrypted region
is non-zero or its first byte is at most 31; with a zero last byte and a first
byte above 31 the length runs past the region. -/
theorem derived_key_fits_region_iff (env : Env) (w : World)
    (hk : env.aes_read_key.1 = 0) (hb : env.nvmem_read.1 = 0)
    (hL : byteAt (fetchedBlob env) 0 ≤ 32) :
    wlan_smart_config_process env w =
      smartConfigAddProfile 0 1 (byteAt (fetchedBlob env) 0) (parsedKey env).1
        (parsedKey env).2 (decryptedWorld env w) ∧
    byteAt (fetchedBlob env) 0 + 3 ≤ (parsedKey env).2 ∧
    (parsedKey env).2 ≤ byteAt (fetchedBlob env) 0 + 3 + 1 ∧
    ((parsedKey env).2 - (byteAt (fetchedBlob env) 0 + 3) + (parsedKey env).1 ≤ 32 ↔
      (byteAt (decryptedBlob env) (byteAt (fetchedBlob env) 0 + 3 + 31) ≠ 0 ∨
        byteAt (decryptedBlob env) (byteAt (fetchedBlob env) 0 + 3) ≤ 31)) := by
  refine ⟨wlan_smart_config_process_reaches_switch env w hk hb hL, ?_⟩
  have e31 := byteAt_keyRegion (decryptedBlob env) (byteAt (fetchedBlob env) 0 + 3) 31
    (by omega)
  have e0 := byteAt_keyRegion (decryptedBlob env) (byteAt (fetchedBlob env) 0 + 3) 0
    (by omega)
  rw [Nat.add_zero] at e0
  unfold parsedKey specKeyRule
  rw [e31, e0]
  by_cases h31 : byteAt (decryptedBlob env) (byteAt (fetchedBlob env) 0 + 3 + 31) = 0
  · simp only [h31, ne_eq, not_true_eq_false, if_false, false_or]
    refine ⟨by omega, by omega, ?_⟩
    omega
  · by_cases h0 : byteAt (decryptedBlob env) (byteAt (fetchedBlob env) 0 + 3) = 31
    · simp only [h31, h0, ne_eq, not_false_eq_true, if_true, true_or, iff_true]
      refine ⟨by omega, by omega, by omega⟩
    · simp only [h31, h0, ne_eq, not_false_eq_true, if_true, if_false, true_or, iff_true]
      refine ⟨by omega, by omega, by omega⟩

theorem derived_key_fits_region_iff_witness :
    (parsedKey (demoEnv (List.replicate 16 1) blobWpa2)).2 ≤
      byteAt (fetchedBlob (demoEnv (List.replicate 16 1) blobWpa2)) 0 + 3 + 1 :=
  (derived_key_fits_region_iff (demoEnv (List.replicate 16 1) blobWpa2)
    (idleWorld []) rfl rfl (by decide)).2.2.1

/-! ## Lemmas: the frame and the calls of a smart-config run -/

theorem ARRAY_TO_STREAM_append (p : List Nat) (a : Option Ptr) (l : Nat) (r : List Nat)
    (h : ARRAY_TO_STREAM p a l = .ok r) : ∃ t, r = p ++ t := by
  unfold ARRAY_TO_STREAM at h
  by_cases hl : l = 0
  · rw [if_pos hl] at h
    cases h
    exact ⟨[], by simp⟩
  · rw [if_neg hl] at h
    cases a with
    | none => cases h
    | some q =>
      simp only at h
      split_ifs at h
      cases h
      exact ⟨_, rfl⟩

theorem foldlM_ARRAY_TO_STREAM_append (g : Nat → Option Ptr) (l : Nat) (xs : List Nat) :
    ∀ (p r : List Nat),
      xs.foldlM (fun args i => ARRAY_TO_STREAM args (g i) l) p = .ok r → ∃ t, r = p ++ t := by
  induction xs with
  | nil =>
    intro p r h
    cases h
    exact ⟨[], by simp⟩
  | cons x xs ih =>
    intro p r h
    rw [List.foldlM_cons] at h
    cases h1 : ARRAY_TO_STREAM p (g x) l with
    | error f => rw [h1] at h; cases h
    | ok r1 =>
      rw [h1] at h
      obtain ⟨t1, ht1⟩ := ARRAY_TO_STREAM_append p (g x) l r1 h1
      obtain ⟨t, ht⟩ := ih r1 r h
      exact ⟨t1 ++ t, by rw [ht, ht1, List.append_assoc]⟩

/-- The head of every add-profile frame built with a null BSSID pointer: the
security type, a word that depends on it, the SSID length, two zero bytes, the
six zero BSSID bytes, the priority, the remaining fixed fields, and the SSID. -/
theorem wlan_add_profile_args_head (sec : Nat) (hsec : sec ≤ 3) (ssid : Option Ptr) (n : Nat)
    (prio c g k : Nat) (key : Option Ptr) (pl : Nat) (hs : Readable ssid n)
    (args : List Nat) (len : Nat)
    (h : wlan_add_profile_args sec ssid n none prio c g k key pl = .ok (args, len)) :
    ∃ mid tail,
      args = le32 sec ++ le32 (if sec = 0 then 0x14 else if sec = 1 then 0x20 else 0x28) ++
        le32 n ++ [0, 0] ++ [0, 0, 0, 0, 0, 0] ++ le32 prio ++ mid ++ bytesAt ssid n ++ tail ∧
      mid.length + 24 = addProfilePrefix sec := by
  have hb : ∀ b, (none : Option Ptr) = some b → b.off + 6 ≤ b.obj.length := by
    intro b hbb; cases hbb
  have hsec4 : sec = 0 ∨ sec = 1 ∨ sec = 2 ∨ sec = 3 := by omega
  rcases hsec4 with rfl | rfl | h23
  · rw [wlan_add_profile_args_open ssid n none prio c g k key pl hb hs] at h
    cases h
    exact ⟨[], [], by simp [bssidBytes], rfl⟩
  · unfold wlan_add_profile_args at h
    simp only [WLAN_SEC_UNSEC, WLAN_SEC_WEP, one_ne_zero, if_false, if_true,
      bssidToStream_ok _ _ hb, ARRAY_TO_STREAM_readable _ _ _ hs, bind, Except.bind, pure,
      Except.pure] at h
    split at h
    · cases h
    · rename_i r hr
      cases h
      obtain ⟨t, ht⟩ := foldlM_ARRAY_TO_STREAM_append _ _ _ _ _ hr
      refine ⟨le32 (u32 (0x0C + n)) ++ le32 c ++ le32 g, t, ?_, rfl⟩
      rw [ht]
      simp [UINT32_TO_STREAM, UINT16_TO_STREAM, le32, bssidBytes]
  · have h01 : sec ≠ 0 ∧ sec ≠ 1 := by omega
    unfold wlan_add_profile_args at h
    simp only [WLAN_SEC_UNSEC, WLAN_SEC_WEP, WLAN_SEC_WPA, WLAN_SEC_WPA2, h01.1, h01.2, h23,
      if_false, if_true,
      bssidToStream_ok _ _ hb, ARRAY_TO_STREAM_readable _ _ _ hs, bind, Except.bind, pure,
      Except.pure] at h
    split at h
    · cases h
    · rename_i r hr
      cases h
      obtain ⟨t, ht⟩ := ARRAY_TO_STREAM_append _ _ _ _ hr
      refine ⟨le32 c ++ le32 g ++ le32 k ++ le32 (u32 (0x08 + n)) ++ le32 pl, t, ?_, ?_⟩
      · rw [ht]
        simp [UINT32_TO_STREAM, UINT16_TO_STREAM, le32, bssidBytes, h01.1, h01.2]
      · rcases h23 with rfl | rfl <;> rfl

theorem sentCommands_append (a b : List Action) :
    sentCommands (a ++ b) = sentCommands a ++ sentCommands b := by
  simp [sentCommands, List.filterMap_append]

theorem sentCommands_decryptCalls (arr : List Nat) : sentCommands (decryptCalls arr) = [] := by
  unfold decryptCalls
  split_ifs <;> rfl

/-- How a `wlan_add_profile` call ends: with the fault of the encoder; blocked
when no completion of the command arrives; else returning the status of the
first completion of the command. -/
theorem wlan_add_profile_outcome (sec : Nat) (ucSsid : Option Ptr) (n : Nat)
    (ucBssid : Option Ptr) (prio c g k : Nat) (key : Option Ptr) (pl : Nat) (v : World) :
    (∃ f, wlan_add_profile_args sec ucSsid n ucBssid prio c g k key pl = .error f ∧
      wlan_add_profile sec ucSsid n ucBssid prio c g k key pl v = .fault f v) ∨
    (∃ args len, wlan_add_profile_args sec ucSsid n ucBssid prio c g k key pl =
        .ok (args, len) ∧
      (((∀ x ∈ v.rx, x.opcode ≠ .HCI_CMND_WLAN_IOCTL_ADD_PROFILE) ∧
          ∃ w2, wlan_add_profile sec ucSsid n ucBssid prio c g k key pl v = .blocked w2) ∨
        ∃ pre e rest w2, v.rx = pre ++ e :: rest ∧
          e.opcode = .HCI_CMND_WLAN_IOCTL_ADD_PROFILE ∧
          (∀ x ∈ pre, x.opcode ≠ .HCI_CMND_WLAN_IOCTL_ADD_PROFILE) ∧
          wlan_add_profile sec ucSsid n ucBssid prio c g k key pl v = .done e.status w2)) := by
  cases h : wlan_add_profile_args sec ucSsid n ucBssid prio c g k key pl with
  | error f =>
    left
    exact ⟨f, rfl, by simp [wlan_add_profile, h]⟩
  | ok r =>
    obtain ⟨args, len⟩ := r
    right
    refine ⟨args, len, rfl, ?_⟩
    rw [wlan_add_profile_eq sec ucSsid n ucBssid prio c g k key pl v args len h]
    rcases split_first_match .HCI_CMND_WLAN_IOCTL_ADD_PROFILE v.rx with
      hno | ⟨pre, e, rest, hrx, he, hpre⟩
    · left
      obtain ⟨w2, h1, _⟩ := SimpleLinkWaitEvent_no_match .HCI_CMND_WLAN_IOCTL_ADD_PROFILE
        (hci_command_send .HCI_CMND_WLAN_IOCTL_ADD_PROFILE args len v) hno
      exact ⟨hno, w2, h1⟩
    · right
      obtain ⟨w2, h1, _⟩ := SimpleLinkWaitEvent_first_match .HCI_CMND_WLAN_IOCTL_ADD_PROFILE
        (hci_command_send .HCI_CMND_WLAN_IOCTL_ADD_PROFILE args len v) pre e rest hrx he hpre
      exact ⟨pre, e, rest, w2, hrx, he, hpre, h1⟩

theorem ssid_bytes_decryptedBlob (env : Env) (hL : byteAt (fetchedBlob env) 0 ≤ 32) :
    bytesAt (some (Ptr.mk (decryptedBlob env) 1)) (byteAt (fetchedBlob env) 0) =
      ((fetchedBlob env).drop 1).take (byteAt (fetchedBlob env) 0) := by
  have hlen := length_fetchedBlob env
  have e : ∀ l : List Nat, (l.drop 1).take (byteAt (fetchedBlob env) 0) =
      (l.take (byteAt (fetchedBlob env) 0 + 1)).drop 1 := by
    intro l
    rw [List.drop_take]
    congr 1
  show ((decryptedBlob env).drop 1).take _ = _
  rw [e, e]
  congr 1
  unfold decryptedBlob decryptedProfile
  split_ifs
  · rw [take_decryptAt _ _ _ _ _ (by rw [length_decryptAt _ _ _ _ (by omega)]; omega)
      (by omega), take_decryptAt _ _ _ _ _ (by omega) (by omega)]
  · rw [take_decryptAt _ _ _ _ _ (by omega) (by omega)]

theorem byteAt_padded (l : List Nat) (k i : Nat) (h : l.length ≤ i) :
    byteAt (l ++ List.replicate k 0) i = 0 := by
  unfold byteAt
  rw [List.getD_append_right _ _ _ _ h, List.getD_eq_getElem?_getD, List.getElem?_replicate]
  split_ifs <;> rfl

theorem byteAt_zero_cons (a : Nat) (l : List Nat) : byteAt (a :: l) 0 = a := rfl

/-- The documented key encoding (length byte, key, zero padding) is read back
by the rule of the disambiguation step as the key length at region offset 1. -/
theorem specKeyRule_encoded (key : List Nat) (hn : key.length ≤ 31) :
    specKeyRule ([key.length] ++ key ++ List.replicate (31 - key.length) 0) =
      (key.length, 1) := by
  have h0 : byteAt ([key.length] ++ key ++ List.replicate (31 - key.length) 0) 0 =
      key.length := rfl
  unfold specKeyRule
  rw [h0]
  by_cases h31 : key.length = 31
  · simp only [h31, if_true]
    split_ifs <;> rfl
  · have hz : byteAt ([key.length] ++ key ++ List.replicate (31 - key.length) 0) 31 = 0 :=
      byteAt_padded _ _ _ (by simp; omega)
    rw [hz]
    simp

theorem key_bytes_of_region (arr key pad : List Nat) (o : Nat)
    (hn : key.length ≤ 31)
    (hreg : keyRegion arr o = [key.length] ++ key ++ pad) :
    bytesAt (some (Ptr.mk arr (o + 1))) key.length = key := by
  have e1 : (arr.drop (o + 1)).take key.length =
      (((arr.drop o).take 32).drop 1).take key.length := by
    rw [List.drop_take, List.take_take, List.drop_drop, Nat.min_eq_left (by omega)]
  show (arr.drop (o + 1)).take key.length = key
  rw [e1]
  unfold keyRegion at hreg
  rw [hreg]
  simp

/-- C21: round trip of the documented key encoding.  For every key of length
`n` with `0 ≤ n ≤ 31`, when the decrypted 32-byte key region (at offset `o` of
the profile array) is the length byte `n`, the `n` key bytes and zero padding
up to 32 bytes, the disambiguation of `wlan_smart_config_process` yields key
length `n` and the key pointer at region offset 1, and the `n` bytes there are
the original key; this includes `n = 31` with a zero last key byte. -/
theorem key_encoding_round_trip (key : List Nat) (o : Nat) (w : World)
    (hn : key.length ≤ 31)
    (hreg : keyRegion w.profileArray o =
      [key.length] ++ key ++ List.replicate (31 - key.length) 0)
    (h : o + 32 ≤ w.profileArray.length) :
    keyDisambiguation o w = .done (key.length, o + 1) w ∧
      bytesAt (some (Ptr.mk w.profileArray (o + 1))) key.length = key := by
  refine ⟨?_, key_bytes_of_region _ _ _ _ hn hreg⟩
  rw [keyDisambiguation_eq o w h, hreg, specKeyRule_encoded key hn]

theorem key_encoding_round_trip_witness :
    keyDisambiguation 5
        (profileWorld ([2, 65, 66, 32, 3] ++ [31] ++ List.replicate 30 7 ++ [0] ++
          List.replicate 30 0)) =
      .done (31, 6)
        (profileWorld ([2, 65, 66, 32, 3] ++ [31] ++ List.replicate 30 7 ++ [0] ++
          List.replicate 30 0)) ∧
    bytesAt
        (some (Ptr.mk (profileWorld ([2, 65, 66, 32, 3] ++ [31] ++ List.replicate 30 7 ++ [0] ++
          List.replicate 30 0)).profileArray 6)) 31 =
      List.replicate 30 7 ++ [0] :=
  key_encoding_round_trip (List.replicate 30 7 ++ [0]) 5
    (profileWorld ([2, 65, 66, 32, 3] ++ [31] ++ List.replicate 30 7 ++ [0] ++
      List.replicate 30 0)) (by decide) (by decide) (by decide)

/-- C22: for a 32-byte key stored with no length prefix (the region is the key
itself) the disambiguation yields (length 32, region offset 0) if and only if
the last byte of the key is non-zero and its first byte is not 31.  For every
other 32-byte key it yields region offset 1, with length 31 when the last byte
is non-zero (and the first byte is 31) and with the first byte as length when
the last byte is zero. -/
theorem full_length_key_read_back_iff (o : Nat) (w : World)
    (h : o + 32 ≤ w.profileArray.length) :
    keyDisambiguation o w =
        .done
          (if byteAt w.profileArray (o + 31) ≠ 0 ∧ byteAt w.profileArray o ≠ 31 then (32, o)
            else if byteAt w.profileArray (o + 31) ≠ 0 then (31, o + 1)
            else (byteAt w.profileArray o, o + 1)) w ∧
      (keyDisambiguation o w = .done (32, o) w ↔
        byteAt w.profileArray (o + 31) ≠ 0 ∧ byteAt w.profileArray o ≠ 31) := by
  have h31 := byteAt_keyRegion w.profileArray o 31 (by omega)
  have h0 := byteAt_keyRegion w.profileArray o 0 (by omega)
  rw [Nat.add_zero] at h0
  have hrun : keyDisambiguation o w =
      .done
        (if byteAt w.profileArray (o + 31) ≠ 0 ∧ byteAt w.profileArray o ≠ 31 then (32, o)
          else if byteAt w.profileArray (o + 31) ≠ 0 then (31, o + 1)
          else (byteAt w.profileArray o, o + 1)) w := by
    rw [keyDisambiguation_eq o w h]
    unfold specKeyRule
    rw [h31, h0]
    by_cases hz : byteAt w.profileArray (o + 31) = 0
    · simp [hz]
    · by_cases h1 : byteAt w.profileArray o = 31
      · simp [hz, h1]
      · simp [hz, h1]
  refine ⟨hrun, ?_⟩
  rw [hrun]
  by_cases hc : byteAt w.profileArray (o + 31) ≠ 0 ∧ byteAt w.profileArray o ≠ 31
  · rw [if_pos hc]
    exact ⟨fun _ => hc, fun _ => rfl⟩
  · rw [if_neg hc]
    constructor
    · intro heq
      exfalso
      split_ifs at heq
      · injection heq with h1 _
        injection h1 with _ h2
        omega
      · injection heq with h1 _
        injection h1 with _ h2
        omega
    · intro h2; exact absurd h2 hc

theorem full_length_key_read_back_iff_witness :
    keyDisambiguation 5 (profileWorld (List.replicate 5 9 ++ [31] ++ List.replicate 61 7)) =
      .done (32, 5) (profileWorld (List.replicate 5 9 ++ [31] ++ List.replicate 61 7)) ↔
    byteAt (profileWorld (List.replicate 5 9 ++ [31] ++ List.replicate 61 7)).profileArray
        (5 + 31) ≠ 0 ∧
      byteAt (profileWorld (List.replicate 5 9 ++ [31] ++ List.replicate 61 7)).profileArray 5
        ≠ 31 :=
  (full_length_key_read_back_iff 5
    (profileWorld (List.replicate 5 9 ++ [31] ++ List.replicate 61 7)) (by decide)).2

/-! ## C27 and C26: unsupported security types -/

/-- C27: for every security type value outside {0,1,2,3} `wlan_add_profile`
still sends the ADD_PROFILE command and waits for its completion; only the
4-byte security-type word was written into the argument area, the declared
argument length is 0, and no source buffer is read (the call is the same for
every SSID, BSSID and key pointer, null or not). -/
theorem wlan_add_profile_unknown_type_is_sent (ulSecType : Nat) (ucSsid : Option Ptr)
    (ulSsidLen : Nat) (ucBssid : Option Ptr) (ulPriority ulPairwiseCipher_Or_TxKeyLen
      ulGroupCipher_TxKeyIndex ulKeyMgmt : Nat) (ucPf_OrKey : Option Ptr)
    (ulPassPhraseLen : Nat) (w : World) (hsec : 3 < ulSecType) :
    wlan_add_profile_args ulSecType ucSsid ulSsidLen ucBssid ulPriority
        ulPairwiseCipher_Or_TxKeyLen ulGroupCipher_TxKeyIndex ulKeyMgmt ucPf_OrKey
        ulPassPhraseLen = .ok (le32 ulSecType, 0) ∧
    (le32 ulSecType).length = 4 ∧
    wlan_add_profile ulSecType ucSsid ulSsidLen ucBssid ulPriority
        ulPairwiseCipher_Or_TxKeyLen ulGroupCipher_TxKeyIndex ulKeyMgmt ucPf_OrKey
        ulPassPhraseLen w =
      SimpleLinkWaitEvent .HCI_CMND_WLAN_IOCTL_ADD_PROFILE
        (hci_command_send .HCI_CMND_WLAN_IOCTL_ADD_PROFILE (le32 ulSecType) 0 w) := by
  have hargs : wlan_add_profile_args ulSecType ucSsid ulSsidLen ucBssid ulPriority
      ulPairwiseCipher_Or_TxKeyLen ulGroupCipher_TxKeyIndex ulKeyMgmt ucPf_OrKey
      ulPassPhraseLen = .ok (le32 ulSecType, 0) := by
    have h0 : ulSecType ≠ 0 := by omega
    have h1 : ulSecType ≠ 1 := by omega
    have h2 : ulSecType ≠ 2 := by omega
    have h3 : ulSecType ≠ 3 := by omega
    simp [wlan_add_profile_args, WLAN_SEC_UNSEC, WLAN_SEC_WEP, WLAN_SEC_WPA, WLAN_SEC_WPA2,
      h0, h1, h2, h3, UINT32_TO_STREAM, le32, pure, Except.pure]
  exact ⟨hargs, rfl, wlan_add_profile_eq _ _ _ _ _ _ _ _ _ _ w _ _ hargs⟩

theorem wlan_add_profile_unknown_type_is_sent_witness :
    wlan_add_profile 7 none 5 none 0 0 0 0 none 9 (idleWorld []) =
      SimpleLinkWaitEvent .HCI_CMND_WLAN_IOCTL_ADD_PROFILE
        (hci_command_send .HCI_CMND_WLAN_IOCTL_ADD_PROFILE (le32 7) 0 (idleWorld [])) :=
  (wlan_add_profile_unknown_type_is_sent 7 none 5 none 0 0 0 0 none 9 (idleWorld [])
    (by decide)).2.2

/-- C26: for every blob with `L = blob[0] ≤ 32` for which both fetches succeed
and whose security-type byte `blob[L+2]` is outside {0,1,2,3},
`wlan_smart_config_process` returns 0, the value left in `returnValue` by the
blob fetch, and issues no command: its calls are the two fetches and the
decryption. -/
theorem unsupported_type_returns_zero_without_command (env : Env) (w : World)
    (hk : env.aes_read_key.1 = 0) (hb : env.nvmem_read.1 = 0)
    (hL : byteAt (fetchedBlob env) 0 ≤ 32)
    (hs : 3 < byteAt (fetchedBlob env) (byteAt (fetchedBlob env) 0 + 2)) :
    wlan_smart_config_process env w = .done 0 (decryptedWorld env w) ∧
    (wlan_smart_config_process env w).returned = some env.nvmem_read.1 ∧
    (wlan_smart_config_process env w).world.trace =
      w.trace ++
        ([Action.aes_read_key,
            Action.nvmem_read NVMEM_SHARED_MEM_FILEID SMART_CONFIG_PROFILE_SIZE 0] ++
          decryptCalls (fetchedBlob env)) ∧
    sentCommands
      ([Action.aes_read_key,
          Action.nvmem_read NVMEM_SHARED_MEM_FILEID SMART_CONFIG_PROFILE_SIZE 0] ++
        decryptCalls (fetchedBlob env)) = [] := by
  have hrun : wlan_smart_config_process env w = .done 0 (decryptedWorld env w) := by
    rw [wlan_smart_config_process_switch env w hk hb hL]
    rw [if_neg (by omega), if_neg (by omega), if_neg (by omega)]
  refine ⟨hrun, ?_, ?_, ?_⟩
  · rw [hrun, hb]; rfl
  · rw [hrun]
    simp only [Outcome.world, decryptedWorld, List.append_assoc]
  · rw [sentCommands_append, sentCommands_decryptCalls]; rfl

theorem unsupported_type_returns_zero_without_command_witness :
    wlan_smart_config_process
        (withSecurityType (demoEnv (List.replicate 16 1) blobWpa2) 9) (idleWorld []) =
      .done 0
        (decryptedWorld (withSecurityType (demoEnv (List.replicate 16 1) blobWpa2) 9)
          (idleWorld [])) :=
  (unsupported_type_returns_zero_without_command
    (withSecurityType (demoEnv (List.replicate 16 1) blobWpa2) 9) (idleWorld [])
    rfl rfl (by decide) (by decide)).1

/-! ## Lemmas: the decryption step after the fetches -/

/-- After both fetches, for `L ≤ 32`, the decryption and disambiguation steps
run to their end. -/
theorem smartConfigDecrypt_fetched (env : Env) (w : World)
    (hL : byteAt (fetchedBlob env) 0 ≤ 32) :
    smartConfigDecrypt env (fetchedWorld env w) =
      .done (1, byteAt (fetchedBlob env) 0, (parsedKey env).1, (parsedKey env).2)
        (decryptedWorld env w) := by
  rw [smartConfigDecrypt_ok env _ (length_fetchedBlob env) hL]
  simp only [parsedKey, decryptedWorld, decryptedBlob, fetchedWorld, List.append_assoc]

/-! ## C30: the frame of an unsecured blob -/

/-- The call made for an unsecured blob, with its frame written out. -/
theorem wlan_smart_config_process_open (env : Env) (w : World)
    (hk : env.aes_read_key.1 = 0) (hb : env.nvmem_read.1 = 0)
    (hL : byteAt (fetchedBlob env) 0 ≤ 32)
    (h0 : byteAt (fetchedBlob env) (byteAt (fetchedBlob env) 0 + 2) = 0) :
    wlan_smart_config_process env w =
      SimpleLinkWaitEvent .HCI_CMND_WLAN_IOCTL_ADD_PROFILE
        (hci_command_send .HCI_CMND_WLAN_IOCTL_ADD_PROFILE
          (openProfileFrame (byteAt (fetchedBlob env) 0)
            (((fetchedBlob env).drop 1).take (byteAt (fetchedBlob env) 0)))
          (24 + byteAt (fetchedBlob env) 0) (decryptedWorld env w)) := by
  have hread : Readable (some (Ptr.mk (decryptedBlob env) 1)) (byteAt (fetchedBlob env) 0) :=
    readable_some _ _ (by
      show 1 + byteAt (fetchedBlob env) 0 ≤ (decryptedBlob env).length
      rw [length_decryptedBlob env hL]; omega)
  have hargs := wlan_add_profile_args_open (some (Ptr.mk (decryptedBlob env) 1))
    (byteAt (fetchedBlob env) 0) none 1 0 0 0 none 0 (by intro b hbb; cases hbb) hread
  rw [ssid_bytes_decryptedBlob env hL, u32_small _ (by omega), u16_small _ (by omega)] at hargs
  rw [wlan_smart_config_process_switch env w hk hb hL, if_pos h0,
    wlan_add_profile_eq _ _ _ _ _ _ _ _ _ _ _ _ _ hargs]
  rfl

theorem byteAt_take_zero (l : List Nat) (n : Nat) : byteAt (l.take (n + 1)) 0 = byteAt l 0 := by
  cases l <;> rfl

theorem take_drop_one (l : List Nat) (n : Nat) : (l.drop 1).take n = (l.take (n + 1)).drop 1 := by
  rw [List.drop_take]
  congr 1

/-- C30: for the unsecured security type the add-profile frame of
`wlan_smart_config_process` depends only on `L` and the SSID bytes.  Two runs
(both fetches successful) on blobs with `L ≤ 32` that agree on `blob[0 .. L+1)`
and both have security-type byte 0 send the same argument bytes with the same
declared length `24 + L`, which is the number of bytes of the frame, whatever
the key-length bytes, the key regions, the decryption keys and the ciphers
are. -/
theorem open_profile_frame_depends_on_ssid_only (env1 env2 : Env) (w1 w2 : World)
    (hk1 : env1.aes_read_key.1 = 0) (hb1 : env1.nvmem_read.1 = 0)
    (hk2 : env2.aes_read_key.1 = 0) (hb2 : env2.nvmem_read.1 = 0)
    (hL : byteAt (fetchedBlob env1) 0 ≤ 32)
    (hagree : (fetchedBlob env1).take (byteAt (fetchedBlob env1) 0 + 1) =
      (fetchedBlob env2).take (byteAt (fetchedBlob env1) 0 + 1))
    (h01 : byteAt (fetchedBlob env1) (byteAt (fetchedBlob env1) 0 + 2) = 0)
    (h02 : byteAt (fetchedBlob env2) (byteAt (fetchedBlob env2) 0 + 2) = 0) :
    ∃ frame : List Nat,
      frame = openProfileFrame (byteAt (fetchedBlob env1) 0)
        (((fetchedBlob env1).drop 1).take (byteAt (fetchedBlob env1) 0)) ∧
      frame.length = 24 + byteAt (fetchedBlob env1) 0 ∧
      wlan_smart_config_process env1 w1 =
        SimpleLinkWaitEvent .HCI_CMND_WLAN_IOCTL_ADD_PROFILE
          (hci_command_send .HCI_CMND_WLAN_IOCTL_ADD_PROFILE frame
            (24 + byteAt (fetchedBlob env1) 0) (decryptedWorld env1 w1)) ∧
      wlan_smart_config_process env2 w2 =
        SimpleLinkWaitEvent .HCI_CMND_WLAN_IOCTL_ADD_PROFILE
          (hci_command_send .HCI_CMND_WLAN_IOCTL_ADD_PROFILE frame
            (24 + byteAt (fetchedBlob env1) 0) (decryptedWorld env2 w2)) := by
  have hlen1 := length_fetchedBlob env1
  have hL2 : byteAt (fetchedBlob env2) 0 = byteAt (fetchedBlob env1) 0 := by
    rw [← byteAt_take_zero (fetchedBlob env2) (byteAt (fetchedBlob env1) 0), ← hagree,
      byteAt_take_zero]
  have hssid : ((fetchedBlob env2).drop 1).take (byteAt (fetchedBlob env1) 0) =
      ((fetchedBlob env1).drop 1).take (byteAt (fetchedBlob env1) 0) := by
    rw [take_drop_one, take_drop_one, hagree]
  refine ⟨_, rfl, ?_, wlan_smart_config_process_open env1 w1 hk1 hb1 hL h01, ?_⟩
  · simp only [openProfileFrame, List.length_append, length_le32, List.length_cons,
      List.length_nil, List.length_take, List.length_drop, hlen1]
    omega
  · rw [wlan_smart_config_process_open env2 w2 hk2 hb2 (by rw [hL2]; exact hL) h02, hL2,
      hssid]

theorem open_profile_frame_depends_on_ssid_only_witness :
    ∃ frame : List Nat,
      wlan_smart_config_process openBlobEnvA (idleWorld []) =
        SimpleLinkWaitEvent .HCI_CMND_WLAN_IOCTL_ADD_PROFILE
          (hci_command_send .HCI_CMND_WLAN_IOCTL_ADD_PROFILE frame
            (24 + byteAt (fetchedBlob openBlobEnvA) 0)
            (decryptedWorld openBlobEnvA (idleWorld []))) ∧
      wlan_smart_config_process openBlobEnvB (idleWorld []) =
        SimpleLinkWaitEvent .HCI_CMND_WLAN_IOCTL_ADD_PROFILE
          (hci_command_send .HCI_CMND_WLAN_IOCTL_ADD_PROFILE frame
            (24 + byteAt (fetchedBlob openBlobEnvA) 0)
            (decryptedWorld openBlobEnvB (idleWorld []))) :=
  Exists.imp (fun _ h => ⟨h.2.2.1, h.2.2.2⟩)
    (open_profile_frame_depends_on_ssid_only openBlobEnvA openBlobEnvB
      (idleWorld []) (idleWorld []) rfl rfl rfl rfl (by decide) (by decide) (by decide)
      (by decide))

/-! ## C25: the WEP key blocks -/

/-- C25 (the code diverges): `blobWep104` is a 67-byte WEP blob with L = 20 and
a 13-byte key.  The disambiguation yields key length 13 at array offset 24; the
WEP encoder of `wlan_add_profile` then loads four blocks of 13 bytes from there,
`profileArray[24 .. 76)`, and the fourth block leaves the 67-byte array: the
bounds-checked run stops with an out-of-bounds load before any command is
sent. -/
theorem wep_key_blocks_leave_the_blob :
    blobWep104.length = 67 ∧ byteAt blobWep104 0 = 20 ∧
    byteAt blobWep104 (20 + 2) = WLAN_SEC_WEP ∧
    parsedKey (demoEnv (List.replicate 16 1) blobWep104) = (13, 24) ∧
    ¬ (24 + 4 * 13 ≤ 67) ∧
    (wlan_smart_config_process (demoEnv (List.replicate 16 1) blobWep104)
        (idleWorld [⟨.HCI_CMND_WLAN_IOCTL_ADD_PROFILE, 0⟩])).faulted =
      some (.outOfBounds 67 67) ∧
    (wlan_smart_config_process (demoEnv (List.replicate 16 1) blobWep104)
        (idleWorld [⟨.HCI_CMND_WLAN_IOCTL_ADD_PROFILE, 0⟩])).world.trace =
      [Action.aes_read_key, Action.nvmem_read 13 67 0, Action.aes_decrypt 23,
        Action.aes_decrypt 39] := by
  decide

/-! ## C28: the event mask -/

theorem and_not_or_and (m t b : Nat) (ht : t < 4294967296) :
    ((m &&& (4294967295 - t)) ||| b) &&& t = b &&& t := by
  apply Nat.eq_of_testBit_eq
  intro i
  have e : 4294967295 - t = 2 ^ 32 - (t + 1) := by norm_num; omega
  rw [Nat.testBit_and, Nat.testBit_or, Nat.testBit_and, Nat.testBit_and, e,
    Nat.testBit_two_pow_sub_succ (by norm_num; exact ht)]
  cases m.testBit i <;> cases t.testBit i <;> cases b.testBit i <;> simp

/-- C28: for every mask `m`, after `wlan_set_event_mask(m)` the flag
`InformHostOnTxComplete` is 0 if `(m & HCI_EVNT_WLAN_TX_COMPLETE) ==
HCI_EVNT_WLAN_TX_COMPLETE` and 1 otherwise.  When a command is sent, the mask
word in the frame is `m` itself in the second case and
`(m & ~HCI_EVNT_WLAN_TX_COMPLETE) | HCI_EVNT_WLAN_UNSOL_BASE` in the first
case (declared length 4); and, the TX_COMPLETE code having a bit that the
UNSOL_BASE code lacks, no mask word sent contains the full TX_COMPLETE bit
pattern. -/
theorem set_event_mask_flag_and_forwarded_mask (txComplete unsolBase m : Nat) (w : World)
    (ht : txComplete < 4294967296) :
    (wlan_set_event_mask txComplete unsolBase m w).world.tSLInformation.InformHostOnTxComplete =
      (if m &&& txComplete = txComplete then 0 else 1) ∧
    (m &&& txComplete ≠ txComplete →
      wlan_set_event_mask txComplete unsolBase m w =
        SimpleLinkWaitEvent .HCI_CMND_EVENT_MASK
          (hci_command_send .HCI_CMND_EVENT_MASK (le32 m) 4
            { w with
              tSLInformation := { w.tSLInformation with InformHostOnTxComplete := 1 } })) ∧
    (m &&& txComplete = txComplete → m ≠ txComplete →
      wlan_set_event_mask txComplete unsolBase m w =
        SimpleLinkWaitEvent .HCI_CMND_EVENT_MASK
          (hci_command_send .HCI_CMND_EVENT_MASK
            (le32 ((m &&& (4294967295 - txComplete)) ||| unsolBase)) 4
            { w with
              tSLInformation := { w.tSLInformation with InformHostOnTxComplete := 0 } })) ∧
    (txComplete &&& unsolBase ≠ txComplete →
      ∃ calls, (wlan_set_event_mask txComplete unsolBase m w).world.trace = w.trace ++ calls ∧
        ∀ op args len, Action.hci_command_send op args len ∈ calls →
          ∃ v, args = le32 v ∧ len = 4 ∧ v &&& txComplete ≠ txComplete ∧
            v = (if m &&& txComplete = txComplete then
                (m &&& (4294967295 - txComplete)) ||| unsolBase
              else m)) := by
  have hu : u32 (4294967295 - txComplete) = 4294967295 - txComplete :=
    u32_small _ (by omega)
  have hrunA : m &&& txComplete ≠ txComplete →
      wlan_set_event_mask txComplete unsolBase m w =
        SimpleLinkWaitEvent .HCI_CMND_EVENT_MASK
          (hci_command_send .HCI_CMND_EVENT_MASK (le32 m) 4
            { w with
              tSLInformation := { w.tSLInformation with InformHostOnTxComplete := 1 } }) := by
    intro h1
    unfold wlan_set_event_mask
    simp only [h1, if_false, UINT32_TO_STREAM, le32, WLAN_SET_MASK_PARAMS_LEN,
      List.nil_append]
  have hrunB : m &&& txComplete = txComplete → m ≠ txComplete →
      wlan_set_event_mask txComplete unsolBase m w =
        SimpleLinkWaitEvent .HCI_CMND_EVENT_MASK
          (hci_command_send .HCI_CMND_EVENT_MASK
            (le32 ((m &&& (4294967295 - txComplete)) ||| unsolBase)) 4
            { w with
              tSLInformation := { w.tSLInformation with InformHostOnTxComplete := 0 } }) := by
    intro h1 h2
    unfold wlan_set_event_mask
    simp only [h1, h2, if_true, if_false, hu, UINT32_TO_STREAM, le32,
      WLAN_SET_MASK_PARAMS_LEN, List.nil_append]
  have hrunC : m = txComplete →
      wlan_set_event_mask txComplete unsolBase m w =
        .done 0
          { w with
            tSLInformation := { w.tSLInformation with InformHostOnTxComplete := 0 } } := by
    intro h2
    subst h2
    unfold wlan_set_event_mask
    simp only [Nat.and_self, if_true]
  refine ⟨?_, hrunA, hrunB, ?_⟩
  · by_cases h1 : m &&& txComplete = txComplete
    · rw [if_pos h1]
      by_cases h2 : m = txComplete
      · rw [hrunC h2]; rfl
      · rw [hrunB h1 h2, (SimpleLinkWaitEvent_world _ _).2.2.2.2]; rfl
    · rw [if_neg h1, hrunA h1, (SimpleLinkWaitEvent_world _ _).2.2.2.2]; rfl
  · intro hbase
    by_cases h1 : m &&& txComplete = txComplete
    · by_cases h2 : m = txComplete
      · refine ⟨[], by rw [hrunC h2]; simp [Outcome.world], ?_⟩
        intro op args len hmem
        cases hmem
      · refine ⟨_, by rw [hrunB h1 h2]; exact command_trace _ _ _ _, ?_⟩
        intro op args len hmem
        simp at hmem
        obtain ⟨_, rfl, rfl⟩ := hmem
        refine ⟨_, rfl, rfl, ?_, by rw [if_pos h1]⟩
        rw [and_not_or_and m txComplete unsolBase ht, Nat.and_comm]
        exact hbase
    · refine ⟨_, by rw [hrunA h1]; exact command_trace _ _ _ _, ?_⟩
      intro op args len hmem
      simp at hmem
      obtain ⟨_, rfl, rfl⟩ := hmem
      exact ⟨_, rfl, rfl, h1, by rw [if_neg h1]⟩

theorem set_event_mask_flag_and_forwarded_mask_witness :
    wlan_set_event_mask 0x8008 0x8000 0x800B (idleWorld []) =
      SimpleLinkWaitEvent .HCI_CMND_EVENT_MASK
        (hci_command_send .HCI_CMND_EVENT_MASK
          (le32 ((0x800B &&& (4294967295 - 0x8008)) ||| 0x8000)) 4
          { (idleWorld []) with
            tSLInformation :=
              { (idleWorld []).tSLInformation with InformHostOnTxComplete := 0 } }) :=
  (set_event_mask_flag_and_forwarded_mask 0x8008 0x8000 0x800B (idleWorld [])
    (by decide)).2.2.1 (by decide) (by decide)

/-! ## C29: the scan parameters frame -/

/-- C29: `wlan_ioctl_set_scan_params` writes nine 32-bit words (the constant
36, then enable, minimum dwell time, maximum dwell time, probe requests,
channel mask, the RSSI threshold reduced modulo 2^32, SNR threshold, TX power)
followed by the 64 bytes of the 16-entry interval list: 100 bytes, the declared
length `WLAN_SET_SCAN_PARAMS_LEN`; the interval list starts at offset 36 of the
arguments, the value of the leading word. -/
theorem set_scan_params_frame (uiEnable uiMinDwellTime uiMaxDwellTime uiNumOfProbeRequests
    uiChannelMask : Nat) (iRSSIThreshold : Int) (uiSNRThreshold uiDefaultTxPower : Nat)
    (aiIntervalList : Option Ptr) (w : World)
    (hil : Readable aiIntervalList 64) :
    ∃ args : List Nat,
      args = le32 36 ++ le32 uiEnable ++ le32 uiMinDwellTime ++ le32 uiMaxDwellTime ++
        le32 uiNumOfProbeRequests ++ le32 uiChannelMask ++
        le32 (iRSSIThreshold % 4294967296).toNat ++ le32 uiSNRThreshold ++
        le32 uiDefaultTxPower ++ bytesAt aiIntervalList 64 ∧
      wlan_ioctl_set_scan_params_args uiEnable uiMinDwellTime uiMaxDwellTime
        uiNumOfProbeRequests uiChannelMask iRSSIThreshold uiSNRThreshold uiDefaultTxPower
        aiIntervalList = .ok args ∧
      wlan_ioctl_set_scan_params uiEnable uiMinDwellTime uiMaxDwellTime
          uiNumOfProbeRequests uiChannelMask iRSSIThreshold uiSNRThreshold uiDefaultTxPower
          aiIntervalList w =
        SimpleLinkWaitEvent .HCI_CMND_WLAN_IOCTL_SET_SCANPARAM
          (hci_command_send .HCI_CMND_WLAN_IOCTL_SET_SCANPARAM args
            WLAN_SET_SCAN_PARAMS_LEN w) ∧
      args.length = 100 ∧ WLAN_SET_SCAN_PARAMS_LEN = 100 ∧
      (bytesAt aiIntervalList 64).length = 64 ∧
      args.take 4 = le32 36 ∧ args.drop 36 = bytesAt aiIntervalList 64 := by
  have hlen := length_bytesAt aiIntervalList 64 hil
  have hargs : wlan_ioctl_set_scan_params_args uiEnable uiMinDwellTime uiMaxDwellTime
      uiNumOfProbeRequests uiChannelMask iRSSIThreshold uiSNRThreshold uiDefaultTxPower
      aiIntervalList =
      .ok (le32 36 ++ le32 uiEnable ++ le32 uiMinDwellTime ++ le32 uiMaxDwellTime ++
        le32 uiNumOfProbeRequests ++ le32 uiChannelMask ++
        le32 (iRSSIThreshold % 4294967296).toNat ++ le32 uiSNRThreshold ++
        le32 uiDefaultTxPower ++ bytesAt aiIntervalList 64) := by
    simp [wlan_ioctl_set_scan_params_args, UINT32_TO_STREAM, le32,
      SL_SET_SCAN_PARAMS_INTERVAL_LIST_SIZE, ARRAY_TO_STREAM_readable _ _ _ hil]
  refine ⟨_, rfl, hargs, ?_, ?_, rfl, hlen, rfl, ?_⟩
  · simp only [wlan_ioctl_set_scan_params, hargs]
  · simp only [List.length_append, length_le32, hlen]
  · exact List.drop_left' (by simp only [List.length_append, length_le32])

theorem set_scan_params_frame_witness :
    ∃ args : List Nat,
      wlan_ioctl_set_scan_params_args 1 100 100 5 0x7ff (-80) 0 205
          (some ⟨List.replicate 64 7, 0⟩) = .ok args ∧
        args.length = 100 :=
  Exists.imp (fun _ h => ⟨h.2.1, h.2.2.2.1⟩)
    (set_scan_params_frame 1 100 100 5 0x7ff (-80) 0 205 (some ⟨List.replicate 64 7, 0⟩)
      (idleWorld []) (by decide))

/-! ## C23: the offset fields -/

theorem byteAt_append_right (pre l : List Nat) (i : Nat) :
    byteAt (pre ++ l) (pre.length + i) = byteAt l i := by
  unfold byteAt
  rw [List.getD_append_right _ _ _ _ (by omega)]
  congr 1
  omega

theorem word32At_le32 (pre rest : List Nat) (v : Nat) (hv : v < 4294967296) :
    word32At (pre ++ (le32 v ++ rest)) pre.length = v := by
  have h0 := byteAt_append_right pre (le32 v ++ rest) 0
  have h1 := byteAt_append_right pre (le32 v ++ rest) 1
  have h2 := byteAt_append_right pre (le32 v ++ rest) 2
  have h3 := byteAt_append_right pre (le32 v ++ rest) 3
  rw [Nat.add_zero] at h0
  unfold word32At
  rw [h0, h1, h2, h3]
  simp only [le32, byteAt, List.cons_append, List.getD_cons_zero, List.getD_cons_succ]
  omega

/-- An offset field `v` stored at position `p`, with `mid` between the field
and the data, holds the distance from the start of the field to the data when
`v = 4 + mid.length`. -/
theorem offset_field_locates (pre mid data tail : List Nat) (v p : Nat)
    (hp : pre.length = p) (hv : v < 4294967296) (hd : 4 + mid.length = v) :
    word32At (pre ++ (le32 v ++ (mid ++ (data ++ tail)))) p = v ∧
    ((pre ++ (le32 v ++ (mid ++ (data ++ tail)))).drop
        (p + word32At (pre ++ (le32 v ++ (mid ++ (data ++ tail)))) p)).take data.length =
      data := by
  have hw := word32At_le32 pre (mid ++ (data ++ tail)) v hv
  rw [hp] at hw
  refine ⟨hw, ?_⟩
  rw [hw]
  have e : pre ++ (le32 v ++ (mid ++ (data ++ tail))) =
      (pre ++ le32 v ++ mid) ++ (data ++ tail) := by
    simp only [List.append_assoc]
  rw [e, List.drop_left' (by simp only [List.length_append, length_le32]; omega),
    List.take_left' rfl]

theorem connect_frame_offsets (sec n kl : Nat) (bss ssid key : List Nat)
    (hb : bss.length = 6) (hs : ssid.length = n) (hn : n + 16 < 4294967296)
    (F : List Nat)
    (hF : F = le32 0x1c ++ le32 n ++ le32 sec ++ le32 (0x10 + n) ++ le32 kl ++ [0, 0] ++
      bss ++ ssid ++ key) :
    word32At F 0 = 0x1c ∧ (F.drop (0 + word32At F 0)).take n = ssid ∧
    word32At F 12 = 0x10 + n ∧ (F.drop (12 + word32At F 12)).take key.length = key := by
  have e1 : F = [] ++ (le32 0x1c ++ ((le32 n ++ le32 sec ++ le32 (0x10 + n) ++ le32 kl ++
      [0, 0] ++ bss) ++ (ssid ++ key))) := by
    rw [hF]; simp only [List.append_assoc, List.nil_append]
  have e2 : F = (le32 0x1c ++ le32 n ++ le32 sec) ++ (le32 (0x10 + n) ++
      ((le32 kl ++ [0, 0] ++ bss ++ ssid) ++ (key ++ []))) := by
    rw [hF]; simp only [List.append_assoc, List.append_nil]
  have f1 := offset_field_locates [] (le32 n ++ le32 sec ++ le32 (0x10 + n) ++ le32 kl ++
    [0, 0] ++ bss) ssid key 0x1c 0 rfl (by omega)
    (by simp only [List.length_append, length_le32, hb, List.length_cons, List.length_nil])
  have f2 := offset_field_locates (le32 0x1c ++ le32 n ++ le32 sec)
    (le32 kl ++ [0, 0] ++ bss ++ ssid) key [] (0x10 + n) 12 rfl (by omega)
    (by simp only [List.length_append, length_le32, hb, hs, List.length_cons,
      List.length_nil]; omega)
  rw [← e1, hs] at f1
  rw [← e2] at f2
  exact ⟨f1.1, f1.2, f2.1, f2.2⟩

theorem open_frame_offsets (n prio : Nat) (bss ssid : List Nat)
    (hb : bss.length = 6) (hs : ssid.length = n) (F : List Nat)
    (hF : F = le32 0 ++ le32 0x14 ++ le32 n ++ [0, 0] ++ bss ++ le32 prio ++ ssid) :
    word32At F 4 = 0x14 ∧ (F.drop (4 + word32At F 4)).take n = ssid := by
  have e1 : F = le32 0 ++ (le32 0x14 ++ ((le32 n ++ [0, 0] ++ bss ++ le32 prio) ++
      (ssid ++ []))) := by
    rw [hF]; simp only [List.append_assoc, List.append_nil]
  have f1 := offset_field_locates (le32 0) (le32 n ++ [0, 0] ++ bss ++ le32 prio) ssid []
    0x14 4 rfl (by omega)
    (by simp only [List.length_append, length_le32, hb, List.length_cons, List.length_nil])
  rw [← e1, hs] at f1
  exact f1

theorem wep_frame_offsets (n prio len g : Nat) (bss ssid k0 rest : List Nat)
    (hb : bss.length = 6) (hs : ssid.length = n) (hn : n + 16 < 4294967296)
    (F : List Nat)
    (hF : F = le32 1 ++ le32 0x20 ++ le32 n ++ [0, 0] ++ bss ++ le32 prio ++
      le32 (0x0C + n) ++ le32 len ++ le32 g ++ ssid ++ k0 ++ rest) :
    word32At F 4 = 0x20 ∧ (F.drop (4 + word32At F 4)).take n = ssid ∧
    word32At F 24 = 0x0C + n ∧ (F.drop (24 + word32At F 24)).take k0.length = k0 := by
  have e1 : F = le32 1 ++ (le32 0x20 ++ ((le32 n ++ [0, 0] ++ bss ++ le32 prio ++
      le32 (0x0C + n) ++ le32 len ++ le32 g) ++ (ssid ++ (k0 ++ rest)))) := by
    rw [hF]; simp only [List.append_assoc]
  have e2 : F = (le32 1 ++ le32 0x20 ++ le32 n ++ [0, 0] ++ bss ++ le32 prio) ++
      (le32 (0x0C + n) ++ ((le32 len ++ le32 g ++ ssid) ++ (k0 ++ rest))) := by
    rw [hF]; simp only [List.append_assoc]
  have f1 := offset_field_locates (le32 1) (le32 n ++ [0, 0] ++ bss ++ le32 prio ++
    le32 (0x0C + n) ++ le32 len ++ le32 g) ssid (k0 ++ rest) 0x20 4 rfl (by omega)
    (by simp only [List.length_append, length_le32, hb, List.length_cons, List.length_nil])
  have f2 := offset_field_locates (le32 1 ++ le32 0x20 ++ le32 n ++ [0, 0] ++ bss ++ le32 prio)
    (le32 len ++ le32 g ++ ssid) k0 rest (0x0C + n) 24
    (by simp only [List.length_append, length_le32, hb, List.length_cons, List.length_nil])
    (by omega)
    (by simp only [List.length_append, length_le32, hs]; omega)
  rw [← e1, hs] at f1
  rw [← e2] at f2
  exact ⟨f1.1, f1.2, f2.1, f2.2⟩

theorem wpa_frame_offsets (sec n prio c g k pl : Nat) (bss ssid key : List Nat)
    (hb : bss.length = 6) (hs : ssid.length = n) (hn : n + 16 < 4294967296)
    (F : List Nat)
    (hF : F = le32 sec ++ le32 0x28 ++ le32 n ++ [0, 0] ++ bss ++ le32 prio ++ le32 c ++
      le32 g ++ le32 k ++ le32 (0x08 + n) ++ le32 pl ++ ssid ++ key) :
    word32At F 4 = 0x28 ∧ (F.drop (4 + word32At F 4)).take n = ssid ∧
    word32At F 36 = 0x08 + n ∧ (F.drop (36 + word32At F 36)).take key.length = key := by
  have e1 : F = le32 sec ++ (le32 0x28 ++ ((le32 n ++ [0, 0] ++ bss ++ le32 prio ++ le32 c ++
      le32 g ++ le32 k ++ le32 (0x08 + n) ++ le32 pl) ++ (ssid ++ key))) := by
    rw [hF]; simp only [List.append_assoc]
  have e2 : F = (le32 sec ++ le32 0x28 ++ le32 n ++ [0, 0] ++ bss ++ le32 prio ++ le32 c ++
      le32 g ++ le32 k) ++ (le32 (0x08 + n) ++ ((le32 pl ++ ssid) ++ (key ++ []))) := by
    rw [hF]; simp only [List.append_assoc, List.append_nil]
  have f1 := offset_field_locates (le32 sec) (le32 n ++ [0, 0] ++ bss ++ le32 prio ++ le32 c ++
    le32 g ++ le32 k ++ le32 (0x08 + n) ++ le32 pl) ssid key 0x28 4 rfl (by omega)
    (by simp only [List.length_append, length_le32, hb, List.length_cons, List.length_nil])
  have f2 := offset_field_locates (le32 sec ++ le32 0x28 ++ le32 n ++ [0, 0] ++ bss ++
    le32 prio ++ le32 c ++ le32 g ++ le32 k) (le32 pl ++ ssid) key [] (0x08 + n) 36
    (by simp only [List.length_append, length_le32, hb, List.length_cons, List.length_nil])
    (by omega)
    (by simp only [List.length_append, length_le32, hs]; omega)
  rw [← e1, hs] at f1
  rw [← e2] at f2
  exact ⟨f1.1, f1.2, f2.1, f2.2⟩

/-- C23: in every frame built by `wlan_connect` and by `wlan_add_profile`
(open, WEP, WPA/WPA2) each embedded offset field holds the distance in bytes
from the start of that field to the first byte of the data it locates.  The
SSID offsets 0x1c (connect, field at 0), 0x14 (open), 0x20 (WEP), 0x28 (WPA)
(field at 4) lead to the SSID bytes, and the key offsets `0x10 + ssid_len`
(connect, field at 12), `0x0C + ssidLen` (WEP, field at 24) and
`0x08 + ssidLen` (WPA, field at 36) lead to the key or passphrase bytes, for
every SSID length whose offset fits the 32-bit field. -/
theorem offset_fields_hold_distance_to_data (ssid : Option Ptr) (n : Nat)
    (bssid : Option Ptr) (hb : ∀ b, bssid = some b → b.off + 6 ≤ b.obj.length)
    (hs : Readable ssid n) (hn : n + 16 < 4294967296) :
    (∀ sec key kl, Readable key kl →
      ∃ args len, wlan_connect_args sec ssid n bssid key kl = .ok (args, len) ∧
        word32At args 0 = 0x1c ∧
        (args.drop (0 + word32At args 0)).take n = bytesAt ssid n ∧
        word32At args 12 = 0x10 + n ∧
        (args.drop (12 + word32At args 12)).take kl = bytesAt key kl) ∧
    (∀ prio c g k key pl,
      ∃ args len, wlan_add_profile_args WLAN_SEC_UNSEC ssid n bssid prio c g k key pl =
          .ok (args, len) ∧
        word32At args 4 = 0x14 ∧
        (args.drop (4 + word32At args 4)).take n = bytesAt ssid n) ∧
    (∀ prio keyLen g k key pl, keyLen < 1073741824 → Readable key (4 * keyLen) →
      ∃ args len, wlan_add_profile_args WLAN_SEC_WEP ssid n bssid prio keyLen g k key pl =
          .ok (args, len) ∧
        word32At args 4 = 0x20 ∧
        (args.drop (4 + word32At args 4)).take n = bytesAt ssid n ∧
        word32At args 24 = 0x0C + n ∧
        (args.drop (24 + word32At args 24)).take keyLen = bytesAt key keyLen) ∧
    (∀ sec, sec = WLAN_SEC_WPA ∨ sec = WLAN_SEC_WPA2 →
      ∀ prio c g k key pl, Readable key pl →
      ∃ args len, wlan_add_profile_args sec ssid n bssid prio c g k key pl =
          .ok (args, len) ∧
        word32At args 4 = 0x28 ∧
        (args.drop (4 + word32At args 4)).take n = bytesAt ssid n ∧
        word32At args 36 = 0x08 + n ∧
        (args.drop (36 + word32At args 36)).take pl = bytesAt key pl) := by
  have hbl := length_bssidBytes bssid hb
  have hsl := length_bytesAt ssid n hs
  refine ⟨?_, ?_, ?_, ?_⟩
  · intro sec key kl hk
    have hkl := length_bytesAt key kl hk
    have h := connect_frame_offsets sec n kl (bssidBytes bssid) (bytesAt ssid n)
      (bytesAt key kl) hbl hsl hn _ rfl
    rw [hkl] at h
    exact ⟨_, _, wlan_connect_args_eq sec ssid n bssid key kl hb hs (fun _ => hk), h⟩
  · intro prio c g k key pl
    exact ⟨_, _, wlan_add_profile_args_open ssid n bssid prio c g k key pl hb hs,
      open_frame_offsets n prio (bssidBytes bssid) (bytesAt ssid n) hbl hsl _ rfl⟩
  · intro prio keyLen g k key pl hlen hk
    have hk0 : (bytesAt key keyLen).length = keyLen := by
      have := length_bytesAt _ _ (readable_block key keyLen 0 (by omega) hk)
      have p0 : ptrAdd key (0 * keyLen) = key := by
        cases key <;> simp [ptrAdd, Ptr.add]
      rw [p0] at this
      exact this
    have hargs := wlan_add_profile_args_wep ssid n bssid prio keyLen g k key pl hb hs hlen hk
    rw [u32_small (0x0C + n) (by omega)] at hargs
    have h := wep_frame_offsets n prio keyLen g (bssidBytes bssid) (bytesAt ssid n)
      (bytesAt key keyLen)
      (bytesAt (ptrAdd key keyLen) keyLen ++ bytesAt (ptrAdd key (2 * keyLen)) keyLen ++
        bytesAt (ptrAdd key (3 * keyLen)) keyLen) hbl hsl hn
      (le32 1 ++ le32 0x20 ++ le32 n ++ [0, 0] ++ bssidBytes bssid ++
        le32 prio ++ le32 (0x0C + n) ++ le32 keyLen ++ le32 g ++
        bytesAt ssid n ++ bytesAt key keyLen ++ bytesAt (ptrAdd key keyLen) keyLen ++
        bytesAt (ptrAdd key (2 * keyLen)) keyLen ++ bytesAt (ptrAdd key (3 * keyLen)) keyLen)
      (by simp only [List.append_assoc])
    rw [hk0] at h
    exact ⟨_, _, hargs, h⟩
  · intro sec hsec prio c g k key pl hk
    have hkl := length_bytesAt key pl hk
    have hargs := wlan_add_profile_args_wpa sec hsec ssid n bssid prio c g k key pl hb hs hk
    rw [u32_small (0x08 + n) (by omega)] at hargs
    have h := wpa_frame_offsets sec n prio c g k pl (bssidBytes bssid) (bytesAt ssid n)
      (bytesAt key pl) hbl hsl hn _ rfl
    rw [hkl] at h
    exact ⟨_, _, hargs, h⟩

theorem offset_fields_hold_distance_to_data_witness :
    ∃ args len,
      wlan_connect_args WLAN_SEC_WPA2 (some ⟨[65, 66], 0⟩) 2 none
          (some ⟨[1, 2, 3, 4, 5], 0⟩) 5 = .ok (args, len) ∧
        word32At args 0 = 0x1c ∧
        (args.drop (0 + word32At args 0)).take 2 = bytesAt (some ⟨[65, 66], 0⟩) 2 ∧
        word32At args 12 = 0x10 + 2 ∧
        (args.drop (12 + word32At args 12)).take 5 = bytesAt (some ⟨[1, 2, 3, 4, 5], 0⟩) 5 :=
  (offset_fields_hold_distance_to_data (some ⟨[65, 66], 0⟩) 2 none
    (by intro b h; cases h) (by decide) (by decide)).1 WLAN_SEC_WPA2
    (some ⟨[1, 2, 3, 4, 5], 0⟩) 5 (by decide)

/-! ## C15, C16 and C24: runs whose key bytes lie inside the array -/

/-- With the key bytes inside the array, the argument bytes of the add-profile
call of a supported blob are encoded without a fault. -/
theorem smart_config_frame_encoded (env : Env) (w : World)
    (hk : env.aes_read_key.1 = 0) (hb : env.nvmem_read.1 = 0)
    (hL : byteAt (fetchedBlob env) 0 ≤ 32)
    (hs : byteAt (fetchedBlob env) (byteAt (fetchedBlob env) 0 + 2) ≤ 3)
    (hkey : keyBytesInArray env) :
    ∃ sec c g k key pl args len, sec ≤ 3 ∧
      wlan_smart_config_process env w =
        wlan_add_profile sec (some (Ptr.mk (decryptedBlob env) 1)) (byteAt (fetchedBlob env) 0)
          none 1 c g k key pl (decryptedWorld env w) ∧
      wlan_add_profile_args sec (some (Ptr.mk (decryptedBlob env) 1))
        (byteAt (fetchedBlob env) 0) none 1 c g k key pl = .ok (args, len) := by
  have hnb : ∀ b, (none : Option Ptr) = some b → b.off + 6 ≤ b.obj.length := by
    intro b hbb; cases hbb
  have hdl := length_decryptedBlob env hL
  have hread : Readable (some (Ptr.mk (decryptedBlob env) 1)) (byteAt (fetchedBlob env) 0) :=
    readable_some _ _ (by
      show 1 + byteAt (fetchedBlob env) 0 ≤ (decryptedBlob env).length
      rw [hdl]; omega)
  rw [wlan_smart_config_process_switch env w hk hb hL]
  unfold keyBytesInArray at hkey
  simp only [WLAN_SEC_WEP, WLAN_SEC_WPA, WLAN_SEC_WPA2] at hkey
  split_ifs with h0 h1 h23
  · exact ⟨0, _, _, _, _, _, _, _, by omega, rfl,
      wlan_add_profile_args_open _ _ none 1 0 0 0 none 0 hnb hread⟩
  · rw [if_pos h1] at hkey
    have hlen : (parsedKey env).1 < 1073741824 := by
      rcases hkey with h | h
      · omega
      · have : (parsedKey env).2 + 4 * (parsedKey env).1 ≤ (decryptedBlob env).length := h
        rw [hdl] at this
        omega
    exact ⟨1, _, _, _, _, _, _, _, by omega, rfl,
      wlan_add_profile_args_wep _ _ none 1 _ 0 0 _ 0 hnb hread hlen hkey⟩
  · rw [if_neg h1, if_pos h23] at hkey
    exact ⟨3, _, _, _, _, _, _, _, by omega, rfl,
      wlan_add_profile_args_wpa 3 (Or.inr rfl) _ _ none 1 0x18 0x1e 2 _ _ hnb hread hkey⟩
  · omega

/-- With the key bytes inside the array the run of a supported blob is the wait
on the add-profile command, whose frame has the head of `wlan_add_profile` and
the SSID bytes of the blob. -/
theorem smart_config_run_sends (env : Env) (w : World)
    (hk : env.aes_read_key.1 = 0) (hb : env.nvmem_read.1 = 0)
    (hL : byteAt (fetchedBlob env) 0 ≤ 32)
    (hs : byteAt (fetchedBlob env) (byteAt (fetchedBlob env) 0 + 2) ≤ 3)
    (hkey : keyBytesInArray env) :
    ∃ args len,
      wlan_smart_config_process env w =
        SimpleLinkWaitEvent .HCI_CMND_WLAN_IOCTL_ADD_PROFILE
          (hci_command_send .HCI_CMND_WLAN_IOCTL_ADD_PROFILE args len
            (decryptedWorld env w)) ∧
      ∃ sec mid tail,
        args = le32 sec ++ le32 (if sec = 0 then 0x14 else if sec = 1 then 0x20 else 0x28) ++
          le32 (byteAt (fetchedBlob env) 0) ++ [0, 0] ++ [0, 0, 0, 0, 0, 0] ++ le32 1 ++
          mid ++ ((fetchedBlob env).drop 1).take (byteAt (fetchedBlob env) 0) ++ tail ∧
        mid.length + 24 = addProfilePrefix sec ∧
        (((fetchedBlob env).drop 1).take (byteAt (fetchedBlob env) 0)).length =
          byteAt (fetchedBlob env) 0 := by
  obtain ⟨sec, c, g, k, key, pl, args, len, hsec, hrun, hargs⟩ :=
    smart_config_frame_encoded env w hk hb hL hs hkey
  have hread : Readable (some (Ptr.mk (decryptedBlob env) 1)) (byteAt (fetchedBlob env) 0) :=
    readable_some _ _ (by
      show 1 + byteAt (fetchedBlob env) 0 ≤ (decryptedBlob env).length
      rw [length_decryptedBlob env hL]; omega)
  have hssid := ssid_bytes_decryptedBlob env hL
  obtain ⟨mid, tail, hfr, hmid⟩ := wlan_add_profile_args_head sec hsec _ _ 1 c g k key pl
    hread args len hargs
  refine ⟨args, len, ?_, sec, mid, tail, ?_, hmid, ?_⟩
  · rw [hrun, wlan_add_profile_eq _ _ _ _ _ _ _ _ _ _ _ _ _ hargs]
  · rw [hfr, hssid]
  · rw [← hssid]; exact length_bytesAt _ _ hread

theorem SimpleLinkWaitEvent_not_faulted (op : Opcode) (v : World) :
    (SimpleLinkWaitEvent op v).faulted = none := by
  rcases split_first_match op v.rx with hno | ⟨pre, e, rest, hrx, he, hpre⟩
  · obtain ⟨w2, h1, _⟩ := SimpleLinkWaitEvent_no_match op v hno
    rw [h1]; rfl
  · obtain ⟨w2, h1, _⟩ := SimpleLinkWaitEvent_first_match op v pre e rest hrx he hpre
    rw [h1]; rfl

theorem wlan_add_profile_fault (sec : Nat) (ucSsid : Option Ptr) (n : Nat)
    (ucBssid : Option Ptr) (prio c g k : Nat) (key : Option Ptr) (pl : Nat) (v : World)
    (f : Fault)
    (h : (wlan_add_profile sec ucSsid n ucBssid prio c g k key pl v).faulted = some f) :
    wlan_add_profile_args sec ucSsid n ucBssid prio c g k key pl = .error f := by
  rcases wlan_add_profile_outcome sec ucSsid n ucBssid prio c g k key pl v with
    ⟨f2, he, hr⟩ | ⟨args, len, _, ⟨_, w2, hr⟩ | ⟨pre, e, rest, w2, _, _, _, hr⟩⟩
  · rw [hr] at h
    cases h
    exact he
  · rw [hr] at h; cases h
  · rw [hr] at h; cases h

/-- A run whose key bytes lie inside the array does not fault. -/
theorem wlan_smart_config_process_no_fault (env : Env) (w : World)
    (hk : env.aes_read_key.1 = 0) (hb : env.nvmem_read.1 = 0)
    (hL : byteAt (fetchedBlob env) 0 ≤ 32) (hkey : keyBytesInArray env) :
    (wlan_smart_config_process env w).faulted = none := by
  by_cases hs : byteAt (fetchedBlob env) (byteAt (fetchedBlob env) 0 + 2) ≤ 3
  · obtain ⟨args, len, hrun, _⟩ := smart_config_run_sends env w hk hb hL hs hkey
    rw [hrun]
    exact SimpleLinkWaitEvent_not_faulted _ _
  · rw [wlan_smart_config_process_switch env w hk hb hL,
      if_neg (by omega), if_neg (by omega), if_neg (by omega)]
    rfl

/-- C24: for every 67-byte blob with `blob[0] = L ≤ 32` every index that
`wlan_smart_config_process` itself reads, decrypts or inspects is below 67.
In any state with the 67-byte array the loads of `profileArray[0]`,
`profileArray[L+1]`, `profileArray[L+2]`, `profileArray[L+3]` and
`profileArray[L+34]` and the decryptions of the blocks at `L+3` and `L+19`
succeed; the decryption and disambiguation steps of the run end with their
result, from which the call goes on to the `switch`, and the two loads of the
`switch` end with their result too; the blocks that are decrypted
lie inside the array; and the whole call faults only when the key bytes that the
selected `wlan_add_profile` call loads are not all inside the array, the fault
being the load error of exactly that call's encoder. -/
theorem smart_config_own_reads_stay_in_blob (env : Env) (w : World)
    (hk : env.aes_read_key.1 = 0) (hb : env.nvmem_read.1 = 0)
    (hL : byteAt (fetchedBlob env) 0 ≤ 32) :
    (∀ v : World, v.profileArray.length = 67 →
      (∀ i, i = 0 ∨ i = byteAt (fetchedBlob env) 0 + 1 ∨ i = byteAt (fetchedBlob env) 0 + 2 ∨
          i = byteAt (fetchedBlob env) 0 + 3 ∨ i = byteAt (fetchedBlob env) 0 + 34 →
        i < 67 ∧ profileByte i v = .done (byteAt v.profileArray i) v) ∧
      (∀ o, o = byteAt (fetchedBlob env) 0 + 3 ∨ o = byteAt (fetchedBlob env) 0 + 19 →
        o + 16 ≤ 67 ∧ (aes_decrypt env o v).faulted = none ∧
        (aes_decrypt env o v).world.profileArray.length = 67)) ∧
    smartConfigDecrypt env (fetchedWorld env w) =
      .done (1, byteAt (fetchedBlob env) 0, (parsedKey env).1, (parsedKey env).2)
        (decryptedWorld env w) ∧
    wlan_smart_config_process env w =
      smartConfigAddProfile 0 1 (byteAt (fetchedBlob env) 0) (parsedKey env).1
        (parsedKey env).2 (decryptedWorld env w) ∧
    profileByte 0 (decryptedWorld env w) =
      .done (byteAt (fetchedBlob env) 0) (decryptedWorld env w) ∧
    profileByte (byteAt (fetchedBlob env) 0 + 2) (decryptedWorld env w) =
      .done (byteAt (fetchedBlob env) (byteAt (fetchedBlob env) 0 + 2))
        (decryptedWorld env w) ∧
    (∀ o, Action.aes_decrypt o ∈ decryptCalls (fetchedBlob env) →
      o + 16 ≤ (fetchedBlob env).length) ∧
    (keyBytesInArray env → (wlan_smart_config_process env w).faulted = none) ∧
    (∀ f, (wlan_smart_config_process env w).faulted = some f →
      ¬ keyBytesInArray env ∧
      ((byteAt (fetchedBlob env) (byteAt (fetchedBlob env) 0 + 2) = WLAN_SEC_WEP ∧
          wlan_add_profile_args WLAN_SEC_WEP (some (Ptr.mk (decryptedBlob env) 1))
            (byteAt (fetchedBlob env) 0) none 1 (parsedKey env).1 0 0
            (some (Ptr.mk (decryptedBlob env) (parsedKey env).2)) 0 = .error f) ∨
        ((byteAt (fetchedBlob env) (byteAt (fetchedBlob env) 0 + 2) = WLAN_SEC_WPA ∨
            byteAt (fetchedBlob env) (byteAt (fetchedBlob env) 0 + 2) = WLAN_SEC_WPA2) ∧
          wlan_add_profile_args WLAN_SEC_WPA2 (some (Ptr.mk (decryptedBlob env) 1))
            (byteAt (fetchedBlob env) 0) none 1 0x18 0x1e 2
            (some (Ptr.mk (decryptedBlob env) (parsedKey env).2)) (parsedKey env).1 =
              .error f))) := by
  have hlen := length_fetchedBlob env
  have hdl : (decryptedWorld env w).profileArray.length = 67 := length_decryptedBlob env hL
  have h0 : byteAt (decryptedBlob env) 0 = byteAt (fetchedBlob env) 0 :=
    byteAt_decryptedBlob_lt env 0 hL (by omega)
  have h2 : byteAt (decryptedBlob env) (byteAt (fetchedBlob env) 0 + 2) =
      byteAt (fetchedBlob env) (byteAt (fetchedBlob env) 0 + 2) :=
    byteAt_decryptedBlob_lt env _ hL (by omega)
  refine ⟨?_, smartConfigDecrypt_fetched env w hL,
    wlan_smart_config_process_reaches_switch env w hk hb hL, ?_, ?_, ?_, ?_, ?_⟩
  · intro v hv
    refine ⟨?_, ?_⟩
    · intro i hi
      have hi67 : i < 67 := by omega
      exact ⟨hi67, profileByte_eq i v (by rw [hv]; exact hi67)⟩
    · intro o ho
      have ho67 : o + 16 ≤ 67 := by omega
      rw [aes_decrypt_ok env o v (by rw [hv]; exact ho67)]
      refine ⟨ho67, rfl, ?_⟩
      show (decryptAt env.aes_decrypt v.akey v.profileArray o).length = 67
      rw [length_decryptAt _ _ _ _ (by rw [hv]; exact ho67), hv]
  · rw [profileByte_eq 0 _ (by rw [hdl]; omega)]
    show Outcome.done (byteAt (decryptedBlob env) 0) _ = _
    rw [h0]
  · rw [profileByte_eq _ _ (by rw [hdl]; omega)]
    show Outcome.done (byteAt (decryptedBlob env) (byteAt (fetchedBlob env) 0 + 2)) _ = _
    rw [h2]
  · intro o ho
    unfold decryptCalls at ho
    split_ifs at ho
    · simp only [List.mem_cons, Action.aes_decrypt.injEq, List.mem_singleton,
        List.not_mem_nil, or_false] at ho
      rcases ho with rfl | rfl <;> omega
    · simp only [List.mem_singleton, Action.aes_decrypt.injEq] at ho
      subst ho; omega
  · exact wlan_smart_config_process_no_fault env w hk hb hL
  · intro f hf
    have hnk : ¬ keyBytesInArray env := by
      intro hkey
      rw [wlan_smart_config_process_no_fault env w hk hb hL hkey] at hf
      cases hf
    refine ⟨hnk, ?_⟩
    rw [wlan_smart_config_process_switch env w hk hb hL] at hf
    split_ifs at hf with g0 g1 g23
    · exfalso
      apply hnk
      unfold keyBytesInArray
      simp only [WLAN_SEC_WEP, WLAN_SEC_WPA, WLAN_SEC_WPA2, g0]
      trivial
    · exact Or.inl ⟨g1, wlan_add_profile_fault _ _ _ _ _ _ _ _ _ _ _ f hf⟩
    · exact Or.inr ⟨g23, wlan_add_profile_fault _ _ _ _ _ _ _ _ _ _ _ f hf⟩
    · cases hf

theorem smart_config_own_reads_stay_in_blob_witness :
    (wlan_smart_config_process (demoEnv (List.replicate 16 1) blobWep)
      (idleWorld [])).faulted = none :=
  (smart_config_own_reads_stay_in_blob (demoEnv (List.replicate 16 1) blobWep) (idleWorld [])
    rfl rfl (by decide)).2.2.2.2.2.2.1 (by decide)

end CC3000
